import Mathlib

/-!
A shallow embedding of `libavdevice/xcbgrab.c` (xcbgrab).

The definitions below follow the C source function by function.

Conventions of the embedding
* A C `int` value is a Lean `Int`.  Where the source does `int` arithmetic on
  values that are not bounded by the surrounding code (`xcbgrab_reposition`,
  the bounds check of `create_stream`), every operation is followed by
  `wrapInt`, the two's complement wraparound to 32 bits.
* `xcbgrab_draw_mouse` is embedded twice: in exact integers
  (`draw_mouse_loops`, `xcbgrab_draw_mouse`), and with every `int` operation
  wrapped to 32 bits (`draw_mouse_loops_wrap`, `xcbgrab_draw_mouse_wrap`).  The
  two agree on the inputs described by `draw_mouse_in_range` (theorem
  `xcbgrab_draw_mouse_wrap_eq`); outside that range they can differ.
* Fields of X server replies keep the names of the xcb structures; their C
  types (`int16_t`, `uint16_t`) are recorded in the doc comments and appear as
  range hypotheses in the theorems that need them.
* A byte buffer is a function from the byte offset (relative to the start of
  the buffer) to the byte stored there.
* An `int` return code is a `Ret`: `0`, or one of the negative `AVERROR` codes.
-/

namespace XcbGrab

/-! ## Macros of libavutil used by the source -/

/-- The macro `FFMAX(a, b)`, `((a) > (b) ? (a) : (b))`. -/
def FFMAX (a b : Int) : Int := if a > b then a else b

/-- The macro `FFMIN(a, b)`, `((a) > (b) ? (b) : (a))`. -/
def FFMIN (a b : Int) : Int := if a > b then b else a

/-- The macro `FFABS(a)`, `((a) >= 0 ? (a) : (-(a)))`. -/
def FFABS (a : Int) : Int := if a ≥ 0 then a else -a

/-- Two's complement wraparound of a mathematical integer to a 32-bit `int`. -/
def wrapInt (v : Int) : Int := (v + 2147483648) % 4294967296 - 2147483648

/-- The error codes the source returns: `AVERROR(EIO)`, `AVERROR(EACCES)`,
`AVERROR(EAGAIN)`, `AVERROR(ENOMEM)`, `AVERROR(EINVAL)`, `AVERROR_EXTERNAL`,
`AVERROR_PATCHWELCOME` and `AVERROR_INVALIDDATA`.  All of them are negative
`int` values in C. -/
inductive AVError where
  | EIO
  | EACCES
  | EAGAIN
  | ENOMEM
  | EINVAL
  | EXTERNAL
  | PATCHWELCOME
  | INVALIDDATA
  deriving DecidableEq, Repr

/-- An `int` return code: `ok` is `0`, `err e` is the negative code `e`. -/
inductive Ret where
  | ok
  | err (e : AVError)
  deriving DecidableEq, Repr

/-- The test `ret < 0`. -/
def Ret.failed : Ret → Bool
  | Ret.ok => false
  | Ret.err _ => true

/-! ## Data model -/

/-- The constant `FOLLOW_CENTER`. -/
def FOLLOW_CENTER : Int := -1

/-- The constant `XCB_NONE`. -/
def XCB_NONE : Int := 0

/-- The fields of `XCBGrabContext` that the modelled functions read or write.
`screen_root` is `c->screen->root`; `shm_pool` tells whether the pool pointer is
non-NULL.  `perform_npp_conversion` is `0` in a build without `CONFIG_LIBNPP`
and `has_shm` is `0` in a build without `CONFIG_LIBXCB_SHM`. -/
structure XCBGrabContext where
  screen_root : Int
  shm_pool : Bool
  time_frame : Int
  frame_duration : Int
  window_id : Int
  x : Int
  y : Int
  width : Int
  height : Int
  frame_size : Int
  bpp : Int
  draw_mouse : Int
  follow_mouse : Int
  show_region : Int
  region_border : Int
  select_region : Int
  has_shm : Int
  perform_npp_conversion : Int

/-- The fields of `xcb_query_pointer_reply_t` that are read: `same_screen`
(`uint8_t`), `win_x` and `win_y` (`int16_t`). -/
structure xcb_query_pointer_reply_t where
  same_screen : Int
  win_x : Int
  win_y : Int

/-- The fields of `xcb_get_geometry_reply_t` that are read: `depth` (`uint8_t`),
`width` and `height` (`uint16_t`). -/
structure xcb_get_geometry_reply_t where
  depth : Int
  width : Int
  height : Int

/-! ## `xcbgrab_reposition` -/

/-- The body of `xcbgrab_reposition` between the NULL check and the final
clamp: the new values of the locals `x` and `y`, computed from the pointer
position `(p_x, p_y)` in center mode (`f == FOLLOW_CENTER`) or in margin
mode. -/
def reposition_origin (c : XCBGrabContext) (p_x p_y : Int) : Int × Int :=
  let x := c.x
  let y := c.y
  let w := c.width
  let h := c.height
  let f := c.follow_mouse
  if f = FOLLOW_CENTER then
    (wrapInt (p_x - Int.tdiv w 2), wrapInt (p_y - Int.tdiv h 2))
  else
    let left := wrapInt (x + f)
    let right := wrapInt (wrapInt (x + w) - f)
    let top := wrapInt (y + f)
    let bottom := wrapInt (wrapInt (y + h) - f)
    let x1 :=
      if p_x > right then wrapInt (x + wrapInt (p_x - right))
      else if p_x < left then wrapInt (x - wrapInt (left - p_x))
      else x
    let y1 :=
      if p_y > bottom then wrapInt (y + wrapInt (p_y - bottom))
      else if p_y < top then wrapInt (y - wrapInt (top - p_y))
      else y
    (x1, y1)

/-- The function `xcbgrab_reposition`.  The two pointer arguments may be `NULL`
(`none`); the result is the return code and the updated context. -/
def xcbgrab_reposition (c : XCBGrabContext)
    (p : Option xcb_query_pointer_reply_t) (geo : Option xcb_get_geometry_reply_t) :
    Ret × XCBGrabContext :=
  match p, geo with
  | some p, some geo =>
    let xy := reposition_origin c p.win_x p.win_y
    (Ret.ok, { c with
      x := FFMIN (FFMAX 0 xy.1) (wrapInt (geo.width - c.width))
      y := FFMIN (FFMAX 0 xy.2) (wrapInt (geo.height - c.height)) })
  | _, _ => (Ret.err AVError.EIO, c)

/-! ## `xcbgrab_draw_mouse` -/

/-- The reply of `xcb_xfixes_get_cursor_image`: `x`, `y` (`int16_t`), `width`,
`height`, `xhot`, `yhot` (`uint16_t`), and `cursor_image`, the array returned by
`xcb_xfixes_get_cursor_image_cursor_image` (`none` when it is `NULL`): one
`uint32_t` per pixel, indexed by the distance from the start of the array. -/
structure xcb_xfixes_get_cursor_image_reply_t where
  x : Int
  y : Int
  width : Int
  height : Int
  xhot : Int
  yhot : Int
  cursor_image : Option (Int → Nat)

/-- The macro `BLEND(target, source, alpha)`,
`(target) + ((source) * (255 - (alpha)) + 255 / 2) / 255`, in `int`
arithmetic. -/
def BLEND (target source alpha : Int) : Int :=
  target + Int.tdiv (source * (255 - alpha) + Int.tdiv 255 2) 255

/-- The assignment `image[k] = v` of an `int` to a `uint8_t`: the byte at `off`
becomes `v` modulo 256. -/
def store_u8 (frame : Int → Int) (off v : Int) : Int → Int :=
  fun i => if i = off then v % 256 else frame i

/-- The body of the inner loop of `xcbgrab_draw_mouse` for the cursor pixel
`pix = *cursor` and the frame pointer `image`: it returns the frame bytes after
the body. -/
def draw_mouse_pixel (pix : Nat) (image : Int) (frame : Int → Int) : Int → Int :=
  let r : Int := ((pix &&& 0xff : Nat) : Int)
  let g : Int := (((pix >>> 8) &&& 0xff : Nat) : Int)
  let b : Int := (((pix >>> 16) &&& 0xff : Nat) : Int)
  let a : Int := (((pix >>> 24) &&& 0xff : Nat) : Int)
  if a = 0 then frame
  else if a = 255 then
    let f0 := store_u8 frame image r
    let f1 := store_u8 f0 (image + 1) g
    store_u8 f1 (image + 2) b
  else
    let f0 := store_u8 frame image (BLEND r (frame image) a)
    let f1 := store_u8 f0 (image + 1) (BLEND g (f0 (image + 1)) a)
    store_u8 f1 (image + 2) (BLEND b (f1 (image + 2)) a)

/-- The variables that the loops of `xcbgrab_draw_mouse` update: the walking
pointers `cursor` (in pixels from the start of the cursor array) and `image`
(in bytes from `pkt->data`) and the frame bytes.  `visited` is not a variable
of the source: it records, in order, the pair of pointer values at every
execution of the inner loop body. -/
structure DrawState where
  cursor : Int
  image : Int
  frame : Int → Int
  visited : List (Int × Int)

/-- The inner loop `for (x = 0; x < w; x++, cursor++, image += stride)`, with
`n` iterations left. -/
def draw_mouse_row (pixels : Int → Nat) (stride : Int) : Nat → DrawState → DrawState
  | 0, st => st
  | n + 1, st =>
    draw_mouse_row pixels stride n
      { cursor := st.cursor + 1
        image := st.image + stride
        frame := draw_mouse_pixel (pixels st.cursor) st.image st.frame
        visited := st.visited ++ [(st.cursor, st.image)] }

/-- The outer loop `for (y = 0; y < h; y++)`, with `n` iterations left; `ci_width`
is `ci->width` and `gr_width` is `gr->width`. -/
def draw_mouse_rows (pixels : Int → Nat) (ci_width gr_width stride c_off i_off w : Int) :
    Nat → DrawState → DrawState
  | 0, st => st
  | n + 1, st =>
    let st1 : DrawState :=
      { st with cursor := st.cursor + c_off, image := st.image + i_off * stride }
    let st2 := draw_mouse_row pixels stride w.toNat st1
    draw_mouse_rows pixels ci_width gr_width stride c_off i_off w n
      { st2 with
        cursor := st2.cursor + (ci_width - w - c_off)
        image := st2.image + (gr_width - w - i_off) * stride }

/-- The part of `xcbgrab_draw_mouse` after the two NULL checks: the
intersection of the cursor footprint with the capture rectangle and the two
loops.  The result is the state when the outer loop ends.  The `int`
expressions are evaluated in exact integers; `draw_mouse_loops_wrap` is the
same code with wraparound. -/
def draw_mouse_loops (gr : XCBGrabContext) (ci : xcb_xfixes_get_cursor_image_reply_t)
    (pixels : Int → Nat) (win_x win_y : Int) (frame : Int → Int) : DrawState :=
  let stride := Int.tdiv gr.bpp 8
  let cx := ci.x - ci.xhot
  let cy := ci.y - ci.yhot
  let x := FFMAX cx (win_x + gr.x)
  let y := FFMAX cy (win_y + gr.y)
  let w := FFMIN (cx + ci.width) (win_x + gr.x + gr.width) - x
  let h := FFMIN (cy + ci.height) (win_y + gr.y + gr.height) - y
  let c_off := x - cx
  let i_off := x - gr.x - win_x
  draw_mouse_rows pixels ci.width gr.width stride c_off i_off w h.toNat
    { cursor := (y - cy) * ci.width
      image := (y - gr.y - win_y) * gr.width * stride
      frame := frame
      visited := [] }

/-- The function `xcbgrab_draw_mouse`: `image` holds the bytes at `pkt->data`,
`ci` is the reply of `xcb_xfixes_get_cursor_image_reply` (`none` when `NULL`).
The result is the frame bytes on return.  The parameters `p` and `geo` of the
source are not used by its body. -/
def xcbgrab_draw_mouse (gr : XCBGrabContext) (image : Int → Int)
    (ci : Option xcb_xfixes_get_cursor_image_reply_t) (win_x win_y : Int) : Int → Int :=
  match ci with
  | none => image
  | some ci =>
    match ci.cursor_image with
    | none => image
    | some pixels => (draw_mouse_loops gr ci pixels win_x win_y image).frame

/-! ### `xcbgrab_draw_mouse` with 32-bit `int` arithmetic

The locals `cx`, `cy`, `x`, `y`, `w`, `h`, `c_off`, `i_off` and the amounts added
to the two pointers are `int` expressions in the source.  The definitions above
evaluate them in exact integers; the definitions below wrap the result of every
`int` operation to 32 bits.  The pointers themselves are not wrapped. -/

/-- The outer loop `for (y = 0; y < h; y++)` with `int` arithmetic wrapped to 32
bits: the amounts `i_off * stride`, `ci->width - w - c_off` and
`(gr->width - w - i_off) * stride` are `int` values when they are added to the
pointers. -/
def draw_mouse_rows_wrap (pixels : Int → Nat) (ci_width gr_width stride c_off i_off w : Int) :
    Nat → DrawState → DrawState
  | 0, st => st
  | n + 1, st =>
    let st1 : DrawState :=
      { st with cursor := st.cursor + c_off, image := st.image + wrapInt (i_off * stride) }
    let st2 := draw_mouse_row pixels stride w.toNat st1
    draw_mouse_rows_wrap pixels ci_width gr_width stride c_off i_off w n
      { st2 with
        cursor := st2.cursor + wrapInt (wrapInt (ci_width - w) - c_off)
        image := st2.image + wrapInt (wrapInt (wrapInt (gr_width - w) - i_off) * stride) }

/-- The part of `xcbgrab_draw_mouse` after the two NULL checks, with `int`
arithmetic wrapped to 32 bits. -/
def draw_mouse_loops_wrap (gr : XCBGrabContext) (ci : xcb_xfixes_get_cursor_image_reply_t)
    (pixels : Int → Nat) (win_x win_y : Int) (frame : Int → Int) : DrawState :=
  let stride := Int.tdiv gr.bpp 8
  let cx := wrapInt (ci.x - ci.xhot)
  let cy := wrapInt (ci.y - ci.yhot)
  let x := FFMAX cx (wrapInt (win_x + gr.x))
  let y := FFMAX cy (wrapInt (win_y + gr.y))
  let w := wrapInt (FFMIN (wrapInt (cx + ci.width))
    (wrapInt (wrapInt (win_x + gr.x) + gr.width)) - x)
  let h := wrapInt (FFMIN (wrapInt (cy + ci.height))
    (wrapInt (wrapInt (win_y + gr.y) + gr.height)) - y)
  let c_off := wrapInt (x - cx)
  let i_off := wrapInt (wrapInt (x - gr.x) - win_x)
  draw_mouse_rows_wrap pixels ci.width gr.width stride c_off i_off w h.toNat
    { cursor := wrapInt (wrapInt (y - cy) * ci.width)
      image := wrapInt (wrapInt (wrapInt (wrapInt (y - gr.y) - win_y) * gr.width) * stride)
      frame := frame
      visited := [] }

/-- The function `xcbgrab_draw_mouse` with `int` arithmetic wrapped to 32
bits. -/
def xcbgrab_draw_mouse_wrap (gr : XCBGrabContext) (image : Int → Int)
    (ci : Option xcb_xfixes_get_cursor_image_reply_t) (win_x win_y : Int) : Int → Int :=
  match ci with
  | none => image
  | some ci =>
    match ci.cursor_image with
    | none => image
    | some pixels => (draw_mouse_loops_wrap gr ci pixels win_x win_y image).frame

/-! ## Frame acquisition and `xcbgrab_read_packet` -/

/-- The owner of the buffer behind `pkt->buf`: the image reply wrapped by
`av_buffer_create` in `xcbgrab_frame`, a buffer of the shared-memory pool, or
the data of a packet allocated by `av_new_packet`. -/
inductive AVBufferRef where
  | image_reply
  | shm_buffer
  | packet_data
  deriving DecidableEq, Repr

/-- The fields of `AVPacket` that the source assigns: `buf` (`none` is `NULL`),
the bytes at `data`, `size`, `pts`, `dts` and `duration`. -/
structure AVPacket where
  buf : Option AVBufferRef
  data : Int → Int
  size : Int
  pts : Int
  dts : Int
  duration : Int

/-- What the outside world answers during one call of `xcbgrab_frame`:
`error` tells whether `xcb_get_image_reply` stored an error in `e`; `img` is the
reply (`none` is `NULL`) as its pixel bytes (`xcb_get_image_data`) and their
length (`xcb_get_image_data_length`); `buffer_created` tells whether
`av_buffer_create` returned a buffer. -/
structure GetImageEnv where
  error : Bool
  img : Option ((Int → Int) × Int)
  buffer_created : Bool

/-- What the outside world answers during one call of `xcbgrab_frame_shm`:
`buf` is the buffer returned by `av_buffer_pool_get` (`none` is `NULL`), given
by the bytes it holds when the reply has arrived; `error` tells whether
`xcb_shm_get_image_reply` stored an error in `e`; `img` tells whether the reply
pointer is non-NULL. -/
structure ShmGetImageEnv where
  buf : Option (Int → Int)
  error : Bool
  img : Bool

/-- The function `xcbgrab_frame`. -/
def xcbgrab_frame (_c : XCBGrabContext) (pkt : AVPacket) (env : GetImageEnv) :
    Ret × AVPacket :=
  if env.error then (Ret.err AVError.EACCES, pkt)
  else
    match env.img with
    | none => (Ret.err AVError.EAGAIN, pkt)
    | some (data, length) =>
      if !env.buffer_created then (Ret.err AVError.ENOMEM, { pkt with buf := none })
      else (Ret.ok, { pkt with buf := some AVBufferRef.image_reply, data := data, size := length })

/-- The function `xcbgrab_frame_shm`. -/
def xcbgrab_frame_shm (c : XCBGrabContext) (pkt : AVPacket) (env : ShmGetImageEnv) :
    Ret × AVPacket :=
  match env.buf with
  | none => (Ret.err AVError.ENOMEM, pkt)
  | some data =>
    if env.error then (Ret.err AVError.EACCES, pkt)
    else (Ret.ok, { pkt with buf := some AVBufferRef.shm_buffer, data := data, size := c.frame_size })

/-- The loop of `wait_frame`: `clock` lists the values that successive calls of
`av_gettime_relative` return.  The result is the reading at which the loop
breaks, `none` when the listed readings end before `delay <= 0`. -/
def wait_frame_loop (time_frame : Int) : List Int → Option Int
  | [] => none
  | curtime :: rest =>
    if time_frame - curtime ≤ 0 then some curtime else wait_frame_loop time_frame rest

/-- The function `wait_frame`: it returns `curtime` and the updated context.
The `int64_t` microsecond counters are unbounded integers here. -/
def wait_frame (c : XCBGrabContext) (clock : List Int) : Option (Int × XCBGrabContext) :=
  let c1 := { c with time_frame := c.time_frame + c.frame_duration }
  match wait_frame_loop c1.time_frame clock with
  | none => none
  | some curtime => some (curtime, c1)

/-- The fields of `xcb_translate_coordinates_reply_t` that are read (`int16_t`). -/
structure xcb_translate_coordinates_reply_t where
  dst_x : Int
  dst_y : Int

/-- What the outside world answers during the `CONFIG_LIBNPP` block:
`new_packet` tells whether `av_new_packet` returned 0, and `converted` holds the
bytes that `bgr0_to_yuv420p_gpu` left in the new packet (`none` when it did not
return 0). -/
structure NppEnv where
  new_packet : Bool
  converted : Option (Int → Int)

/-- Everything the outside world answers during one call of
`xcbgrab_read_packet`: the clock readings, the replies to the pointer, geometry
and coordinate queries (`none` is `NULL`), the answers to the two acquisition
functions, the cursor image reply and the answers to the colour conversion.
In a build without `CONFIG_LIBXCB_XFIXES` no cursor is drawn, which is the
behaviour for `cursor = none`. -/
structure ReadPacketEnv where
  clock : List Int
  pointer : Option xcb_query_pointer_reply_t
  geometry : Option xcb_get_geometry_reply_t
  translate : Option xcb_translate_coordinates_reply_t
  shm : ShmGetImageEnv
  image : GetImageEnv
  cursor : Option xcb_xfixes_get_cursor_image_reply_t
  npp : NppEnv

/-- The outcome of one call of `xcbgrab_read_packet`: the return code, the
context and the packet on return.  `shm_ret` and `frame_ret` are not variables
of the source: they record the return code of `xcbgrab_frame_shm` and of
`xcbgrab_frame` when the call invoked them. -/
structure ReadPacketResult where
  ret : Ret
  ctx : XCBGrabContext
  pkt : AVPacket
  shm_ret : Option Ret
  frame_ret : Option Ret

/-- The pointer and geometry queries at the start of `xcbgrab_read_packet`
(`if (c->follow_mouse || c->draw_mouse)`): the values of `p` and `geo` after the
block, or `none` when the block leaves by `goto end`. -/
def read_packet_pointer (c : XCBGrabContext) (env : ReadPacketEnv) :
    Option (Option xcb_query_pointer_reply_t × Option xcb_get_geometry_reply_t) :=
  if c.follow_mouse ≠ 0 ∨ c.draw_mouse ≠ 0 then
    match env.pointer with
    | none => none
    | some p =>
      match env.geometry with
      | none => none
      | some geo => some (some p, some geo)
  else some (none, none)

/-- The coordinate translation of `xcbgrab_read_packet`
(`if (c->window_id != XCB_NONE && c->window_id != c->screen->root)`): the values
of `win_x` and `win_y`, or `none` when the block leaves by `goto end`. -/
def read_packet_translate (c : XCBGrabContext) (env : ReadPacketEnv) : Option (Int × Int) :=
  if c.window_id ≠ XCB_NONE ∧ c.window_id ≠ c.screen_root then
    match env.translate with
    | none => none
    | some t => some (t.dst_x, t.dst_y)
  else some (0, 0)

/-- The test `p && p->same_screen`. -/
def pointer_same_screen (p : Option xcb_query_pointer_reply_t) : Bool :=
  match p with
  | none => false
  | some p => p.same_screen ≠ 0

/-- The acquisition of `xcbgrab_read_packet`: the `CONFIG_LIBXCB_SHM` block
(`if (c->has_shm)`) followed by `if (!c->has_shm || ret < 0)`.  `ret` is `0` on
entry.  The result carries `ret`, the context, the packet and the two recorded
return codes. -/
def read_packet_acquire (c : XCBGrabContext) (pkt : AVPacket) (env : ReadPacketEnv) :
    ReadPacketResult :=
  let r1 : ReadPacketResult :=
    if c.has_shm ≠ 0 then
      let r := xcbgrab_frame_shm c pkt env.shm
      { ret := r.1
        ctx := if r.1.failed then { c with has_shm := 0 } else c
        pkt := r.2
        shm_ret := some r.1
        frame_ret := none }
    else { ret := Ret.ok, ctx := c, pkt := pkt, shm_ret := none, frame_ret := none }
  if r1.ctx.has_shm = 0 ∨ r1.ret.failed then
    let r := xcbgrab_frame r1.ctx r1.pkt env.image
    { r1 with ret := r.1, pkt := r.2, frame_ret := some r.1 }
  else r1

/-- The `CONFIG_LIBNPP` block of `xcbgrab_read_packet`, entered with `ret >= 0`:
the return code and the packet after it.  A packet released by
`av_packet_unref` is left as it was, its `buf` set to `NULL`. -/
def read_packet_npp (c : XCBGrabContext) (pkt : AVPacket) (env : NppEnv) : Ret × AVPacket :=
  if c.perform_npp_conversion ≠ 0 then
    let y_size := c.width * c.height
    let uv_size := y_size / 4
    if env.new_packet then
      match env.converted with
      | some data =>
        (Ret.ok, { buf := some AVBufferRef.packet_data, data := data,
                   size := y_size + uv_size * 2,
                   pts := pkt.pts, dts := pkt.dts, duration := pkt.duration })
      | none => (Ret.err AVError.EXTERNAL, { pkt with buf := none })
    else (Ret.err AVError.ENOMEM, { pkt with buf := none })
  else (Ret.ok, pkt)

/-- The function `xcbgrab_read_packet`.  The result is `none` when `wait_frame`
does not return within the listed clock readings.  `xcbgrab_update_region` only
sends a request to the server and is left out. -/
def xcbgrab_read_packet (c : XCBGrabContext) (pkt : AVPacket) (env : ReadPacketEnv) :
    Option ReadPacketResult :=
  match wait_frame c env.clock with
  | none => none
  | some (_, c) =>
    match read_packet_pointer c env with
    | none =>
      some { ret := Ret.err AVError.EXTERNAL, ctx := c, pkt := pkt,
             shm_ret := none, frame_ret := none }
    | some (p, geo) =>
      match read_packet_translate c env with
      | none =>
        some { ret := Ret.err AVError.EXTERNAL, ctx := c, pkt := pkt,
               shm_ret := none, frame_ret := none }
      | some (win_x, win_y) =>
        let c := if c.follow_mouse ≠ 0 ∧ pointer_same_screen p then
            (xcbgrab_reposition c p geo).2 else c
        let r := read_packet_acquire c pkt env
        if r.ret.failed then some r
        else
          let c := r.ctx
          let pkt := { r.pkt with
            pts := c.time_frame - c.frame_duration
            dts := c.time_frame - c.frame_duration
            duration := c.frame_duration }
          let pkt := if c.draw_mouse ≠ 0 ∧ pointer_same_screen p then
              { pkt with data := xcbgrab_draw_mouse c pkt.data env.cursor win_x win_y }
            else pkt
          let n := read_packet_npp c pkt env.npp
          some { r with ret := n.1, pkt := n.2 }

/-- A session of consecutive calls of `xcbgrab_read_packet`, each with the
packet handed in by the caller and the answers of the outside world: the
outcomes of the calls in order, up to the first call that does not return. -/
def read_packets (c : XCBGrabContext) : List (AVPacket × ReadPacketEnv) → List ReadPacketResult
  | [] => []
  | (pkt, env) :: rest =>
    match xcbgrab_read_packet c pkt env with
    | none => []
    | some r => r :: read_packets r.ctx rest

/-! ## `rectangle_from_corners` -/

/-- The structure `xcb_point_t`: `x` and `y` are `int16_t`. -/
structure xcb_point_t where
  x : Int
  y : Int
  deriving DecidableEq, Repr

/-- The structure `xcb_rectangle_t`: `x` and `y` are `int16_t`, `width` and
`height` are `uint16_t`. -/
structure xcb_rectangle_t where
  x : Int
  y : Int
  width : Int
  height : Int
  deriving DecidableEq, Repr

/-- Conversion of an `int` to `int16_t`: two's complement wraparound to 16
bits. -/
def to_int16 (v : Int) : Int := (v + 32768) % 65536 - 32768

/-- Conversion of an `int` to `uint16_t`: the value modulo 65536. -/
def to_uint16 (v : Int) : Int := v % 65536

/-- The function `rectangle_from_corners`.  The macros are evaluated in `int`
and each result is converted to the type of the field it is assigned to. -/
def rectangle_from_corners (corner_a corner_b : xcb_point_t) : xcb_rectangle_t :=
  { x := to_int16 (FFMIN corner_a.x corner_b.x)
    y := to_int16 (FFMIN corner_a.y corner_b.y)
    width := to_uint16 (FFABS (corner_a.x - corner_b.x))
    height := to_uint16 (FFABS (corner_a.y - corner_b.y)) }

/-! ## The event loop of `select_region` -/

/-- An event returned by `xcb_wait_for_event`, by the case of the `switch` it
reaches: `XCB_BUTTON_PRESS`, `XCB_MOTION_NOTIFY`, `XCB_BUTTON_RELEASE` (with the
fields `detail`, `event_x`, `event_y` that are read; the coordinates are
`int16_t`), or any other response type. -/
inductive Event where
  | button_press (detail event_x event_y : Int)
  | motion_notify (event_x event_y : Int)
  | button_release (detail : Int)
  | other
  deriving DecidableEq, Repr

/-- The locals of `select_region` that the event loop updates.  `drawn` is not
a variable of the source: it lists, in order, the rectangles passed to
`xcb_poly_rectangle` with the inverting graphics context. -/
structure SelectState where
  done : Int
  was_pressed : Int
  press_position : xcb_point_t
  rectangle : xcb_rectangle_t
  drawn : List xcb_rectangle_t
  deriving DecidableEq, Repr

/-- The locals at the start of the loop: `done = 0`, `was_pressed = 0`,
`press_position = {0, 0}`, `rectangle = { 0 }`. -/
def select_region_init : SelectState :=
  { done := 0, was_pressed := 0, press_position := ⟨0, 0⟩, rectangle := ⟨0, 0, 0, 0⟩,
    drawn := [] }

/-- The body of the `switch` of `select_region` for one event. -/
def select_region_event (st : SelectState) : Event → SelectState
  | Event.button_press detail event_x event_y =>
    if detail ≠ 1 then st
    else
      let press_position : xcb_point_t := ⟨event_x, event_y⟩
      let rectangle : xcb_rectangle_t :=
        { st.rectangle with x := press_position.x, y := press_position.y, width := 0, height := 0 }
      { st with
        press_position := press_position
        rectangle := rectangle
        drawn := st.drawn ++ [rectangle]
        was_pressed := 1 }
  | Event.motion_notify event_x event_y =>
    if st.was_pressed ≠ 0 then
      let cursor_position : xcb_point_t := ⟨event_x, event_y⟩
      let rectangle := rectangle_from_corners st.press_position cursor_position
      { st with
        rectangle := rectangle
        drawn := st.drawn ++ [st.rectangle] ++ [rectangle] }
    else st
  | Event.button_release detail =>
    if detail ≠ 1 then st
    else
      { st with
        drawn := if st.was_pressed ≠ 0 then st.drawn ++ [st.rectangle] else st.drawn
        done := 1 }
  | Event.other => st

/-- The loop `while (!done && (event = xcb_wait_for_event(conn)))`: `events`
lists the events that `xcb_wait_for_event` returns, followed by `NULL`. -/
def select_region_loop : List Event → SelectState → SelectState
  | [], st => st
  | event :: rest, st =>
    if st.done ≠ 0 then st else select_region_loop rest (select_region_event st event)

/-- The constant `XCB_GRAB_STATUS_SUCCESS`. -/
def XCB_GRAB_STATUS_SUCCESS : Int := 0

/-- The function `select_region`: `grab` is the reply of
`xcb_grab_pointer_reply` (`none` is `NULL`) given by its `status`, `events`
lists the events that `xcb_wait_for_event` returns, followed by `NULL`.  The
result is the return code and the context on return. -/
def select_region (c : XCBGrabContext) (grab : Option Int) (events : List Event) :
    Ret × XCBGrabContext :=
  match grab with
  | none => (Ret.err AVError.EIO, c)
  | some status =>
    if status ≠ XCB_GRAB_STATUS_SUCCESS then (Ret.err AVError.EIO, c)
    else
      let rectangle := (select_region_loop events select_region_init).rectangle
      if rectangle.width = 0 ∨ rectangle.height = 0 then (Ret.ok, c)
      else
        (Ret.ok, { c with
          width := rectangle.width
          height := rectangle.height
          x := rectangle.x
          y := rectangle.y })

/-- The event is a press of button 1. -/
def Event.primary_press : Event → Bool
  | Event.button_press detail _ _ => detail = 1
  | _ => false

/-- The event is a release of button 1. -/
def Event.primary_release : Event → Bool
  | Event.button_release detail => detail = 1
  | _ => false

/-- The event is a pointer motion. -/
def Event.motion : Event → Bool
  | Event.motion_notify _ _ => true
  | _ => false

/-- Each rectangle of the list twice in a row. -/
def twice_each (rects : List xcb_rectangle_t) : List xcb_rectangle_t :=
  rects.flatMap (fun r => [r, r])

/-- The value `v` fits an `int16_t`. -/
def is_int16 (v : Int) : Prop := -32768 ≤ v ∧ v ≤ 32767

instance (v : Int) : Decidable (is_int16 v) := by
  unfold is_int16; infer_instance

/-- The value `v` fits an `int`. -/
def fits_int (v : Int) : Prop := -2147483648 ≤ v ∧ v ≤ 2147483647

instance (v : Int) : Decidable (fits_int v) := by
  unfold fits_int; infer_instance

/-- No `int` operation of the margin branch of `xcbgrab_reposition` overflows
on one axis: `x` is the origin, `w` the size, `f` the margin and `p` the pointer
coordinate on that axis.  The sums `x + f`, `x + w` and `x + w - f` are always
evaluated, the other expressions only on the branch that is taken. -/
def margin_no_overflow (x w f p : Int) : Prop :=
  fits_int (x + f) ∧ fits_int (x + w) ∧ fits_int (x + w - f) ∧
  (p > x + w - f → fits_int (p - (x + w - f)) ∧ fits_int (x + (p - (x + w - f)))) ∧
  (¬ p > x + w - f → p < x + f → fits_int (x + f - p) ∧ fits_int (x - (x + f - p)))

instance (x w f p : Int) : Decidable (margin_no_overflow x w f p) := by
  unfold margin_no_overflow; infer_instance

/-! ## `xcbgrab_read_close` and `pixfmt_from_pixmap_format` -/

/-- The function `xcbgrab_read_close`: `av_buffer_pool_uninit` frees the pool and
sets the pointer to `NULL`; the connection is not part of the context modelled
here. -/
def xcbgrab_read_close (c : XCBGrabContext) : Ret × XCBGrabContext :=
  (Ret.ok, { c with shm_pool := false })

/-- The values of `enum AVPixelFormat` that the source names. -/
inductive AVPixelFormat where
  | AV_PIX_FMT_NONE
  | AV_PIX_FMT_BGR0
  | AV_PIX_FMT_0RGB
  | AV_PIX_FMT_BGR24
  | AV_PIX_FMT_RGB24
  | AV_PIX_FMT_RGB565LE
  | AV_PIX_FMT_RGB565BE
  | AV_PIX_FMT_RGB555LE
  | AV_PIX_FMT_RGB555BE
  | AV_PIX_FMT_PAL8
  | AV_PIX_FMT_YUV420P
  deriving DecidableEq, Repr

/-- The fields of `xcb_format_t` that are read (`uint8_t`). -/
structure xcb_format_t where
  depth : Int
  bits_per_pixel : Int
  deriving DecidableEq, Repr

/-- The constant `XCB_IMAGE_ORDER_LSB_FIRST`. -/
def XCB_IMAGE_ORDER_LSB_FIRST : Int := 0

/-- The `if (fmt->depth == depth) { switch (depth) ... }` of
`pixfmt_from_pixmap_format` for one entry, entered with `*pix_fmt` equal to
`AV_PIX_FMT_NONE`: the value of `*pix_fmt` after it. -/
def pixmap_format_switch (image_byte_order depth : Int) (fmt : xcb_format_t) : AVPixelFormat :=
  if fmt.depth = depth then
    if depth = 32 then
      if fmt.bits_per_pixel = 32 then
        (if image_byte_order = XCB_IMAGE_ORDER_LSB_FIRST then AVPixelFormat.AV_PIX_FMT_BGR0
          else AVPixelFormat.AV_PIX_FMT_0RGB)
      else AVPixelFormat.AV_PIX_FMT_NONE
    else if depth = 24 then
      if fmt.bits_per_pixel = 32 then
        (if image_byte_order = XCB_IMAGE_ORDER_LSB_FIRST then AVPixelFormat.AV_PIX_FMT_BGR0
          else AVPixelFormat.AV_PIX_FMT_0RGB)
      else if fmt.bits_per_pixel = 24 then
        (if image_byte_order = XCB_IMAGE_ORDER_LSB_FIRST then AVPixelFormat.AV_PIX_FMT_BGR24
          else AVPixelFormat.AV_PIX_FMT_RGB24)
      else AVPixelFormat.AV_PIX_FMT_NONE
    else if depth = 16 then
      if fmt.bits_per_pixel = 16 then
        (if image_byte_order = XCB_IMAGE_ORDER_LSB_FIRST then AVPixelFormat.AV_PIX_FMT_RGB565LE
          else AVPixelFormat.AV_PIX_FMT_RGB565BE)
      else AVPixelFormat.AV_PIX_FMT_NONE
    else if depth = 15 then
      if fmt.bits_per_pixel = 16 then
        (if image_byte_order = XCB_IMAGE_ORDER_LSB_FIRST then AVPixelFormat.AV_PIX_FMT_RGB555LE
          else AVPixelFormat.AV_PIX_FMT_RGB555BE)
      else AVPixelFormat.AV_PIX_FMT_NONE
    else if depth = 8 then
      if fmt.bits_per_pixel = 8 then AVPixelFormat.AV_PIX_FMT_PAL8
      else AVPixelFormat.AV_PIX_FMT_NONE
    else AVPixelFormat.AV_PIX_FMT_NONE
  else AVPixelFormat.AV_PIX_FMT_NONE

/-- The function `pixfmt_from_pixmap_format`: `formats` is the array of
`xcb_setup_pixmap_formats` (its length is the length of the list),
`image_byte_order` is `setup->image_byte_order`, `bpp` is the value of `*bpp` on
entry.  The result is the return code and the values of `*pix_fmt` and `*bpp`
on return. -/
def pixfmt_from_pixmap_format (formats : List xcb_format_t) (image_byte_order depth bpp : Int) :
    Ret × AVPixelFormat × Int :=
  match formats with
  | [] => (Ret.err AVError.PATCHWELCOME, AVPixelFormat.AV_PIX_FMT_NONE, bpp)
  | fmt :: rest =>
    if pixmap_format_switch image_byte_order depth fmt ≠ AVPixelFormat.AV_PIX_FMT_NONE then
      (Ret.ok, pixmap_format_switch image_byte_order depth fmt, fmt.bits_per_pixel)
    else pixfmt_from_pixmap_format rest image_byte_order depth bpp

/-- The entry has the requested depth and its (depth, bits per pixel) pair is
one of (32,32), (24,32), (24,24), (16,16), (15,16), (8,8). -/
def supported_format (depth : Int) (fmt : xcb_format_t) : Bool :=
  fmt.depth = depth ∧
    ((depth = 32 ∧ fmt.bits_per_pixel = 32) ∨ (depth = 24 ∧ fmt.bits_per_pixel = 32) ∨
     (depth = 24 ∧ fmt.bits_per_pixel = 24) ∨ (depth = 16 ∧ fmt.bits_per_pixel = 16) ∨
     (depth = 15 ∧ fmt.bits_per_pixel = 16) ∨ (depth = 8 ∧ fmt.bits_per_pixel = 8))

/-- The format reported for a supported entry: BGR0/0RGB for 32 bits per pixel,
BGR24/RGB24 for 24 bits per pixel, RGB565LE/BE for depth 16, RGB555LE/BE for
depth 15 and PAL8 for depth 8, the first of each pair when the byte order is
LSB-first. -/
def reported_format (image_byte_order depth : Int) (fmt : xcb_format_t) : AVPixelFormat :=
  let lsb : Bool := image_byte_order = XCB_IMAGE_ORDER_LSB_FIRST
  if fmt.bits_per_pixel = 32 then
    (if lsb then AVPixelFormat.AV_PIX_FMT_BGR0 else AVPixelFormat.AV_PIX_FMT_0RGB)
  else if fmt.bits_per_pixel = 24 then
    (if lsb then AVPixelFormat.AV_PIX_FMT_BGR24 else AVPixelFormat.AV_PIX_FMT_RGB24)
  else if depth = 16 then
    (if lsb then AVPixelFormat.AV_PIX_FMT_RGB565LE else AVPixelFormat.AV_PIX_FMT_RGB565BE)
  else if depth = 15 then
    (if lsb then AVPixelFormat.AV_PIX_FMT_RGB555LE else AVPixelFormat.AV_PIX_FMT_RGB555BE)
  else AVPixelFormat.AV_PIX_FMT_PAL8

/-! ## `create_stream` and `xcbgrab_read_header` -/

/-- The build options that the source tests with `#if`: `CONFIG_LIBXCB_SHM`,
`CONFIG_LIBXCB_XFIXES` and `CONFIG_LIBNPP`. -/
structure BuildConfig where
  libxcb_shm : Bool
  libxcb_xfixes : Bool
  libnpp : Bool

/-- The constant `INT_MAX`. -/
def INT_MAX : Int := 2147483647

/-- The fields of `st->codecpar` that `create_stream` sets and that depend on
the capture region or on the pixel format. -/
structure AVCodecParameters where
  format : AVPixelFormat
  width : Int
  height : Int

/-- What the outside world answers during `create_stream`: whether
`avformat_new_stream` returned a stream, the return code of
`av_parse_video_rate`, the geometry reply (`none` is `NULL`), the value that
`av_rescale_q` returns for the frame duration, the reading of
`av_gettime_relative`, the pixmap formats and the byte order of the setup, the
value of the constant `AV_INPUT_BUFFER_PADDING_SIZE` and whether
`av_buffer_pool_init2` returned a pool. -/
structure CreateStreamEnv where
  new_stream : Bool
  parse_video_rate : Ret
  geometry : Option xcb_get_geometry_reply_t
  frame_duration : Int
  time : Int
  formats : List xcb_format_t
  image_byte_order : Int
  padding : Int
  shm_pool : Bool

/-- The function `create_stream`: the return code, the context and the stream
parameters on return.  The sums of the bounds check are `int` operations and
wrap to 32 bits; `frame_size_bits` is an `int64_t` and is not wrapped. -/
def create_stream (c : XCBGrabContext) (cfg : BuildConfig) (env : CreateStreamEnv) :
    Ret × XCBGrabContext × AVCodecParameters :=
  let par0 : AVCodecParameters :=
    { format := AVPixelFormat.AV_PIX_FMT_NONE, width := 0, height := 0 }
  if !env.new_stream then (Ret.err AVError.ENOMEM, c, par0)
  else if env.parse_video_rate.failed then (env.parse_video_rate, c, par0)
  else
    match env.geometry with
    | none => (Ret.err AVError.EXTERNAL, c, par0)
    | some geo =>
      let c : XCBGrabContext :=
        if c.width = 0 ∨ c.height = 0 then { c with width := geo.width, height := geo.height }
        else c
      if wrapInt (c.x + c.width) > geo.width ∨ wrapInt (c.y + c.height) > geo.height then
        (Ret.err AVError.EINVAL, c, par0)
      else
        let c : XCBGrabContext :=
          { c with frame_duration := env.frame_duration, time_frame := env.time }
        let pf := pixfmt_from_pixmap_format env.formats env.image_byte_order geo.depth c.bpp
        let native_pix_fmt := pf.2.1
        let c : XCBGrabContext := { c with bpp := pf.2.2 }
        if pf.1.failed then (pf.1, c, par0)
        else
          let frame_size_bits := c.width * c.height * c.bpp
          if frame_size_bits ≤ 0 ∨ frame_size_bits / 8 + env.padding > INT_MAX then
            (Ret.err AVError.INVALIDDATA, c, { par0 with format := native_pix_fmt })
          else
            let c : XCBGrabContext := { c with frame_size := frame_size_bits / 8 }
            let c : XCBGrabContext :=
              if cfg.libxcb_shm then
                { c with
                  shm_pool := env.shm_pool
                  has_shm := if env.shm_pool then c.has_shm else 0 }
              else c
            let par : AVCodecParameters :=
              { format := native_pix_fmt, width := c.width, height := c.height }
            if cfg.libnpp then
              if native_pix_fmt = AVPixelFormat.AV_PIX_FMT_BGR0 then
                (Ret.ok, { c with perform_npp_conversion := 1 },
                  { par with format := AVPixelFormat.AV_PIX_FMT_YUV420P })
              else (Ret.ok, { c with perform_npp_conversion := 0 }, par)
            else (Ret.ok, c, par)

/-- What `xcbgrab_read_header` finds in `s->url`: no URL (`NULL` or empty), a
URL that `av_strdup` fails to copy, a URL without a `'+'` or whose text from
the last `'+'` is not read as two numbers by `sscanf(..., "+%d,%d", ...)`, or a
URL whose text from the last `'+'` `sscanf` reads as the two numbers `x`, `y`. -/
inductive DisplayUrl where
  | empty
  | copy_failed
  | plain
  | with_offset (x y : Int)
  deriving DecidableEq, Repr

/-- What the outside world answers during `xcbgrab_read_header`: the build
options, the URL, whether `xcb_connect` returned a connection without error,
the root window of the screen that `get_screen` returns (`none` is `NULL`), the
grab reply and the events of `select_region`, the answers to `create_stream`,
and the results of `check_shm` and `check_xfixes`. -/
structure ReadHeaderEnv where
  config : BuildConfig
  url : DisplayUrl
  connected : Bool
  screen_root : Option Int
  grab : Option Int
  events : List Event
  stream : CreateStreamEnv
  check_shm : Bool
  check_xfixes : Bool

/-- The function `xcbgrab_read_header`: the return code and the context on
return.  `setup_window` only sends requests to the server and is left out. -/
def xcbgrab_read_header (c : XCBGrabContext) (env : ReadHeaderEnv) : Ret × XCBGrabContext :=
  if env.url = DisplayUrl.copy_failed then (Ret.err AVError.ENOMEM, c)
  else
    let c : XCBGrabContext :=
      match env.url with
      | DisplayUrl.with_offset parsed_x parsed_y => { c with x := parsed_x, y := parsed_y }
      | _ => c
    if !env.connected then (Ret.err AVError.EIO, c)
    else
      match env.screen_root with
      | none => (Ret.err AVError.EIO, (xcbgrab_read_close c).2)
      | some root =>
        let c : XCBGrabContext := { c with screen_root := root }
        let c : XCBGrabContext :=
          if c.window_id = XCB_NONE then c
          else { c with select_region := 0, follow_mouse := 0 }
        let sel : Ret × XCBGrabContext :=
          if c.select_region ≠ 0 then select_region c env.grab env.events else (Ret.ok, c)
        if sel.1.failed then (sel.1, (xcbgrab_read_close sel.2).2)
        else
          let c := sel.2
          let c : XCBGrabContext :=
            if c.window_id = XCB_NONE then { c with window_id := c.screen_root } else c
          let cs := create_stream c env.config env.stream
          if cs.1.failed then (cs.1, (xcbgrab_read_close cs.2.1).2)
          else
            let c := cs.2.1
            let c : XCBGrabContext :=
              if env.config.libxcb_shm then
                if c.shm_pool then
                  if env.check_shm then { c with has_shm := 1 }
                  else { c with has_shm := 0, shm_pool := false }
                else { c with has_shm := 0 }
              else c
            let c : XCBGrabContext :=
              if env.config.libxcb_xfixes then
                if c.draw_mouse ≠ 0 then
                  let c : XCBGrabContext :=
                    { c with draw_mouse := if env.check_xfixes then 1 else 0 }
                  if c.draw_mouse ≠ 0 ∧ c.bpp < 24 then { c with draw_mouse := 0 } else c
                else c
              else c
            (Ret.ok, c)

/-! ## Auxiliary definitions used to state the properties of `xcbgrab_draw_mouse` -/

/-- Byte `k` of a cursor pixel: bits `8k .. 8k+7` (`k = 0, 1, 2` are the colour
channels that go to `image[0]`, `image[1]`, `image[2]`; `k = 3` is alpha). -/
def cursor_byte (pix : Nat) (k : Nat) : Int := ((pix / 256 ^ k % 256 : Nat) : Int)

/-- The value the loop body leaves in `image[k]`, from the cursor pixel and the
previous value `d` of that byte. -/
def blend_byte (pix : Nat) (k : Nat) (d : Int) : Int :=
  if cursor_byte pix 3 = 0 then d
  else if cursor_byte pix 3 = 255 then cursor_byte pix k
  else (cursor_byte pix k + Int.tdiv (d * (255 - cursor_byte pix 3) + 127) 255) % 256

/-- One execution of the inner loop body, at the pointer pair `e`. -/
def composite (pixels : Int → Nat) (frame : Int → Int) (e : Int × Int) : Int → Int :=
  draw_mouse_pixel (pixels e.1) e.2 frame

/-- The pointer pairs of `n` consecutive inner-loop iterations that start at
`cursor = c`, `image = i`. -/
def row_visits (stride : Int) : Nat → Int → Int → List (Int × Int)
  | 0, _, _ => []
  | n + 1, c, i => (c, i) :: row_visits stride n (c + 1) (i + stride)

/-- The pointer pairs of `n` consecutive outer-loop iterations that start at
`cursor = c`, `image = i`. -/
def rows_visits (ci_width gr_width stride c_off i_off w : Int) :
    Nat → Int → Int → List (Int × Int)
  | 0, _, _ => []
  | n + 1, c, i =>
    row_visits stride w.toNat (c + c_off) (i + i_off * stride) ++
      rows_visits ci_width gr_width stride c_off i_off w n
        (c + c_off + w.toNat + (ci_width - w - c_off))
        (i + i_off * stride + w.toNat * stride + (gr_width - w - i_off) * stride)

/-- The root-screen point `(X, Y)` lies in the cursor footprint
`[cx, cx + ci.width) × [cy, cy + ci.height)`, `cx = ci.x - ci.xhot`,
`cy = ci.y - ci.yhot`. -/
def in_cursor (ci : xcb_xfixes_get_cursor_image_reply_t) (X Y : Int) : Prop :=
  ci.x - ci.xhot ≤ X ∧ X < ci.x - ci.xhot + ci.width ∧
  ci.y - ci.yhot ≤ Y ∧ Y < ci.y - ci.yhot + ci.height

instance (ci : xcb_xfixes_get_cursor_image_reply_t) (X Y : Int) : Decidable (in_cursor ci X Y) := by
  unfold in_cursor; infer_instance

/-- The root-screen point `(X, Y)` lies in the capture rectangle translated by
the window origin. -/
def in_capture (gr : XCBGrabContext) (win_x win_y X Y : Int) : Prop :=
  win_x + gr.x ≤ X ∧ X < win_x + gr.x + gr.width ∧
  win_y + gr.y ≤ Y ∧ Y < win_y + gr.y + gr.height

instance (gr : XCBGrabContext) (win_x win_y X Y : Int) :
    Decidable (in_capture gr win_x win_y X Y) := by
  unfold in_capture; infer_instance

/-- Index in the cursor array of the cursor pixel shown at `(X, Y)`. -/
def cursor_index (ci : xcb_xfixes_get_cursor_image_reply_t) (X Y : Int) : Int :=
  (Y - (ci.y - ci.yhot)) * ci.width + (X - (ci.x - ci.xhot))

/-- Byte offset in the frame of the pixel that shows `(X, Y)`. -/
def frame_offset (gr : XCBGrabContext) (win_x win_y X Y : Int) : Int :=
  ((Y - win_y - gr.y) * gr.width + (X - win_x - gr.x)) * Int.tdiv gr.bpp 8

/-- The value `v` fits a `uint16_t`. -/
def is_uint16 (v : Int) : Prop := 0 ≤ v ∧ v ≤ 65535

instance (v : Int) : Decidable (is_uint16 v) := by
  unfold is_uint16; infer_instance

/-- The ranges under which the `int` arithmetic of `xcbgrab_draw_mouse` that
decides the walk does not overflow: the fields of the cursor reply and the
window origin have the ranges of their C types (`int16_t`, `uint16_t`), the
origin of the region is within ±10^9 and its width and height are in
`0 .. 10^9` (which leaves room for the sums with 16-bit coordinates), `bpp` is
not negative, and the number of bytes of the frame and the number of pixels of
the cursor image fit an `int`. -/
def draw_mouse_in_range (gr : XCBGrabContext) (ci : xcb_xfixes_get_cursor_image_reply_t)
    (win_x win_y : Int) : Prop :=
  is_int16 ci.x ∧ is_int16 ci.y ∧ is_uint16 ci.xhot ∧ is_uint16 ci.yhot ∧
  is_uint16 ci.width ∧ is_uint16 ci.height ∧ is_int16 win_x ∧ is_int16 win_y ∧
  (-1000000000 ≤ gr.x ∧ gr.x ≤ 1000000000) ∧ (-1000000000 ≤ gr.y ∧ gr.y ≤ 1000000000) ∧
  (0 ≤ gr.width ∧ gr.width ≤ 1000000000) ∧ (0 ≤ gr.height ∧ gr.height ≤ 1000000000) ∧
  0 ≤ gr.bpp ∧ gr.width * gr.height * Int.tdiv gr.bpp 8 ≤ 2147483647 ∧
  ci.width * ci.height ≤ 2147483647

instance (gr : XCBGrabContext) (ci : xcb_xfixes_get_cursor_image_reply_t) (win_x win_y : Int) :
    Decidable (draw_mouse_in_range gr ci win_x win_y) := by
  unfold draw_mouse_in_range; infer_instance

/-! ## Sample inputs -/

/-- A context that captures the 4 x 3 region at (2, 1) at 32 bits per pixel. -/
def sample_ctx : XCBGrabContext :=
  { screen_root := 1, shm_pool := true, time_frame := 1000, frame_duration := 40,
    window_id := 1, x := 2, y := 1, width := 4, height := 3, frame_size := 48, bpp := 32,
    draw_mouse := 1, follow_mouse := 0, show_region := 0, region_border := 3,
    select_region := 0, has_shm := 1, perform_npp_conversion := 0 }

/-- A frame whose bytes are all 100. -/
def sample_frame : Int → Int := fun _ => 100

/-- Cursor pixels: index 0 is opaque, index 1 has alpha 128 and red 200,
index 3 is fully transparent, the others have alpha 64. -/
def sample_pixels : Int → Nat := fun i =>
  if i = 0 then 0xff102030 else if i = 1 then 0x800000c8
  else if i = 3 then 0x00ffffff else 0x40010203

/-- A 3 x 2 cursor image whose footprint starts at (4, 2). -/
def sample_cursor : xcb_xfixes_get_cursor_image_reply_t :=
  { x := 5, y := 3, width := 3, height := 2, xhot := 1, yhot := 1,
    cursor_image := some sample_pixels }

/-- The packet a caller hands in. -/
def blank_packet : AVPacket :=
  { buf := none, data := fun _ => 0, size := 0, pts := 0, dts := 0, duration := 0 }

/-- A call in which every request is answered without error. -/
def sample_env : ReadPacketEnv :=
  { clock := [900, 1040]
    pointer := some { same_screen := 1, win_x := 5, win_y := 3 }
    geometry := some { depth := 24, width := 1024, height := 768 }
    translate := none
    shm := { buf := some sample_frame, error := false, img := true }
    image := { error := false, img := some (sample_frame, 48), buffer_created := true }
    cursor := some sample_cursor
    npp := { new_packet := true, converted := none } }

/-- A call in which the shared-memory request is answered by an error. -/
def sample_env_shm_error : ReadPacketEnv :=
  { sample_env with
    clock := [2000]
    shm := { buf := some sample_frame, error := true, img := false } }

/-- A session of three calls: the fast path fails in the second one. -/
def sample_calls : List (AVPacket × ReadPacketEnv) :=
  [(blank_packet, sample_env), (blank_packet, sample_env_shm_error),
   (blank_packet, { sample_env with clock := [3000] })]

/-- The sample context in a build with `CONFIG_LIBNPP` on a BGR0 screen. -/
def sample_ctx_npp : XCBGrabContext := { sample_ctx with perform_npp_conversion := 1 }

/-- The call of `sample_env_shm_error` with a colour conversion that succeeds. -/
def sample_env_shm_error_converted : ReadPacketEnv :=
  { sample_env_shm_error with npp := { new_packet := true, converted := some sample_frame } }

/-- The context before `xcbgrab_read_header`: the option defaults, with
`video_size` set to 100x100. -/
def default_ctx : XCBGrabContext :=
  { screen_root := 0, shm_pool := false, time_frame := 0, frame_duration := 0,
    window_id := 0, x := 0, y := 0, width := 100, height := 100, frame_size := 0, bpp := 0,
    draw_mouse := 1, follow_mouse := 0, show_region := 0, region_border := 3,
    select_region := 0, has_shm := 0, perform_npp_conversion := 0 }

/-- A start on a 1024x768 screen of depth 24 with the URL `":0.0+-5,0"`, whose
text from the last `'+'` is read by `sscanf` as `x = -5`, `y = 0`. -/
def negative_offset_env : ReadHeaderEnv :=
  { config := { libxcb_shm := true, libxcb_xfixes := true, libnpp := false }
    url := DisplayUrl.with_offset (-5) 0
    connected := true
    screen_root := some 1
    grab := none
    events := []
    stream :=
      { new_stream := true, parse_video_rate := Ret.ok
        geometry := some { depth := 24, width := 1024, height := 768 }
        frame_duration := 33367, time := 1000
        formats := [⟨1, 1⟩, ⟨24, 32⟩, ⟨32, 32⟩], image_byte_order := 0
        padding := 64, shm_pool := true }
    check_shm := true
    check_xfixes := true }

/-- The option defaults with `video_size` set to 4x3 and the option `grab_x` set
to `INT_MAX`, the largest value its declaration admits. -/
def origin_max_ctx : XCBGrabContext :=
  { default_ctx with x := 2147483647, width := 4, height := 3 }

/-- A start on a 1024x768 screen of depth 24 with a URL that carries no
offset. -/
def plain_env : ReadHeaderEnv := { negative_offset_env with url := DisplayUrl.plain }

/-- The same start when `check_shm` reports that the extension is not usable. -/
def no_shm_env : ReadHeaderEnv := { plain_env with check_shm := false }

/-! ## Theorems -/

/-- A value in the range of `int` is its own wraparound. -/
theorem wrapInt_of_range (v : Int) (h0 : -2147483648 ≤ v) (h1 : v < 2147483648) :
    wrapInt v = v := by
  unfold wrapInt; omega

/-- The clamp `FFMIN(FFMAX(0, x), hi)` lies in `[0, hi]` when `0 ≤ hi`. -/
theorem clamp_range (x hi : Int) (h : 0 ≤ hi) :
    0 ≤ FFMIN (FFMAX 0 x) hi ∧ FFMIN (FFMAX 0 x) hi ≤ hi := by
  unfold FFMIN FFMAX
  split_ifs <;> omega

/-- C1: for a capture region that fits the screen (`0 < width ≤ screen_width`,
`0 < height ≤ screen_height`, the screen size being a `uint16_t` pair), every
pointer position and every `follow_mouse` setting, `xcbgrab_reposition`
succeeds and leaves an origin with `0 ≤ x`, `0 ≤ y`,
`x + width ≤ screen_width` and `y + height ≤ screen_height`; width and height
are not modified. -/
theorem reposition_within_screen (c : XCBGrabContext)
    (p : xcb_query_pointer_reply_t) (geo : xcb_get_geometry_reply_t)
    (hw : 0 < c.width) (hwg : c.width ≤ geo.width) (hgw : geo.width ≤ 65535)
    (hh : 0 < c.height) (hhg : c.height ≤ geo.height) (hgh : geo.height ≤ 65535) :
    (xcbgrab_reposition c (some p) (some geo)).1 = Ret.ok ∧
    0 ≤ (xcbgrab_reposition c (some p) (some geo)).2.x ∧
    0 ≤ (xcbgrab_reposition c (some p) (some geo)).2.y ∧
    (xcbgrab_reposition c (some p) (some geo)).2.x + c.width ≤ geo.width ∧
    (xcbgrab_reposition c (some p) (some geo)).2.y + c.height ≤ geo.height ∧
    (xcbgrab_reposition c (some p) (some geo)).2.width = c.width ∧
    (xcbgrab_reposition c (some p) (some geo)).2.height = c.height := by
  have hx : wrapInt (geo.width - c.width) = geo.width - c.width :=
    wrapInt_of_range _ (by omega) (by omega)
  have hy : wrapInt (geo.height - c.height) = geo.height - c.height :=
    wrapInt_of_range _ (by omega) (by omega)
  simp only [xcbgrab_reposition, hx, hy]
  generalize reposition_origin c p.win_x p.win_y = xy
  have h1 := clamp_range xy.1 (geo.width - c.width) (by omega)
  have h2 := clamp_range xy.2 (geo.height - c.height) (by omega)
  refine ⟨trivial, h1.1, h2.1, ?_, ?_, trivial, trivial⟩ <;> omega

theorem reposition_within_screen_witness :
    (0 < sample_ctx.width ∧ sample_ctx.width ≤ 1024 ∧ 0 < sample_ctx.height ∧
      sample_ctx.height ≤ 768) ∧
    (xcbgrab_reposition sample_ctx (some ⟨1, 700, 20⟩) (some ⟨24, 1024, 768⟩)).1 = Ret.ok ∧
    0 ≤ (xcbgrab_reposition sample_ctx (some ⟨1, 700, 20⟩) (some ⟨24, 1024, 768⟩)).2.x ∧
    0 ≤ (xcbgrab_reposition sample_ctx (some ⟨1, 700, 20⟩) (some ⟨24, 1024, 768⟩)).2.y ∧
    (xcbgrab_reposition sample_ctx (some ⟨1, 700, 20⟩) (some ⟨24, 1024, 768⟩)).2.x +
      sample_ctx.width ≤ 1024 ∧
    (xcbgrab_reposition sample_ctx (some ⟨1, 700, 20⟩) (some ⟨24, 1024, 768⟩)).2.y +
      sample_ctx.height ≤ 768 ∧
    (xcbgrab_reposition sample_ctx (some ⟨1, 700, 20⟩) (some ⟨24, 1024, 768⟩)).2.width =
      sample_ctx.width ∧
    (xcbgrab_reposition sample_ctx (some ⟨1, 700, 20⟩) (some ⟨24, 1024, 768⟩)).2.height =
      sample_ctx.height :=
  ⟨by decide, reposition_within_screen sample_ctx ⟨1, 700, 20⟩ ⟨24, 1024, 768⟩
    (by decide) (by decide) (by decide) (by decide) (by decide) (by decide)⟩

/-! ### The inner loop body -/

theorem store_u8_same (frame : Int → Int) (off v : Int) :
    store_u8 frame off v off = v % 256 := by
  simp [store_u8]

theorem store_u8_other (frame : Int → Int) (off v i : Int) (h : i ≠ off) :
    store_u8 frame off v i = frame i := by
  simp [store_u8, h]

/-- The masks and shifts of the loop body read the four bytes of the pixel. -/
theorem cursor_byte_eq (pix : Nat) :
    ((pix &&& 0xff : Nat) : Int) = cursor_byte pix 0 ∧
    (((pix >>> 8) &&& 0xff : Nat) : Int) = cursor_byte pix 1 ∧
    (((pix >>> 16) &&& 0xff : Nat) : Int) = cursor_byte pix 2 ∧
    (((pix >>> 24) &&& 0xff : Nat) : Int) = cursor_byte pix 3 := by
  have h := Nat.and_pow_two_sub_one_eq_mod
  have e : (0xff : Nat) = 2 ^ 8 - 1 := by norm_num
  simp only [cursor_byte, e, h, Nat.shiftRight_eq_div_pow]
  norm_num

theorem cursor_byte_range (pix k : Nat) : 0 ≤ cursor_byte pix k ∧ cursor_byte pix k ≤ 255 := by
  unfold cursor_byte
  have := Nat.mod_lt (pix / 256 ^ k) (by norm_num : 256 > 0)
  omega

/-- The loop body changes no byte other than `image[0]`, `image[1]`, `image[2]`. -/
theorem draw_mouse_pixel_other (pix : Nat) (image : Int) (frame : Int → Int) (i : Int)
    (h : i < image ∨ image + 3 ≤ i) : draw_mouse_pixel pix image frame i = frame i := by
  have h0 : i ≠ image := by omega
  have h1 : i ≠ image + 1 := by omega
  have h2 : i ≠ image + 2 := by omega
  unfold draw_mouse_pixel
  simp only
  split_ifs <;> simp [store_u8, h0, h1, h2]

theorem draw_mouse_pixel_at (pix : Nat) (image : Int) (frame : Int → Int) (k : Nat)
    (hk : k < 3) :
    draw_mouse_pixel pix image frame (image + k) = blend_byte pix k (frame (image + k)) := by
  obtain ⟨e0, e1, e2, e3⟩ := cursor_byte_eq pix
  have r0 := cursor_byte_range pix 0
  have r1 := cursor_byte_range pix 1
  have r2 := cursor_byte_range pix 2
  unfold draw_mouse_pixel blend_byte
  simp only [e0, e1, e2, e3]
  have h127 : Int.tdiv 255 2 = 127 := by decide
  interval_cases k
  · split_ifs
    · simp
    · simp [store_u8]; omega
    · simp [store_u8, BLEND, h127]
  · split_ifs
    · simp
    · simp [store_u8]; omega
    · simp [store_u8, BLEND, h127]
  · split_ifs
    · simp
    · simp [store_u8]; omega
    · simp [store_u8, BLEND, h127]

/-! ### The loops -/

theorem draw_mouse_row_eq (pixels : Int → Nat) (stride : Int) (n : Nat) (st : DrawState) :
    draw_mouse_row pixels stride n st =
      { cursor := st.cursor + n
        image := st.image + n * stride
        frame := (row_visits stride n st.cursor st.image).foldl (composite pixels) st.frame
        visited := st.visited ++ row_visits stride n st.cursor st.image } := by
  induction n generalizing st with
  | zero => simp [draw_mouse_row, row_visits]
  | succ n ih =>
    simp only [draw_mouse_row]
    rw [ih]
    simp only [row_visits, composite, List.foldl_cons, List.append_assoc, List.singleton_append,
      DrawState.mk.injEq, and_true, true_and]
    constructor <;> (push_cast; ring)

theorem draw_mouse_rows_eq (pixels : Int → Nat) (ci_width gr_width stride c_off i_off w : Int)
    (n : Nat) (st : DrawState) :
    (draw_mouse_rows pixels ci_width gr_width stride c_off i_off w n st).visited =
      st.visited ++ rows_visits ci_width gr_width stride c_off i_off w n st.cursor st.image ∧
    (draw_mouse_rows pixels ci_width gr_width stride c_off i_off w n st).frame =
      (rows_visits ci_width gr_width stride c_off i_off w n st.cursor st.image).foldl
        (composite pixels) st.frame := by
  induction n generalizing st with
  | zero => simp [draw_mouse_rows, rows_visits]
  | succ n ih =>
    simp only [draw_mouse_rows, draw_mouse_row_eq, rows_visits]
    obtain ⟨h1, h2⟩ := ih
      { cursor := st.cursor + c_off + w.toNat + (ci_width - w - c_off)
        image := st.image + i_off * stride + w.toNat * stride + (gr_width - w - i_off) * stride
        frame := (row_visits stride w.toNat (st.cursor + c_off) (st.image + i_off * stride)).foldl
          (composite pixels) st.frame
        visited := st.visited ++
          row_visits stride w.toNat (st.cursor + c_off) (st.image + i_off * stride) }
    exact ⟨by rw [h1, List.append_assoc], by rw [h2, List.foldl_append]⟩

theorem mem_row_visits (stride : Int) (n : Nat) (c i : Int) (e : Int × Int) :
    e ∈ row_visits stride n c i ↔ ∃ k : Nat, k < n ∧ e = (c + k, i + k * stride) := by
  induction n generalizing c i with
  | zero => simp [row_visits]
  | succ n ih =>
    simp only [row_visits, List.mem_cons, ih]
    constructor
    · rintro (h | ⟨k, hk, h⟩)
      · exact ⟨0, by omega, by simp [h]⟩
      · refine ⟨k + 1, by omega, ?_⟩
        rw [h]; push_cast; ext <;> simp <;> ring
    · rintro ⟨k, hk, h⟩
      rcases k with _ | k
      · left; simpa using h
      · right
        refine ⟨k, by omega, ?_⟩
        rw [h]; push_cast; ext <;> simp <;> ring

theorem rows_visits_of_nonpos (ci_width gr_width stride c_off i_off w : Int) (hw : w ≤ 0)
    (n : Nat) (c i : Int) : rows_visits ci_width gr_width stride c_off i_off w n c i = [] := by
  have h0 : w.toNat = 0 := Int.toNat_eq_zero.mpr hw
  induction n generalizing c i with
  | zero => rfl
  | succ n ih => simp [rows_visits, h0, row_visits, ih]

theorem mem_rows_visits (ci_width gr_width stride c_off i_off w : Int) (hw : 0 ≤ w)
    (n : Nat) (c i : Int) (e : Int × Int) :
    e ∈ rows_visits ci_width gr_width stride c_off i_off w n c i ↔
      ∃ j k : Nat, j < n ∧ (k : Int) < w ∧
        e = (c + j * ci_width + c_off + k, i + (j * gr_width + i_off + k) * stride) := by
  have hwn : ((w.toNat : Nat) : Int) = w := Int.toNat_of_nonneg hw
  induction n generalizing c i with
  | zero => simp [rows_visits]
  | succ n ih =>
    have hc : c + c_off + (w.toNat : Int) + (ci_width - w - c_off) = c + ci_width := by
      rw [hwn]; ring
    have hi : i + i_off * stride + (w.toNat : Int) * stride + (gr_width - w - i_off) * stride
        = i + gr_width * stride := by
      rw [hwn]; ring
    simp only [rows_visits, List.mem_append, mem_row_visits, ih, hc, hi]
    constructor
    · rintro (⟨k, hk, h⟩ | ⟨j, k, hj, hk, h⟩)
      · refine ⟨0, k, by omega, by omega, ?_⟩
        rw [h]; push_cast; ext <;> simp <;> ring
      · refine ⟨j + 1, k, by omega, hk, ?_⟩
        rw [h]; push_cast; ext <;> simp <;> ring
    · rintro ⟨j, k, hj, hk, h⟩
      rcases j with _ | j
      · left
        refine ⟨k, by omega, ?_⟩
        rw [h]; push_cast; ext <;> simp <;> ring
      · right
        refine ⟨j, k, by omega, hk, ?_⟩
        rw [h]; push_cast; ext <;> simp <;> ring

theorem row_visits_pairwise (stride : Int) (n : Nat) (c i : Int) :
    (row_visits stride n c i).Pairwise
      (fun a b => a.1 < b.1 ∧ (0 ≤ stride → a.2 + stride ≤ b.2)) := by
  induction n generalizing c i with
  | zero => simp [row_visits]
  | succ n ih =>
    simp only [row_visits, List.pairwise_cons]
    refine ⟨?_, ih _ _⟩
    intro b hb
    obtain ⟨k, _, rfl⟩ := (mem_row_visits _ _ _ _ _).mp hb
    refine ⟨by simp only; omega, fun hs => ?_⟩
    have : (0 : Int) ≤ k * stride := mul_nonneg (by omega) hs
    simp only; omega

/-- Along the walk the `cursor` pointer strictly increases, and the `image`
pointer increases by at least one pixel (`stride` bytes) per visit when
`stride` is not negative. -/
theorem rows_visits_pairwise (ci_width gr_width stride c_off i_off w : Int) (hw : 0 ≤ w)
    (hc : 0 ≤ c_off) (hcw : c_off + w ≤ ci_width)
    (hi : 0 ≤ i_off) (hiw : i_off + w ≤ gr_width) (n : Nat) (c i : Int) :
    (rows_visits ci_width gr_width stride c_off i_off w n c i).Pairwise
      (fun a b => a.1 < b.1 ∧ (0 ≤ stride → a.2 + stride ≤ b.2)) := by
  have hwn : ((w.toNat : Nat) : Int) = w := Int.toNat_of_nonneg hw
  induction n generalizing c i with
  | zero => simp [rows_visits]
  | succ n ih =>
    have e1 : c + c_off + (w.toNat : Int) + (ci_width - w - c_off) = c + ci_width := by
      rw [hwn]; ring
    have e2 : i + i_off * stride + (w.toNat : Int) * stride + (gr_width - w - i_off) * stride
        = i + gr_width * stride := by
      rw [hwn]; ring
    simp only [rows_visits, List.pairwise_append, e1, e2]
    refine ⟨row_visits_pairwise stride _ _ _, ih _ _, ?_⟩
    intro a ha b hb
    obtain ⟨k, hk, rfl⟩ := (mem_row_visits _ _ _ _ _).mp ha
    obtain ⟨j, k', _, hk', rfl⟩ := (mem_rows_visits _ _ _ _ _ _ hw _ _ _ _).mp hb
    have hjc : (0 : Int) ≤ j * ci_width := mul_nonneg (by omega) (by omega)
    have hjg : (0 : Int) ≤ j * gr_width := mul_nonneg (by omega) (by omega)
    have hk1 : (k : Int) < w := by omega
    have hle : i_off + k + 1 ≤ gr_width + (j * gr_width + i_off + k') := by omega
    refine ⟨by simp only; omega, fun hs => ?_⟩
    have hmul := mul_le_mul_of_nonneg_right hle hs
    simp only; nlinarith [hmul]

theorem foldl_composite_other (pixels : Int → Nat) (L : List (Int × Int)) (frame : Int → Int)
    (b : Int) (h : ∀ e ∈ L, b < e.2 ∨ e.2 + 3 ≤ b) :
    L.foldl (composite pixels) frame b = frame b := by
  induction L generalizing frame with
  | nil => rfl
  | cons a t ih =>
    simp only [List.foldl_cons]
    rw [ih _ (fun e he => h e (List.mem_cons_of_mem _ he))]
    exact draw_mouse_pixel_other _ _ _ _ (h a (List.mem_cons_self _ _))

theorem foldl_composite_at (pixels : Int → Nat) (L : List (Int × Int))
    (hL : L.Pairwise (fun a b => a.2 + 3 ≤ b.2)) (frame : Int → Int)
    (e : Int × Int) (he : e ∈ L) (k : Nat) (hk : k < 3) :
    L.foldl (composite pixels) frame (e.2 + k) =
      blend_byte (pixels e.1) k (frame (e.2 + k)) := by
  induction L generalizing frame with
  | nil => simp at he
  | cons a t ih =>
    rw [List.pairwise_cons] at hL
    simp only [List.foldl_cons]
    rcases List.mem_cons.mp he with rfl | het
    · rw [foldl_composite_other _ _ _ _ (fun b hb => by have := hL.1 b hb; omega)]
      exact draw_mouse_pixel_at _ _ _ _ hk
    · rw [ih hL.2 _ het]
      have := hL.1 e het
      rw [composite, draw_mouse_pixel_other _ _ _ _ (by omega)]

/-! ### The whole walk -/

theorem FFMAX_spec (a b : Int) :
    a ≤ FFMAX a b ∧ b ≤ FFMAX a b ∧ (FFMAX a b = a ∨ FFMAX a b = b) := by
  unfold FFMAX; split_ifs <;> omega

theorem FFMIN_spec (a b : Int) :
    FFMIN a b ≤ a ∧ FFMIN a b ≤ b ∧ (FFMIN a b = a ∨ FFMIN a b = b) := by
  unfold FFMIN; split_ifs <;> omega

/-- The frame on return is the result of running the loop body at the visited
pointer pairs, in order. -/
theorem draw_mouse_loops_frame (gr : XCBGrabContext) (ci : xcb_xfixes_get_cursor_image_reply_t)
    (pixels : Int → Nat) (win_x win_y : Int) (frame : Int → Int) :
    (draw_mouse_loops gr ci pixels win_x win_y frame).frame =
      (draw_mouse_loops gr ci pixels win_x win_y frame).visited.foldl (composite pixels) frame := by
  simp only [draw_mouse_loops]
  rw [(draw_mouse_rows_eq _ _ _ _ _ _ _ _ _).1, (draw_mouse_rows_eq _ _ _ _ _ _ _ _ _).2]
  simp

/-- The loop body runs exactly at the pointer pairs of the points common to
the cursor footprint and the capture rectangle. -/
theorem mem_draw_mouse_visited (gr : XCBGrabContext) (ci : xcb_xfixes_get_cursor_image_reply_t)
    (pixels : Int → Nat) (win_x win_y : Int) (frame : Int → Int) (e : Int × Int) :
    e ∈ (draw_mouse_loops gr ci pixels win_x win_y frame).visited ↔
      ∃ X Y : Int, in_cursor ci X Y ∧ in_capture gr win_x win_y X Y ∧
        e = (cursor_index ci X Y, frame_offset gr win_x win_y X Y) := by
  simp only [draw_mouse_loops]
  rw [(draw_mouse_rows_eq _ _ _ _ _ _ _ _ _).1]
  simp only [List.nil_append, in_cursor, in_capture, cursor_index, frame_offset]
  obtain ⟨hx1, hx2, hx3⟩ := FFMAX_spec (ci.x - ci.xhot) (win_x + gr.x)
  obtain ⟨hy1, hy2, hy3⟩ := FFMAX_spec (ci.y - ci.yhot) (win_y + gr.y)
  obtain ⟨hw1, hw2, hw3⟩ := FFMIN_spec (ci.x - ci.xhot + ci.width) (win_x + gr.x + gr.width)
  obtain ⟨hh1, hh2, hh3⟩ := FFMIN_spec (ci.y - ci.yhot + ci.height) (win_y + gr.y + gr.height)
  generalize FFMAX (ci.x - ci.xhot) (win_x + gr.x) = x at *
  generalize FFMAX (ci.y - ci.yhot) (win_y + gr.y) = y at *
  generalize FFMIN (ci.x - ci.xhot + ci.width) (win_x + gr.x + gr.width) = xe at *
  generalize FFMIN (ci.y - ci.yhot + ci.height) (win_y + gr.y + gr.height) = ye at *
  by_cases hw : 0 ≤ xe - x
  · rw [mem_rows_visits _ _ _ _ _ _ hw]
    constructor
    · rintro ⟨j, k, hj, hk, rfl⟩
      refine ⟨x + k, y + j, by omega, by omega, ?_⟩
      ext <;> simp <;> ring
    · rintro ⟨X, Y, hc, hcap, rfl⟩
      refine ⟨(Y - y).toNat, (X - x).toNat, by omega, by omega, ?_⟩
      have hX : (((X - x).toNat : Nat) : Int) = X - x := Int.toNat_of_nonneg (by omega)
      have hY : (((Y - y).toNat : Nat) : Int) = Y - y := Int.toNat_of_nonneg (by omega)
      rw [hX, hY]
      ext <;> simp <;> ring
  · rw [rows_visits_of_nonpos _ _ _ _ _ _ (by omega)]
    simp only [List.not_mem_nil, false_iff]
    rintro ⟨X, Y, hc, hcap, _⟩
    omega

/-- Along the walk the `cursor` pointer strictly increases and, when
`bpp / 8` is not negative, the `image` pointer advances by at least `bpp / 8`
bytes between any two visits. -/
theorem draw_mouse_visited_pairwise (gr : XCBGrabContext)
    (ci : xcb_xfixes_get_cursor_image_reply_t) (pixels : Int → Nat) (win_x win_y : Int)
    (frame : Int → Int) :
    (draw_mouse_loops gr ci pixels win_x win_y frame).visited.Pairwise
      (fun a b => a.1 < b.1 ∧ (0 ≤ Int.tdiv gr.bpp 8 → a.2 + Int.tdiv gr.bpp 8 ≤ b.2)) := by
  simp only [draw_mouse_loops]
  rw [(draw_mouse_rows_eq _ _ _ _ _ _ _ _ _).1]
  simp only [List.nil_append]
  obtain ⟨hx1, hx2, hx3⟩ := FFMAX_spec (ci.x - ci.xhot) (win_x + gr.x)
  obtain ⟨hw1, hw2, hw3⟩ := FFMIN_spec (ci.x - ci.xhot + ci.width) (win_x + gr.x + gr.width)
  generalize FFMAX (ci.x - ci.xhot) (win_x + gr.x) = x at *
  generalize FFMIN (ci.x - ci.xhot + ci.width) (win_x + gr.x + gr.width) = xe at *
  by_cases hw : 0 ≤ xe - x
  · exact rows_visits_pairwise _ _ _ _ _ _ hw (by omega) (by omega) (by omega) (by omega) _ _ _
  · rw [rows_visits_of_nonpos _ _ _ _ _ _ (by omega)]
    exact List.Pairwise.nil

theorem xcbgrab_draw_mouse_eq (gr : XCBGrabContext) (frame : Int → Int)
    (ci : xcb_xfixes_get_cursor_image_reply_t) (pixels : Int → Nat)
    (hci : ci.cursor_image = some pixels) (win_x win_y : Int) :
    xcbgrab_draw_mouse gr frame (some ci) win_x win_y =
      (draw_mouse_loops gr ci pixels win_x win_y frame).visited.foldl (composite pixels) frame := by
  simp only [xcbgrab_draw_mouse, hci]
  exact draw_mouse_loops_frame _ _ _ _ _ _

/-- Two visited pointer pairs are equal or their `image` pointers are at least
`bpp / 8` bytes apart. -/
theorem draw_mouse_visited_apart (gr : XCBGrabContext)
    (ci : xcb_xfixes_get_cursor_image_reply_t) (pixels : Int → Nat) (win_x win_y : Int)
    (frame : Int → Int) (hs : 0 ≤ Int.tdiv gr.bpp 8) (a b : Int × Int)
    (ha : a ∈ (draw_mouse_loops gr ci pixels win_x win_y frame).visited)
    (hb : b ∈ (draw_mouse_loops gr ci pixels win_x win_y frame).visited) :
    a = b ∨ a.2 + Int.tdiv gr.bpp 8 ≤ b.2 ∨ b.2 + Int.tdiv gr.bpp 8 ≤ a.2 := by
  by_cases hab : a = b
  · exact Or.inl hab
  · right
    have hp := (draw_mouse_visited_pairwise gr ci pixels win_x win_y frame).imp
      (S := fun a b => a.2 + Int.tdiv gr.bpp 8 ≤ b.2 ∨ b.2 + Int.tdiv gr.bpp 8 ≤ a.2)
      (fun h => Or.inl (h.2 hs))
    exact hp.forall (fun _ _ h => h.symm) ha hb hab

theorem tdiv_bpp_ge (bpp : Int) (h : 24 ≤ bpp) : 3 ≤ Int.tdiv bpp 8 := by
  rw [Int.tdiv_eq_ediv (by omega) (by omega)]; omega

/-- With at least three bytes per pixel, the three colour bytes of the frame
pixel of a point of the intersection hold, on return, the value that the loop
body computes from the cursor pixel of that point and the previous value of
the byte. -/
theorem draw_mouse_at_point (gr : XCBGrabContext) (frame : Int → Int)
    (ci : xcb_xfixes_get_cursor_image_reply_t) (pixels : Int → Nat)
    (hci : ci.cursor_image = some pixels) (win_x win_y : Int) (hbpp : 24 ≤ gr.bpp)
    (X Y : Int) (hc : in_cursor ci X Y) (hcap : in_capture gr win_x win_y X Y)
    (k : Nat) (hk : k < 3) :
    xcbgrab_draw_mouse gr frame (some ci) win_x win_y (frame_offset gr win_x win_y X Y + k) =
      blend_byte (pixels (cursor_index ci X Y)) k
        (frame (frame_offset gr win_x win_y X Y + k)) := by
  have hs := tdiv_bpp_ge gr.bpp hbpp
  rw [xcbgrab_draw_mouse_eq gr frame ci pixels hci]
  have hmem : (cursor_index ci X Y, frame_offset gr win_x win_y X Y) ∈
      (draw_mouse_loops gr ci pixels win_x win_y frame).visited :=
    (mem_draw_mouse_visited _ _ _ _ _ _ _).mpr ⟨X, Y, hc, hcap, rfl⟩
  have hp := (draw_mouse_visited_pairwise gr ci pixels win_x win_y frame).imp
      (S := fun a b => a.2 + 3 ≤ b.2) (fun h => by have := h.2 (by omega); omega)
  exact foldl_composite_at pixels _ hp frame _ hmem k hk

/-- With at least three bytes per pixel, a byte of the frame pixel of a point
of the intersection that is not one of its three colour bytes is unchanged. -/
theorem draw_mouse_padding (gr : XCBGrabContext) (frame : Int → Int)
    (ci : xcb_xfixes_get_cursor_image_reply_t) (pixels : Int → Nat)
    (hci : ci.cursor_image = some pixels) (win_x win_y : Int) (hbpp : 24 ≤ gr.bpp)
    (X Y : Int) (hc : in_cursor ci X Y) (hcap : in_capture gr win_x win_y X Y)
    (k : Int) (hk3 : 3 ≤ k) (hk : k < Int.tdiv gr.bpp 8) :
    xcbgrab_draw_mouse gr frame (some ci) win_x win_y (frame_offset gr win_x win_y X Y + k) =
      frame (frame_offset gr win_x win_y X Y + k) := by
  have hs := tdiv_bpp_ge gr.bpp hbpp
  rw [xcbgrab_draw_mouse_eq gr frame ci pixels hci]
  have hmem : (cursor_index ci X Y, frame_offset gr win_x win_y X Y) ∈
      (draw_mouse_loops gr ci pixels win_x win_y frame).visited :=
    (mem_draw_mouse_visited _ _ _ _ _ _ _).mpr ⟨X, Y, hc, hcap, rfl⟩
  apply foldl_composite_other
  intro e he
  rcases draw_mouse_visited_apart gr ci pixels win_x win_y frame (by omega) _ _ he hmem
    with rfl | h | h
  · right; simp only; omega
  · right; simp only at h; omega
  · left; simp only at h; omega

/-! ### The walk with wrapped `int` arithmetic -/

/-- A product of a factor in `0 .. B` with a non-negative factor is its own
wraparound when `B` times that factor fits an `int`. -/
theorem wrapInt_mul_of_le (a b B : Int) (ha0 : 0 ≤ a) (haB : a ≤ B) (hb : 0 ≤ b)
    (hBb : B * b ≤ 2147483647) : wrapInt (a * b) = a * b := by
  have h0 : 0 ≤ a * b := mul_nonneg ha0 hb
  have h1 : a * b ≤ B * b := mul_le_mul_of_nonneg_right haB hb
  exact wrapInt_of_range _ (by omega) (by omega)

/-- With a width that is not positive the inner loop never runs: the outer loop
leaves the frame and the record of visits as they are. -/
theorem draw_mouse_rows_wrap_of_nonpos (pixels : Int → Nat)
    (ci_width gr_width stride c_off i_off w : Int) (hw : w ≤ 0) (n : Nat) (st : DrawState) :
    (draw_mouse_rows_wrap pixels ci_width gr_width stride c_off i_off w n st).frame = st.frame ∧
    (draw_mouse_rows_wrap pixels ci_width gr_width stride c_off i_off w n st).visited =
      st.visited := by
  have h0 : w.toNat = 0 := Int.toNat_eq_zero.mpr hw
  induction n generalizing st with
  | zero => exact ⟨rfl, rfl⟩
  | succ n ih =>
    simp only [draw_mouse_rows_wrap, h0, draw_mouse_row]
    exact ih _

/-- When the three pointer increments of the outer loop do not overflow, the
wrapped loop is the exact one. -/
theorem draw_mouse_rows_wrap_eq (pixels : Int → Nat)
    (ci_width gr_width stride c_off i_off w : Int)
    (h1 : wrapInt (i_off * stride) = i_off * stride)
    (h2 : wrapInt (wrapInt (ci_width - w) - c_off) = ci_width - w - c_off)
    (h3 : wrapInt (wrapInt (wrapInt (gr_width - w) - i_off) * stride) =
      (gr_width - w - i_off) * stride)
    (n : Nat) (st : DrawState) :
    draw_mouse_rows_wrap pixels ci_width gr_width stride c_off i_off w n st =
      draw_mouse_rows pixels ci_width gr_width stride c_off i_off w n st := by
  induction n generalizing st with
  | zero => rfl
  | succ n ih =>
    simp only [draw_mouse_rows_wrap, draw_mouse_rows, h1, h2, h3]
    exact ih _

theorem tdiv_eight_nonneg (bpp : Int) (h : 0 ≤ bpp) : 0 ≤ Int.tdiv bpp 8 := by
  rw [Int.tdiv_eq_ediv h (by norm_num)]; omega

/-- The start offset of the `image` pointer, a product of three `int` factors,
does not overflow when the row is inside the region and the frame size fits an
`int`. -/
theorem wrapInt_mul_mul (q gw gh s : Int) (hq0 : 0 ≤ q) (hq : q < gh) (hgw : 0 ≤ gw)
    (hs : 0 ≤ s) (hf : gw * gh * s ≤ 2147483647) :
    wrapInt (wrapInt (q * gw) * s) = q * gw * s := by
  rcases eq_or_lt_of_le hs with h0 | hpos
  · subst h0
    simp [wrapInt]
  · have hgg : 0 ≤ gw * gh := mul_nonneg hgw (by omega)
    have h1 : gw * gh ≤ gw * gh * s := by nlinarith
    have e : wrapInt (q * gw) = q * gw :=
      wrapInt_mul_of_le q gw gh hq0 (by omega) hgw (by rw [mul_comm]; omega)
    rw [e]
    have h2 : q * gw ≤ gh * gw := mul_le_mul_of_nonneg_right (by omega) hgw
    exact wrapInt_mul_of_le (q * gw) s (gh * gw) (mul_nonneg hq0 hgw) h2 hs
      (by rw [mul_comm gh gw]; exact hf)

theorem mul_stride_le (gw gh s : Int) (hgw : 0 ≤ gw) (hgh : 1 ≤ gh) (hs : 0 ≤ s) :
    gw * s ≤ gw * gh * s := by
  have t : 0 ≤ gw * s * (gh - 1) := mul_nonneg (mul_nonneg hgw hs) (by omega)
  nlinarith

/-- Under `draw_mouse_in_range` the walk with wrapped `int` arithmetic leaves
the frame and the record of visits of the walk in exact integers. -/
theorem draw_mouse_loops_wrap_eq (gr : XCBGrabContext)
    (ci : xcb_xfixes_get_cursor_image_reply_t) (pixels : Int → Nat) (win_x win_y : Int)
    (frame : Int → Int) (hr : draw_mouse_in_range gr ci win_x win_y) :
    (draw_mouse_loops_wrap gr ci pixels win_x win_y frame).frame =
      (draw_mouse_loops gr ci pixels win_x win_y frame).frame ∧
    (draw_mouse_loops_wrap gr ci pixels win_x win_y frame).visited =
      (draw_mouse_loops gr ci pixels win_x win_y frame).visited := by
  obtain ⟨hcx, hcy, hxh, hyh, hcw, hch, hwx, hwy, hgx, hgy, hgw, hgh, hbpp, hfs, hcs⟩ := hr
  unfold is_int16 at hcx hcy hwx hwy
  unfold is_uint16 at hxh hyh hcw hch
  have hs := tdiv_eight_nonneg gr.bpp hbpp
  simp only [draw_mouse_loops_wrap, draw_mouse_loops]
  generalize Int.tdiv gr.bpp 8 = s at hs hfs ⊢
  have e1 : wrapInt (ci.x - ci.xhot) = ci.x - ci.xhot := wrapInt_of_range _ (by omega) (by omega)
  have e2 : wrapInt (ci.y - ci.yhot) = ci.y - ci.yhot := wrapInt_of_range _ (by omega) (by omega)
  have e3 : wrapInt (win_x + gr.x) = win_x + gr.x := wrapInt_of_range _ (by omega) (by omega)
  have e4 : wrapInt (win_y + gr.y) = win_y + gr.y := wrapInt_of_range _ (by omega) (by omega)
  rw [e1, e2, e3, e4]
  have e5 : wrapInt (ci.x - ci.xhot + ci.width) = ci.x - ci.xhot + ci.width :=
    wrapInt_of_range _ (by omega) (by omega)
  have e6 : wrapInt (ci.y - ci.yhot + ci.height) = ci.y - ci.yhot + ci.height :=
    wrapInt_of_range _ (by omega) (by omega)
  have e7 : wrapInt (win_x + gr.x + gr.width) = win_x + gr.x + gr.width :=
    wrapInt_of_range _ (by omega) (by omega)
  have e8 : wrapInt (win_y + gr.y + gr.height) = win_y + gr.y + gr.height :=
    wrapInt_of_range _ (by omega) (by omega)
  rw [e5, e6, e7, e8]
  obtain ⟨hx1, hx2, hx3⟩ := FFMAX_spec (ci.x - ci.xhot) (win_x + gr.x)
  obtain ⟨hy1, hy2, hy3⟩ := FFMAX_spec (ci.y - ci.yhot) (win_y + gr.y)
  obtain ⟨hw1, hw2, hw3⟩ := FFMIN_spec (ci.x - ci.xhot + ci.width) (win_x + gr.x + gr.width)
  obtain ⟨hh1, hh2, hh3⟩ := FFMIN_spec (ci.y - ci.yhot + ci.height) (win_y + gr.y + gr.height)
  generalize FFMAX (ci.x - ci.xhot) (win_x + gr.x) = x at *
  generalize FFMAX (ci.y - ci.yhot) (win_y + gr.y) = y at *
  generalize FFMIN (ci.x - ci.xhot + ci.width) (win_x + gr.x + gr.width) = xe at *
  generalize FFMIN (ci.y - ci.yhot + ci.height) (win_y + gr.y + gr.height) = ye at *
  have e9 : wrapInt (xe - x) = xe - x := wrapInt_of_range _ (by omega) (by omega)
  have e10 : wrapInt (ye - y) = ye - y := wrapInt_of_range _ (by omega) (by omega)
  have e11 : wrapInt (x - (ci.x - ci.xhot)) = x - (ci.x - ci.xhot) :=
    wrapInt_of_range _ (by omega) (by omega)
  have e12 : wrapInt (x - gr.x) = x - gr.x := wrapInt_of_range _ (by omega) (by omega)
  have e13 : wrapInt (x - gr.x - win_x) = x - gr.x - win_x :=
    wrapInt_of_range _ (by omega) (by omega)
  have e14 : wrapInt (y - (ci.y - ci.yhot)) = y - (ci.y - ci.yhot) :=
    wrapInt_of_range _ (by omega) (by omega)
  have e15 : wrapInt (y - gr.y) = y - gr.y := wrapInt_of_range _ (by omega) (by omega)
  have e16 : wrapInt (y - gr.y - win_y) = y - gr.y - win_y :=
    wrapInt_of_range _ (by omega) (by omega)
  rw [e9, e10, e11, e12, e13, e14, e15, e16]
  by_cases hw : xe - x ≤ 0
  · obtain ⟨a, b⟩ := draw_mouse_rows_wrap_of_nonpos pixels ci.width gr.width s
      (x - (ci.x - ci.xhot)) (x - gr.x - win_x) (xe - x) hw (ye - y).toNat
      { cursor := wrapInt ((y - (ci.y - ci.yhot)) * ci.width)
        image := wrapInt (wrapInt ((y - gr.y - win_y) * gr.width) * s)
        frame := frame
        visited := [] }
    rw [a, b, (draw_mouse_rows_eq _ _ _ _ _ _ _ _ _).1, (draw_mouse_rows_eq _ _ _ _ _ _ _ _ _).2,
      rows_visits_of_nonpos _ _ _ _ _ _ hw]
    exact ⟨rfl, rfl⟩
  · by_cases hh : ye - y ≤ 0
    · have h0 : (ye - y).toNat = 0 := Int.toNat_eq_zero.mpr hh
      rw [h0]
      exact ⟨rfl, rfl⟩
    · have p1 : wrapInt ((y - (ci.y - ci.yhot)) * ci.width) = (y - (ci.y - ci.yhot)) * ci.width :=
        wrapInt_mul_of_le _ _ ci.height (by omega) (by omega) (by omega)
          (by rw [mul_comm]; exact hcs)
      have p2 : wrapInt (wrapInt ((y - gr.y - win_y) * gr.width) * s) =
          (y - gr.y - win_y) * gr.width * s :=
        wrapInt_mul_mul _ _ gr.height _ (by omega) (by omega) (by omega) hs hfs
      have hgs : gr.width * s ≤ 2147483647 :=
        le_trans (mul_stride_le gr.width gr.height s (by omega) (by omega) hs) hfs
      have h1 : wrapInt ((x - gr.x - win_x) * s) = (x - gr.x - win_x) * s :=
        wrapInt_mul_of_le _ _ gr.width (by omega) (by omega) hs hgs
      have h2 : wrapInt (wrapInt (ci.width - (xe - x)) - (x - (ci.x - ci.xhot))) =
          ci.width - (xe - x) - (x - (ci.x - ci.xhot)) := by
        rw [wrapInt_of_range (ci.width - (xe - x)) (by omega) (by omega)]
        exact wrapInt_of_range _ (by omega) (by omega)
      have h3 : wrapInt (wrapInt (wrapInt (gr.width - (xe - x)) - (x - gr.x - win_x)) * s) =
          (gr.width - (xe - x) - (x - gr.x - win_x)) * s := by
        rw [wrapInt_of_range (gr.width - (xe - x)) (by omega) (by omega),
          wrapInt_of_range (gr.width - (xe - x) - (x - gr.x - win_x)) (by omega) (by omega)]
        exact wrapInt_mul_of_le _ _ gr.width (by omega) (by omega) hs hgs
      rw [p1, p2, draw_mouse_rows_wrap_eq pixels _ _ _ _ _ _ h1 h2 h3]
      exact ⟨rfl, rfl⟩

/-- Under `draw_mouse_in_range` the function with wrapped `int` arithmetic
returns the frame that the function in exact integers returns. -/
theorem xcbgrab_draw_mouse_wrap_eq (gr : XCBGrabContext) (frame : Int → Int)
    (ci : xcb_xfixes_get_cursor_image_reply_t) (win_x win_y : Int)
    (hr : draw_mouse_in_range gr ci win_x win_y) :
    xcbgrab_draw_mouse_wrap gr frame (some ci) win_x win_y =
      xcbgrab_draw_mouse gr frame (some ci) win_x win_y := by
  cases hci : ci.cursor_image with
  | none => simp [xcbgrab_draw_mouse_wrap, xcbgrab_draw_mouse, hci]
  | some pixels =>
    simp only [xcbgrab_draw_mouse_wrap, xcbgrab_draw_mouse, hci]
    exact (draw_mouse_loops_wrap_eq gr ci pixels win_x win_y frame hr).1

/-! ### Claims about `xcbgrab_draw_mouse` -/

/-- C2, as stated, fails: a cursor channel of 200 with alpha 128 over a
destination byte of 100 gives 250, not `100 + (200 * 127 + 127) / 255 = 200`.
The point (5, 2) of the sample input carries the cursor pixel `0x800000c8` and
its first colour byte is at offset 28. -/
theorem draw_mouse_blend_counterexample :
    in_cursor sample_cursor 5 2 ∧ in_capture sample_ctx 0 0 5 2 ∧
    cursor_index sample_cursor 5 2 = 1 ∧ frame_offset sample_ctx 0 0 5 2 = 28 ∧
    cursor_byte (sample_pixels 1) 0 = 200 ∧ cursor_byte (sample_pixels 1) 3 = 128 ∧
    sample_frame 28 = 100 ∧
    xcbgrab_draw_mouse sample_ctx sample_frame (some sample_cursor) 0 0 28 = 250 ∧
    xcbgrab_draw_mouse sample_ctx sample_frame (some sample_cursor) 0 0 28 ≠
      sample_frame 28 + (cursor_byte (sample_pixels 1) 0 *
        (255 - cursor_byte (sample_pixels 1) 3) + 127) / 255 := by
  decide

/-- C2 (amended): for every cursor pixel inside the intersection whose alpha `a`
satisfies `0 < a < 255`, `xcbgrab_draw_mouse` sets each of the three destination
colour bytes to `(src_channel + (dst_channel * (255 - a) + 127) / 255) mod 256`,
where `src_channel` is the channel of the cursor pixel and `dst_channel` the
previous value of the byte (the division is that of C; for a byte value it is
the ordinary integer division). -/
theorem draw_mouse_blend_formula (gr : XCBGrabContext) (frame : Int → Int)
    (ci : xcb_xfixes_get_cursor_image_reply_t) (pixels : Int → Nat)
    (hci : ci.cursor_image = some pixels) (win_x win_y : Int) (hbpp : 24 ≤ gr.bpp)
    (X Y : Int) (hc : in_cursor ci X Y) (hcap : in_capture gr win_x win_y X Y)
    (ha0 : 0 < cursor_byte (pixels (cursor_index ci X Y)) 3)
    (ha1 : cursor_byte (pixels (cursor_index ci X Y)) 3 < 255)
    (k : Nat) (hk : k < 3) :
    xcbgrab_draw_mouse gr frame (some ci) win_x win_y (frame_offset gr win_x win_y X Y + k) =
      (cursor_byte (pixels (cursor_index ci X Y)) k +
        Int.tdiv (frame (frame_offset gr win_x win_y X Y + k) *
          (255 - cursor_byte (pixels (cursor_index ci X Y)) 3) + 127) 255) % 256 ∧
    (0 ≤ frame (frame_offset gr win_x win_y X Y + k) →
      xcbgrab_draw_mouse gr frame (some ci) win_x win_y (frame_offset gr win_x win_y X Y + k) =
        (cursor_byte (pixels (cursor_index ci X Y)) k +
          (frame (frame_offset gr win_x win_y X Y + k) *
            (255 - cursor_byte (pixels (cursor_index ci X Y)) 3) + 127) / 255) % 256) := by
  have h := draw_mouse_at_point gr frame ci pixels hci win_x win_y hbpp X Y hc hcap k hk
  have hne0 : cursor_byte (pixels (cursor_index ci X Y)) 3 ≠ 0 := by omega
  have hne1 : cursor_byte (pixels (cursor_index ci X Y)) 3 ≠ 255 := by omega
  simp only [blend_byte, hne0, hne1, if_false] at h
  refine ⟨h, fun hd => ?_⟩
  rw [h, Int.tdiv_eq_ediv _ (by norm_num)]
  have := mul_nonneg hd (by omega : (0 : Int) ≤ 255 - cursor_byte (pixels (cursor_index ci X Y)) 3)
  omega

theorem draw_mouse_blend_formula_witness :
    xcbgrab_draw_mouse sample_ctx sample_frame (some sample_cursor) 0 0
        (frame_offset sample_ctx 0 0 5 2 + (0 : Nat)) =
      (cursor_byte (sample_pixels (cursor_index sample_cursor 5 2)) 0 +
        Int.tdiv (sample_frame (frame_offset sample_ctx 0 0 5 2 + (0 : Nat)) *
          (255 - cursor_byte (sample_pixels (cursor_index sample_cursor 5 2)) 3) + 127) 255)
        % 256 :=
  (draw_mouse_blend_formula sample_ctx sample_frame sample_cursor sample_pixels rfl 0 0
    (by decide) 5 2 (by decide) (by decide) (by decide) (by decide) 0 (by decide)).1

/-- C3: for every cursor pixel inside the intersection whose alpha is 255,
`xcbgrab_draw_mouse` overwrites the bytes at offsets 0, 1, 2 of the
corresponding frame pixel with bits 0-7, 8-15 and 16-23 of the cursor pixel,
whatever the frame held before, and leaves every further byte of that pixel
(offset 3 of a 4-byte pixel) unchanged. -/
theorem draw_mouse_opaque_overwrites (gr : XCBGrabContext) (frame : Int → Int)
    (ci : xcb_xfixes_get_cursor_image_reply_t) (pixels : Int → Nat)
    (hci : ci.cursor_image = some pixels) (win_x win_y : Int) (hbpp : 24 ≤ gr.bpp)
    (X Y : Int) (hc : in_cursor ci X Y) (hcap : in_capture gr win_x win_y X Y)
    (ha : cursor_byte (pixels (cursor_index ci X Y)) 3 = 255) :
    xcbgrab_draw_mouse gr frame (some ci) win_x win_y (frame_offset gr win_x win_y X Y) =
      cursor_byte (pixels (cursor_index ci X Y)) 0 ∧
    xcbgrab_draw_mouse gr frame (some ci) win_x win_y (frame_offset gr win_x win_y X Y + 1) =
      cursor_byte (pixels (cursor_index ci X Y)) 1 ∧
    xcbgrab_draw_mouse gr frame (some ci) win_x win_y (frame_offset gr win_x win_y X Y + 2) =
      cursor_byte (pixels (cursor_index ci X Y)) 2 ∧
    (∀ k : Int, 3 ≤ k → k < Int.tdiv gr.bpp 8 →
      xcbgrab_draw_mouse gr frame (some ci) win_x win_y (frame_offset gr win_x win_y X Y + k) =
        frame (frame_offset gr win_x win_y X Y + k)) := by
  have h0 := draw_mouse_at_point gr frame ci pixels hci win_x win_y hbpp X Y hc hcap 0 (by omega)
  have h1 := draw_mouse_at_point gr frame ci pixels hci win_x win_y hbpp X Y hc hcap 1 (by omega)
  have h2 := draw_mouse_at_point gr frame ci pixels hci win_x win_y hbpp X Y hc hcap 2 (by omega)
  simp only [blend_byte, ha] at h0 h1 h2
  norm_num at h0 h1 h2
  exact ⟨h0, h1, h2, fun k hk3 hk =>
    draw_mouse_padding gr frame ci pixels hci win_x win_y hbpp X Y hc hcap k hk3 hk⟩

theorem draw_mouse_opaque_overwrites_witness :
    xcbgrab_draw_mouse sample_ctx sample_frame (some sample_cursor) 0 0
        (frame_offset sample_ctx 0 0 4 2) =
      cursor_byte (sample_pixels (cursor_index sample_cursor 4 2)) 0 :=
  (draw_mouse_opaque_overwrites sample_ctx sample_frame sample_cursor sample_pixels rfl 0 0
    (by decide) 4 2 (by decide) (by decide) (by decide)).1

theorem wait_frame_some (c : XCBGrabContext) (clock : List Int) (t : Int) (c1 : XCBGrabContext)
    (h : wait_frame c clock = some (t, c1)) :
    c1 = { c with time_frame := c.time_frame + c.frame_duration } := by
  simp only [wait_frame] at h
  split at h
  · simp at h
  · simp at h; exact h.2.symm

theorem reposition_keeps (c : XCBGrabContext) (p : Option xcb_query_pointer_reply_t)
    (geo : Option xcb_get_geometry_reply_t) :
    (xcbgrab_reposition c p geo).2 =
      { c with x := (xcbgrab_reposition c p geo).2.x, y := (xcbgrab_reposition c p geo).2.y } := by
  unfold xcbgrab_reposition
  split <;> rfl

theorem acquire_ctx (c : XCBGrabContext) (pkt : AVPacket) (env : ReadPacketEnv) :
    (read_packet_acquire c pkt env).ctx = c ∨
    (read_packet_acquire c pkt env).ctx = { c with has_shm := 0 } := by
  simp only [read_packet_acquire]
  split_ifs <;> simp

theorem acquire_draw_mouse (c : XCBGrabContext) (pkt : AVPacket) (env : ReadPacketEnv) :
    (read_packet_acquire c pkt env).ctx.draw_mouse = c.draw_mouse := by
  rcases acquire_ctx c pkt env with h | h <;> rw [h]

/-- The shape of the outcome of a call that returns: the context `c2` at the
acquisition differs from the context on entry in `time_frame`, `x` and `y`
only; the call either left by `goto end` before the acquisition, or returns
the failed acquisition, or returns the acquired packet after the timestamps,
the cursor drawing and the colour conversion. -/
theorem read_packet_shape (c : XCBGrabContext) (pkt : AVPacket) (env : ReadPacketEnv)
    (r : ReadPacketResult) (h : xcbgrab_read_packet c pkt env = some r) :
    ∃ x y : Int, ∃ data : Int → Int,
      let c2 : XCBGrabContext :=
        { c with time_frame := c.time_frame + c.frame_duration, x := x, y := y }
      let a := read_packet_acquire c2 pkt env
      let n := read_packet_npp a.ctx
        { a.pkt with
          data := data
          pts := a.ctx.time_frame - a.ctx.frame_duration
          dts := a.ctx.time_frame - a.ctx.frame_duration
          duration := a.ctx.frame_duration } env.npp
      (data = a.pkt.data ∨
        ∃ win_x win_y : Int, data = xcbgrab_draw_mouse a.ctx a.pkt.data env.cursor win_x win_y) ∧
      (c.draw_mouse = 0 → data = a.pkt.data) ∧
      (r = { ret := Ret.err AVError.EXTERNAL, ctx := c2, pkt := pkt,
             shm_ret := none, frame_ret := none } ∨
       (a.ret.failed = true ∧ r = a) ∨
       (a.ret.failed = false ∧ r = { a with ret := n.1, pkt := n.2 })) := by
  unfold xcbgrab_read_packet at h
  cases hw : wait_frame c env.clock with
  | none => simp [hw] at h
  | some tc =>
    obtain ⟨t, c1⟩ := tc
    have hc1 := wait_frame_some _ _ _ _ hw
    simp only [hw] at h
    cases hp : read_packet_pointer c1 env with
    | none =>
      simp only [hp, Option.some.injEq] at h
      subst h; subst hc1
      exact ⟨c.x, c.y, _, Or.inl rfl, fun _ => rfl, Or.inl rfl⟩
    | some pg =>
      obtain ⟨p, geo⟩ := pg
      simp only [hp] at h
      cases ht : read_packet_translate c1 env with
      | none =>
        simp only [ht, Option.some.injEq] at h
        subst h; subst hc1
        exact ⟨c.x, c.y, _, Or.inl rfl, fun _ => rfl, Or.inl rfl⟩
      | some w =>
        obtain ⟨wx, wy⟩ := w
        simp only [ht] at h
        have hc2 : ∃ x y : Int,
            (if c1.follow_mouse ≠ 0 ∧ pointer_same_screen p = true then
              (xcbgrab_reposition c1 p geo).2 else c1) =
            { c with time_frame := c.time_frame + c.frame_duration, x := x, y := y } := by
          split_ifs
          · exact ⟨_, _, by rw [reposition_keeps, hc1]⟩
          · exact ⟨c.x, c.y, by rw [hc1]⟩
        obtain ⟨x, y, hc2⟩ := hc2
        rw [hc2] at h
        have hdm := acquire_draw_mouse
          { c with time_frame := c.time_frame + c.frame_duration, x := x, y := y } pkt env
        by_cases hf : (read_packet_acquire
            { c with time_frame := c.time_frame + c.frame_duration, x := x, y := y }
            pkt env).ret.failed = true
        · simp only [hf, if_true, Option.some.injEq] at h
          exact ⟨x, y, _, Or.inl rfl, fun _ => rfl, Or.inr (Or.inl ⟨hf, h.symm⟩)⟩
        · simp only [hf, Bool.false_eq_true, if_false, Option.some.injEq] at h
          simp only [Bool.not_eq_true] at hf
          split_ifs at h with hd
          · exact ⟨x, y, _, Or.inr ⟨wx, wy, rfl⟩, fun h0 => absurd (hdm.trans h0) hd.1,
              Or.inr (Or.inr ⟨hf, h.symm⟩)⟩
          · exact ⟨x, y, _, Or.inl rfl, fun _ => rfl, Or.inr (Or.inr ⟨hf, h.symm⟩)⟩

theorem acquire_timing (c : XCBGrabContext) (pkt : AVPacket) (env : ReadPacketEnv) :
    (read_packet_acquire c pkt env).ctx.time_frame = c.time_frame ∧
    (read_packet_acquire c pkt env).ctx.frame_duration = c.frame_duration := by
  rcases acquire_ctx c pkt env with h | h <;> rw [h] <;> exact ⟨rfl, rfl⟩

theorem npp_keeps (c : XCBGrabContext) (pkt : AVPacket) (env : NppEnv)
    (h : (read_packet_npp c pkt env).1 = Ret.ok) :
    (read_packet_npp c pkt env).2.pts = pkt.pts ∧
    (read_packet_npp c pkt env).2.dts = pkt.dts ∧
    (read_packet_npp c pkt env).2.duration = pkt.duration := by
  unfold read_packet_npp at h ⊢
  split_ifs at h ⊢
  · split at h <;> simp_all
  · simp

theorem failed_of_ok (r : Ret) (h : r = Ret.ok) : r.failed = false := by
  subst h; rfl

/-- One call that returns advances `time_frame` by `frame_duration`, keeps
`frame_duration`, and stamps a successful packet with the `time_frame` found
on entry. -/
theorem read_packet_time (c : XCBGrabContext) (pkt : AVPacket) (env : ReadPacketEnv)
    (r : ReadPacketResult) (h : xcbgrab_read_packet c pkt env = some r) :
    r.ctx.time_frame = c.time_frame + c.frame_duration ∧
    r.ctx.frame_duration = c.frame_duration ∧
    (r.ret = Ret.ok → r.pkt.pts = c.time_frame ∧ r.pkt.dts = r.pkt.pts ∧
      r.pkt.duration = c.frame_duration) := by
  obtain ⟨x, y, data, -, -, hr⟩ := read_packet_shape c pkt env r h
  have ht := acquire_timing
    { c with time_frame := c.time_frame + c.frame_duration, x := x, y := y } pkt env
  simp only at hr ht
  rcases hr with hr | ⟨hf, hr⟩ | ⟨hf, hr⟩
  · subst hr
    exact ⟨rfl, rfl, fun h0 => by simp at h0⟩
  · subst hr
    refine ⟨ht.1, ht.2, fun h0 => ?_⟩
    rw [failed_of_ok _ h0] at hf
    exact absurd hf (by decide)
  · subst hr
    refine ⟨ht.1, ht.2, fun h0 => ?_⟩
    obtain ⟨h1, h2, h3⟩ := npp_keeps _ _ _ h0
    simp only at h1 h2 h3 ⊢
    rw [h1, h2, h3, ht.1, ht.2]
    exact ⟨by ring, rfl, rfl⟩

/-- In a session, the call of index `k` that succeeds stamps its packet with
`start + k * frame_duration`. -/
theorem read_packets_time (calls : List (AVPacket × ReadPacketEnv)) (c : XCBGrabContext)
    (k : Nat) (r : ReadPacketResult) (h : (read_packets c calls)[k]? = some r) :
    r.ctx.time_frame = c.time_frame + (k + 1) * c.frame_duration ∧
    r.ctx.frame_duration = c.frame_duration ∧
    (r.ret = Ret.ok → r.pkt.pts = c.time_frame + k * c.frame_duration ∧
      r.pkt.dts = r.pkt.pts ∧ r.pkt.duration = c.frame_duration) := by
  induction calls generalizing c k with
  | nil => simp [read_packets] at h
  | cons call rest ih =>
    obtain ⟨pkt, env⟩ := call
    simp only [read_packets] at h
    cases hr0 : xcbgrab_read_packet c pkt env with
    | none => simp [hr0] at h
    | some r0 =>
      simp only [hr0] at h
      obtain ⟨t1, t2, t3⟩ := read_packet_time c pkt env r0 hr0
      cases k with
      | zero =>
        simp only [List.getElem?_cons_zero, Option.some.injEq] at h
        subst h
        refine ⟨by rw [t1]; push_cast; ring, t2, fun h0 => ?_⟩
        obtain ⟨u1, u2, u3⟩ := t3 h0
        exact ⟨by rw [u1]; push_cast; ring, u2, u3⟩
      | succ k =>
        simp only [List.getElem?_cons_succ] at h
        obtain ⟨v1, v2, v3⟩ := ih r0.ctx k h
        rw [t1, t2] at v1 v3
        refine ⟨by rw [v1]; push_cast; ring, by rw [v2, t2], fun h0 => ?_⟩
        obtain ⟨u1, u2, u3⟩ := v3 h0
        exact ⟨by rw [u1]; push_cast; ring, u2, u3⟩

/-- C7: for every session (whatever the clock readings), if the first `N`
calls of `xcbgrab_read_packet` return and succeed, then the packet of call
`k < N` has `pts = start + k * frame_duration`, `dts = pts` and
`duration = frame_duration`, where `start` and `frame_duration` are the values
in the context when the session starts. -/
theorem read_packets_pts (c : XCBGrabContext) (calls : List (AVPacket × ReadPacketEnv))
    (N : Nat) (hN : N ≤ (read_packets c calls).length)
    (hall : ∀ i (hi : i < N),
      ((read_packets c calls).get ⟨i, Nat.lt_of_lt_of_le hi hN⟩).ret = Ret.ok)
    (k : Nat) (hk : k < N) :
    ((read_packets c calls).get ⟨k, Nat.lt_of_lt_of_le hk hN⟩).pkt.pts =
      c.time_frame + k * c.frame_duration ∧
    ((read_packets c calls).get ⟨k, Nat.lt_of_lt_of_le hk hN⟩).pkt.dts =
      ((read_packets c calls).get ⟨k, Nat.lt_of_lt_of_le hk hN⟩).pkt.pts ∧
    ((read_packets c calls).get ⟨k, Nat.lt_of_lt_of_le hk hN⟩).pkt.duration =
      c.frame_duration := by
  have hget : (read_packets c calls)[k]? =
      some ((read_packets c calls).get ⟨k, Nat.lt_of_lt_of_le hk hN⟩) := by
    rw [List.getElem?_eq_getElem (Nat.lt_of_lt_of_le hk hN)]
    rfl
  exact (read_packets_time calls c k _ hget).2.2 (hall k hk)

theorem read_packets_pts_witness :
    ((read_packets sample_ctx sample_calls).get ⟨1, by decide⟩).pkt.pts = 1000 + (1 : Nat) * 40 ∧
    ((read_packets sample_ctx sample_calls).get ⟨1, by decide⟩).pkt.dts =
      ((read_packets sample_ctx sample_calls).get ⟨1, by decide⟩).pkt.pts ∧
    ((read_packets sample_ctx sample_calls).get ⟨1, by decide⟩).pkt.duration = 40 :=
  read_packets_pts sample_ctx sample_calls 3 (by decide) (by decide) 1 (by decide)

/-! ### The fast path and the fallback -/

theorem frame_shm_failed_pkt (c : XCBGrabContext) (pkt : AVPacket) (env : ShmGetImageEnv)
    (e : AVError) (h : (xcbgrab_frame_shm c pkt env).1 = Ret.err e) :
    (xcbgrab_frame_shm c pkt env).2 = pkt := by
  unfold xcbgrab_frame_shm at h ⊢
  cases hb : env.buf with
  | none => rfl
  | some data =>
    simp only [hb] at h ⊢
    split_ifs with he
    · rfl
    · simp [he] at h

theorem acquire_has_shm (c : XCBGrabContext) (pkt : AVPacket) (env : ReadPacketEnv) :
    (c.has_shm = 0 → (read_packet_acquire c pkt env).ctx.has_shm = 0 ∧
      (read_packet_acquire c pkt env).shm_ret = none) ∧
    (∀ e, (read_packet_acquire c pkt env).shm_ret = some (Ret.err e) →
      c.has_shm ≠ 0 ∧ (xcbgrab_frame_shm c pkt env.shm).1 = Ret.err e ∧
      (read_packet_acquire c pkt env).ctx = { c with has_shm := 0 } ∧
      (read_packet_acquire c pkt env).frame_ret = some (xcbgrab_frame c pkt env.image).1 ∧
      (read_packet_acquire c pkt env).ret = (xcbgrab_frame c pkt env.image).1 ∧
      (read_packet_acquire c pkt env).pkt = (xcbgrab_frame c pkt env.image).2) := by
  constructor
  · intro h0
    simp [read_packet_acquire, h0]
  · intro e he
    by_cases h0 : c.has_shm = 0
    · simp [read_packet_acquire, h0] at he
    · simp only [read_packet_acquire, h0, ne_eq, not_false_eq_true, if_true] at he ⊢
      have hs : (xcbgrab_frame_shm c pkt env.shm).1 = Ret.err e := by
        split_ifs at he <;> simpa using he
      have hp := frame_shm_failed_pkt c pkt env.shm e hs
      simp [hs, hp, Ret.failed, xcbgrab_frame]

/-- One call that returns: with `has_shm == 0` on entry, `has_shm` is `0` on
return and `xcbgrab_frame_shm` is not invoked; when `xcbgrab_frame_shm` is
invoked and fails, `has_shm` is `0` on return. -/
theorem read_packet_has_shm (c : XCBGrabContext) (pkt : AVPacket) (env : ReadPacketEnv)
    (r : ReadPacketResult) (h : xcbgrab_read_packet c pkt env = some r) :
    (c.has_shm = 0 → r.ctx.has_shm = 0 ∧ r.shm_ret = none) ∧
    (∀ e, r.shm_ret = some (Ret.err e) → r.ctx.has_shm = 0) := by
  obtain ⟨x, y, data, -, -, hr⟩ := read_packet_shape c pkt env r h
  obtain ⟨a1, a2⟩ := acquire_has_shm
    { c with time_frame := c.time_frame + c.frame_duration, x := x, y := y } pkt env
  simp only at hr a1 a2
  rcases hr with hr | ⟨-, hr⟩ | ⟨-, hr⟩
  · subst hr
    exact ⟨fun h0 => ⟨h0, rfl⟩, fun e he => by simp at he⟩
  · subst hr
    exact ⟨a1, fun e he => by rw [(a2 e he).2.2.1]⟩
  · subst hr
    exact ⟨a1, fun e he => by simp only at he ⊢; rw [(a2 e he).2.2.1]⟩

theorem read_packets_shm_zero (calls : List (AVPacket × ReadPacketEnv)) (c : XCBGrabContext)
    (h0 : c.has_shm = 0) (k : Nat) (r : ReadPacketResult)
    (h : (read_packets c calls)[k]? = some r) : r.ctx.has_shm = 0 ∧ r.shm_ret = none := by
  induction calls generalizing c k with
  | nil => simp [read_packets] at h
  | cons call rest ih =>
    obtain ⟨pkt, env⟩ := call
    simp only [read_packets] at h
    cases hr0 : xcbgrab_read_packet c pkt env with
    | none => simp [hr0] at h
    | some r0 =>
      simp only [hr0] at h
      have t := (read_packet_has_shm c pkt env r0 hr0).1 h0
      cases k with
      | zero =>
        simp only [List.getElem?_cons_zero, Option.some.injEq] at h
        subst h
        exact t
      | succ k =>
        simp only [List.getElem?_cons_succ] at h
        exact ih r0.ctx t.1 k h

theorem read_packets_shm_after_failure (calls : List (AVPacket × ReadPacketEnv))
    (c : XCBGrabContext) (i j : Nat) (hij : i < j) (ri rj : ReadPacketResult)
    (hi : (read_packets c calls)[i]? = some ri) (hj : (read_packets c calls)[j]? = some rj)
    (e : AVError) (he : ri.shm_ret = some (Ret.err e)) :
    ri.ctx.has_shm = 0 ∧ rj.ctx.has_shm = 0 ∧ rj.shm_ret = none := by
  induction calls generalizing c i j with
  | nil => simp [read_packets] at hi
  | cons call rest ih =>
    obtain ⟨pkt, env⟩ := call
    simp only [read_packets] at hi hj
    cases hr0 : xcbgrab_read_packet c pkt env with
    | none => simp [hr0] at hi
    | some r0 =>
      simp only [hr0] at hi hj
      obtain ⟨j, rfl⟩ : ∃ j', j = j' + 1 := ⟨j - 1, by omega⟩
      simp only [List.getElem?_cons_succ] at hj
      cases i with
      | zero =>
        simp only [List.getElem?_cons_zero, Option.some.injEq] at hi
        subst hi
        have t := (read_packet_has_shm c pkt env r0 hr0).2 e he
        exact ⟨t, read_packets_shm_zero rest r0.ctx t j rj hj⟩
      | succ i =>
        simp only [List.getElem?_cons_succ] at hi
        exact ih r0.ctx i j (by omega) hi hj

/-- In a session, a call whose fast-path attempt fails returns with
`has_shm == 0`. -/
theorem read_packets_failed_has_shm (calls : List (AVPacket × ReadPacketEnv))
    (c : XCBGrabContext) (i : Nat) (ri : ReadPacketResult)
    (hi : (read_packets c calls)[i]? = some ri) (e : AVError)
    (he : ri.shm_ret = some (Ret.err e)) : ri.ctx.has_shm = 0 := by
  induction calls generalizing c i with
  | nil => simp [read_packets] at hi
  | cons call rest ih =>
    obtain ⟨pkt, env⟩ := call
    simp only [read_packets] at hi
    cases hr0 : xcbgrab_read_packet c pkt env with
    | none => simp [hr0] at hi
    | some r0 =>
      simp only [hr0] at hi
      cases i with
      | zero =>
        simp only [List.getElem?_cons_zero, Option.some.injEq] at hi
        subst hi
        exact (read_packet_has_shm c pkt env r0 hr0).2 e he
      | succ i =>
        simp only [List.getElem?_cons_succ] at hi
        exact ih r0.ctx i hi

/-- C8, as stated, fails when the colour conversion of the `CONFIG_LIBNPP`
block runs: the fast path fails with `AVERROR(EACCES)`, the fallback succeeds
with 48 bytes, and the call fails with `AVERROR_EXTERNAL` when the conversion
fails, or succeeds with a packet of 18 bytes when the conversion succeeds. -/
theorem read_packet_fallback_counterexample :
    (xcbgrab_read_packet sample_ctx_npp blank_packet sample_env_shm_error).map
        (fun r => (r.shm_ret, r.frame_ret, r.ret)) =
      some (some (Ret.err AVError.EACCES), some Ret.ok, Ret.err AVError.EXTERNAL) ∧
    (xcbgrab_read_packet sample_ctx_npp blank_packet sample_env_shm_error_converted).map
        (fun r => (r.shm_ret, r.frame_ret, r.ret, r.pkt.size, r.pkt.buf)) =
      some (some (Ret.err AVError.EACCES), some Ret.ok, Ret.ok, 18,
        some AVBufferRef.packet_data) ∧
    (xcbgrab_frame sample_ctx_npp blank_packet sample_env_shm_error.image).2.size = 48 := by
  decide

theorem frame_shm_ret_indep (c c' : XCBGrabContext) (pkt : AVPacket) (env : ShmGetImageEnv) :
    (xcbgrab_frame_shm c pkt env).1 = (xcbgrab_frame_shm c' pkt env).1 := by
  unfold xcbgrab_frame_shm
  cases env.buf with
  | none => rfl
  | some data => simp only; split_ifs <;> rfl

/-- C8 (amended): when a call of `xcbgrab_read_packet` invokes
`xcbgrab_frame_shm` (`has_shm != 0`) and it fails, the same call clears
`has_shm`, invokes the fallback `xcbgrab_frame` and, if the fallback fails,
returns the fallback's error code; if the fallback succeeds and no colour
conversion is performed (`perform_npp_conversion == 0`), the call succeeds with
the fallback's buffer and size, the packet bytes being the fallback's bytes,
with the cursor drawn onto them when `draw_mouse` applies. -/
theorem read_packet_fallback (c : XCBGrabContext) (pkt : AVPacket) (env : ReadPacketEnv)
    (r : ReadPacketResult) (h : xcbgrab_read_packet c pkt env = some r)
    (e : AVError) (hshm : r.shm_ret = some (Ret.err e)) :
    c.has_shm ≠ 0 ∧ (xcbgrab_frame_shm c pkt env.shm).1 = Ret.err e ∧
    r.ctx.has_shm = 0 ∧
    r.frame_ret = some (xcbgrab_frame c pkt env.image).1 ∧
    (∀ e', (xcbgrab_frame c pkt env.image).1 = Ret.err e' → r.ret = Ret.err e') ∧
    ((xcbgrab_frame c pkt env.image).1 = Ret.ok → c.perform_npp_conversion = 0 →
      r.ret = Ret.ok ∧
      r.pkt.buf = (xcbgrab_frame c pkt env.image).2.buf ∧
      r.pkt.size = (xcbgrab_frame c pkt env.image).2.size ∧
      (c.draw_mouse = 0 → r.pkt.data = (xcbgrab_frame c pkt env.image).2.data) ∧
      (r.pkt.data = (xcbgrab_frame c pkt env.image).2.data ∨
        ∃ win_x win_y : Int, r.pkt.data =
          xcbgrab_draw_mouse r.ctx (xcbgrab_frame c pkt env.image).2.data env.cursor
            win_x win_y)) := by
  obtain ⟨x, y, data, hd, hd0, hr⟩ := read_packet_shape c pkt env r h
  have a2 := (acquire_has_shm
    { c with time_frame := c.time_frame + c.frame_duration, x := x, y := y } pkt env).2 e
  have hi := frame_shm_ret_indep
    { c with time_frame := c.time_frame + c.frame_duration, x := x, y := y } c pkt env.shm
  have hfr : ∀ c' : XCBGrabContext,
      xcbgrab_frame c' pkt env.image = xcbgrab_frame c pkt env.image := fun _ => rfl
  simp only at hr a2 hd hd0 hi
  rcases hr with hr | ⟨hf, hr⟩ | ⟨hf, hr⟩
  · subst hr
    simp at hshm
  · subst hr
    obtain ⟨b1, b2, b3, b4, b5, b6⟩ := a2 hshm
    rw [hfr] at b4 b5 b6
    refine ⟨b1, hi ▸ b2, by rw [b3], b4, fun e' he' => by rw [b5, he'], fun hok => ?_⟩
    rw [b5, hok] at hf
    exact absurd hf (by decide)
  · subst hr
    simp only at hshm ⊢
    obtain ⟨b1, b2, b3, b4, b5, b6⟩ := a2 hshm
    rw [hfr] at b4 b5 b6
    refine ⟨b1, hi ▸ b2, by rw [b3], b4, fun e' he' => ?_, fun _ hnpp => ?_⟩
    · rw [b5, he'] at hf
      simp [Ret.failed] at hf
    · have hn : (read_packet_acquire
          { c with time_frame := c.time_frame + c.frame_duration, x := x, y := y }
          pkt env).ctx.perform_npp_conversion = 0 := by rw [b3]; exact hnpp
      simp only [read_packet_npp, hn, ne_eq, not_true_eq_false, if_false]
      rw [b6] at hd hd0
      exact ⟨trivial, by rw [b6], by rw [b6], hd0, hd⟩

theorem read_packet_fallback_witness :
    (xcbgrab_read_packet sample_ctx blank_packet sample_env_shm_error).isSome = true ∧
    ((xcbgrab_read_packet sample_ctx blank_packet sample_env_shm_error).get (by decide)).shm_ret
      = some (Ret.err AVError.EACCES) ∧
    ((xcbgrab_read_packet sample_ctx blank_packet sample_env_shm_error).get (by decide)).ret
      = Ret.ok ∧
    ((xcbgrab_read_packet sample_ctx blank_packet sample_env_shm_error).get (by decide)).pkt.size
      = 48 :=
  ⟨by decide, by decide,
    ((read_packet_fallback sample_ctx blank_packet sample_env_shm_error
      ((xcbgrab_read_packet sample_ctx blank_packet sample_env_shm_error).get (by decide))
      (by simp) AVError.EACCES (by decide)).2.2.2.2.2 (by decide) (by decide)).1,
    ((read_packet_fallback sample_ctx blank_packet sample_env_shm_error
      ((xcbgrab_read_packet sample_ctx blank_packet sample_env_shm_error).get (by decide))
      (by simp) AVError.EACCES (by decide)).2.2.2.2.2 (by decide) (by decide)).2.2.1⟩

/-- C9: in every session, once a call has invoked `xcbgrab_frame_shm` and it
has failed, `has_shm` is `0` when that call returns and when every later call
returns, and no later call invokes `xcbgrab_frame_shm`; and no call that finds
`has_shm == 0` returns with `has_shm != 0` or invokes `xcbgrab_frame_shm`. -/
theorem has_shm_stays_zero (c : XCBGrabContext) (calls : List (AVPacket × ReadPacketEnv)) :
    (∀ (i j : Nat) (hij : i < j) (hj : j < (read_packets c calls).length) (e : AVError),
      ((read_packets c calls).get ⟨i, Nat.lt_trans hij hj⟩).shm_ret = some (Ret.err e) →
        ((read_packets c calls).get ⟨i, Nat.lt_trans hij hj⟩).ctx.has_shm = 0 ∧
        ((read_packets c calls).get ⟨j, hj⟩).ctx.has_shm = 0 ∧
        ((read_packets c calls).get ⟨j, hj⟩).shm_ret = none) ∧
    (∀ (c' : XCBGrabContext) (pkt : AVPacket) (env : ReadPacketEnv) (r : ReadPacketResult),
      xcbgrab_read_packet c' pkt env = some r → c'.has_shm = 0 →
        r.ctx.has_shm = 0 ∧ r.shm_ret = none) := by
  refine ⟨fun i j hij hj e he => ?_, fun c' pkt env r h h0 =>
    (read_packet_has_shm c' pkt env r h).1 h0⟩
  have hi : (read_packets c calls)[i]? =
      some ((read_packets c calls).get ⟨i, Nat.lt_trans hij hj⟩) := by
    rw [List.getElem?_eq_getElem (Nat.lt_trans hij hj)]; rfl
  have hj' : (read_packets c calls)[j]? = some ((read_packets c calls).get ⟨j, hj⟩) := by
    rw [List.getElem?_eq_getElem hj]; rfl
  exact read_packets_shm_after_failure calls c i j hij _ _ hi hj' e he

theorem has_shm_stays_zero_witness :
    ((read_packets sample_ctx sample_calls).get ⟨1, by decide⟩).shm_ret =
      some (Ret.err AVError.EACCES) ∧
    ((read_packets sample_ctx sample_calls).get ⟨1, by decide⟩).ctx.has_shm = 0 ∧
    ((read_packets sample_ctx sample_calls).get ⟨2, by decide⟩).ctx.has_shm = 0 ∧
    ((read_packets sample_ctx sample_calls).get ⟨2, by decide⟩).shm_ret = none :=
  ⟨by decide, (has_shm_stays_zero sample_ctx sample_calls).1 1 2 (by decide) (by decide)
    AVError.EACCES (by decide)⟩

/-! ### `rectangle_from_corners` -/

/-- C10: for all corner points `a` and `b` (with `int16_t` coordinates),
`rectangle_from_corners(a, b) = rectangle_from_corners(b, a)` and the result is
`{x: min(a.x, b.x), y: min(a.y, b.y), width: |a.x - b.x|, height: |a.y - b.y|}`;
the corners (10,10), (50,80) give `{x: 10, y: 10, width: 40, height: 70}` in
either order, and so do the two drags run through the event loop of
`select_region` (press, motion, release). -/
theorem rectangle_from_corners_symmetric (a b : xcb_point_t)
    (hax : is_int16 a.x) (hay : is_int16 a.y) (hbx : is_int16 b.x) (hby : is_int16 b.y) :
    rectangle_from_corners a b = rectangle_from_corners b a ∧
    rectangle_from_corners a b =
      { x := min a.x b.x, y := min a.y b.y, width := |a.x - b.x|, height := |a.y - b.y| } ∧
    rectangle_from_corners ⟨10, 10⟩ ⟨50, 80⟩ = ⟨10, 10, 40, 70⟩ ∧
    rectangle_from_corners ⟨50, 80⟩ ⟨10, 10⟩ = ⟨10, 10, 40, 70⟩ ∧
    (select_region_loop [Event.button_press 1 10 10, Event.motion_notify 50 80,
      Event.button_release 1] select_region_init).rectangle = ⟨10, 10, 40, 70⟩ ∧
    (select_region_loop [Event.button_press 1 50 80, Event.motion_notify 10 10,
      Event.button_release 1] select_region_init).rectangle = ⟨10, 10, 40, 70⟩ := by
  unfold is_int16 at hax hay hbx hby
  have key : ∀ p q : Int, -32768 ≤ p → p ≤ 32767 → -32768 ≤ q → q ≤ 32767 →
      to_int16 (FFMIN p q) = min p q ∧ to_uint16 (FFABS (p - q)) = |p - q| ∧
      min p q = min q p ∧ |p - q| = |q - p| := by
    intro p q h1 h2 h3 h4
    unfold to_int16 to_uint16 FFMIN FFABS
    refine ⟨?_, ?_, min_comm p q, abs_sub_comm p q⟩
    · rcases le_total p q with h | h
      · rw [min_eq_left h]; split_ifs <;> omega
      · rw [min_eq_right h]; split_ifs <;> omega
    · rcases le_total 0 (p - q) with h | h
      · rw [abs_of_nonneg h]; split_ifs <;> omega
      · rw [abs_of_nonpos h]; split_ifs <;> omega
  obtain ⟨x1, w1, x2, w2⟩ := key a.x b.x hax.1 hax.2 hbx.1 hbx.2
  obtain ⟨y1, h1, y2, h2⟩ := key a.y b.y hay.1 hay.2 hby.1 hby.2
  obtain ⟨x3, w3, -, -⟩ := key b.x a.x hbx.1 hbx.2 hax.1 hax.2
  obtain ⟨y3, h3, -, -⟩ := key b.y a.y hby.1 hby.2 hay.1 hay.2
  refine ⟨?_, ?_, by decide, by decide, by decide, by decide⟩
  · simp only [rectangle_from_corners, x1, w1, y1, h1, x3, w3, y3, h3, x2, w2, y2, h2]
  · simp only [rectangle_from_corners, x1, w1, y1, h1]

theorem rectangle_from_corners_symmetric_witness :
    (is_int16 (-3) ∧ is_int16 7 ∧ is_int16 12 ∧ is_int16 (-20)) ∧
    rectangle_from_corners ⟨-3, 7⟩ ⟨12, -20⟩ = rectangle_from_corners ⟨12, -20⟩ ⟨-3, 7⟩ ∧
    rectangle_from_corners ⟨-3, 7⟩ ⟨12, -20⟩ =
      { x := min (-3) 12, y := min 7 (-20), width := |(-3) - 12|, height := |7 - (-20)| } ∧
    rectangle_from_corners ⟨10, 10⟩ ⟨50, 80⟩ = ⟨10, 10, 40, 70⟩ ∧
    rectangle_from_corners ⟨50, 80⟩ ⟨10, 10⟩ = ⟨10, 10, 40, 70⟩ ∧
    (select_region_loop [Event.button_press 1 10 10, Event.motion_notify 50 80,
      Event.button_release 1] select_region_init).rectangle = ⟨10, 10, 40, 70⟩ ∧
    (select_region_loop [Event.button_press 1 50 80, Event.motion_notify 10 10,
      Event.button_release 1] select_region_init).rectangle = ⟨10, 10, 40, 70⟩ :=
  ⟨by decide, rectangle_from_corners_symmetric ⟨-3, 7⟩ ⟨12, -20⟩
    (by decide) (by decide) (by decide) (by decide)⟩

/-! ### `select_region` -/

theorem select_region_loop_done (events : List Event) (st : SelectState) (h : st.done ≠ 0) :
    select_region_loop events st = st := by
  cases events with
  | nil => rfl
  | cons e rest => simp [select_region_loop, h]

theorem select_region_loop_append (a b : List Event) (st : SelectState) :
    select_region_loop (a ++ b) st = select_region_loop b (select_region_loop a st) := by
  induction a generalizing st with
  | nil => rfl
  | cons e rest ih =>
    by_cases h : st.done ≠ 0
    · simp only [List.cons_append, select_region_loop]
      rw [if_pos h, if_pos h]
      exact (select_region_loop_done b st h).symm
    · simp only [List.cons_append, select_region_loop]
      rw [if_neg h, if_neg h]
      exact ih _

/-- An event that is not a release of button 1 leaves `done` as it is. -/
theorem select_region_event_done (st : SelectState) (e : Event)
    (h : e.primary_release = false) : (select_region_event st e).done = st.done := by
  cases e with
  | button_press d x y => simp only [select_region_event]; split_ifs <;> rfl
  | motion_notify x y => simp only [select_region_event]; split_ifs <;> rfl
  | button_release d =>
    have : d ≠ 1 := by simpa [Event.primary_release] using h
    simp [select_region_event, this]
  | other => rfl

/-- Events without a release of button 1 are all processed. -/
theorem select_region_loop_foldl (events : List Event) (st : SelectState) (h0 : st.done = 0)
    (h : ∀ e ∈ events, e.primary_release = false) :
    select_region_loop events st = events.foldl select_region_event st ∧
    (events.foldl select_region_event st).done = 0 := by
  induction events generalizing st with
  | nil => exact ⟨rfl, h0⟩
  | cons e rest ih =>
    have he := h e (List.mem_cons_self _ _)
    have hd : (select_region_event st e).done = 0 := by
      rw [select_region_event_done st e he]; exact h0
    simp only [select_region_loop, h0, ne_eq, not_true_eq_false, if_false, List.foldl_cons]
    exact ih _ hd (fun e' he' => h e' (List.mem_cons_of_mem _ he'))

/-- An event that is neither a press nor a release of button 1 nor a motion
changes nothing. -/
theorem select_region_event_ignored (st : SelectState) (e : Event)
    (h1 : e.primary_press = false) (h2 : e.primary_release = false) (h3 : e.motion = false) :
    select_region_event st e = st := by
  cases e with
  | button_press d x y =>
    have : d ≠ 1 := by simpa [Event.primary_press] using h1
    simp [select_region_event, this]
  | motion_notify x y => simp [Event.motion] at h3
  | button_release d =>
    have : d ≠ 1 := by simpa [Event.primary_release] using h2
    simp [select_region_event, this]
  | other => rfl

theorem foldl_select_region_ignored (events : List Event) (st : SelectState)
    (h1 : ∀ e ∈ events, e.primary_press = false)
    (h2 : ∀ e ∈ events, e.primary_release = false)
    (h3 : ∀ e ∈ events, e.motion = false) :
    events.foldl select_region_event st = st := by
  induction events generalizing st with
  | nil => rfl
  | cons e rest ih =>
    simp only [List.foldl_cons]
    rw [select_region_event_ignored st e (h1 e (List.mem_cons_self _ _))
      (h2 e (List.mem_cons_self _ _)) (h3 e (List.mem_cons_self _ _))]
    exact ih st (fun e' he' => h1 e' (List.mem_cons_of_mem _ he'))
      (fun e' he' => h2 e' (List.mem_cons_of_mem _ he'))
      (fun e' he' => h3 e' (List.mem_cons_of_mem _ he'))

/-- Events without a press or release of button 1 keep the pressed flag and
the anchor; before any press they keep the whole state. -/
theorem foldl_select_region_no_press (events : List Event) (st : SelectState)
    (h1 : ∀ e ∈ events, e.primary_press = false)
    (h2 : ∀ e ∈ events, e.primary_release = false) :
    (events.foldl select_region_event st).was_pressed = st.was_pressed ∧
    (events.foldl select_region_event st).press_position = st.press_position ∧
    (st.was_pressed = 0 → events.foldl select_region_event st = st) := by
  induction events generalizing st with
  | nil => exact ⟨rfl, rfl, fun _ => rfl⟩
  | cons e rest ih =>
    have hp := h1 e (List.mem_cons_self _ _)
    have hr := h2 e (List.mem_cons_self _ _)
    obtain ⟨i1, i2, i3⟩ := ih (select_region_event st e)
      (fun e' he' => h1 e' (List.mem_cons_of_mem _ he'))
      (fun e' he' => h2 e' (List.mem_cons_of_mem _ he'))
    simp only [List.foldl_cons]
    have key : (select_region_event st e).was_pressed = st.was_pressed ∧
        (select_region_event st e).press_position = st.press_position ∧
        (st.was_pressed = 0 → select_region_event st e = st) := by
      cases e with
      | button_press d x y =>
        have : d ≠ 1 := by simpa [Event.primary_press] using hp
        simp [select_region_event, this]
      | motion_notify x y =>
        simp only [select_region_event]
        split_ifs with hw
        · exact ⟨rfl, rfl, fun h => absurd h hw⟩
        · exact ⟨rfl, rfl, fun _ => rfl⟩
      | button_release d =>
        have : d ≠ 1 := by simpa [Event.primary_release] using hr
        simp [select_region_event, this]
      | other => exact ⟨rfl, rfl, fun _ => rfl⟩
    refine ⟨by rw [i1, key.1], by rw [i2, key.2.1], fun h0 => ?_⟩
    have hs := key.2.2 h0
    rw [hs] at i3 ⊢
    exact i3 h0

/-- After the events up to the first release of button 1, the loop is done and
the rectangle is the one reached by the events before that release; later
events are not processed. -/
theorem select_region_loop_until_release (pre post : List Event)
    (h : ∀ e ∈ pre, e.primary_release = false) :
    (select_region_loop (pre ++ Event.button_release 1 :: post) select_region_init).rectangle =
      (pre.foldl select_region_event select_region_init).rectangle ∧
    (select_region_loop (pre ++ Event.button_release 1 :: post) select_region_init).done = 1 := by
  obtain ⟨h1, h2⟩ := select_region_loop_foldl pre select_region_init rfl h
  rw [select_region_loop_append, h1]
  simp only [select_region_loop, h2, ne_eq, not_true_eq_false, if_false]
  rw [select_region_loop_done post _ (by simp [select_region_event])]
  simp [select_region_event]

/-- A press of button 1 sets the anchor, the zero-size rectangle at the anchor
and the pressed flag, whatever the state before. -/
theorem select_region_event_press (st : SelectState) (px py : Int) :
    (select_region_event st (Event.button_press 1 px py)).rectangle = ⟨px, py, 0, 0⟩ ∧
    (select_region_event st (Event.button_press 1 px py)).press_position = ⟨px, py⟩ ∧
    (select_region_event st (Event.button_press 1 px py)).was_pressed = 1 := by
  simp [select_region_event]

/-- For `int16_t` corners the conversions of `rectangle_from_corners` lose
nothing. -/
theorem rectangle_from_corners_min_abs (a b : xcb_point_t)
    (hax : is_int16 a.x) (hay : is_int16 a.y) (hbx : is_int16 b.x) (hby : is_int16 b.y) :
    rectangle_from_corners a b =
      { x := min a.x b.x, y := min a.y b.y, width := |a.x - b.x|, height := |a.y - b.y| } := by
  unfold is_int16 at hax hay hbx hby
  have key : ∀ p q : Int, -32768 ≤ p → p ≤ 32767 → -32768 ≤ q → q ≤ 32767 →
      to_int16 (FFMIN p q) = min p q ∧ to_uint16 (FFABS (p - q)) = |p - q| := by
    intro p q h1 h2 h3 h4
    unfold to_int16 to_uint16 FFMIN FFABS
    constructor
    · rcases le_total p q with h | h
      · rw [min_eq_left h]; split_ifs <;> omega
      · rw [min_eq_right h]; split_ifs <;> omega
    · rcases le_total 0 (p - q) with h | h
      · rw [abs_of_nonneg h]; split_ifs <;> omega
      · rw [abs_of_nonpos h]; split_ifs <;> omega
  obtain ⟨x1, w1⟩ := key a.x b.x hax.1 hax.2 hbx.1 hbx.2
  obtain ⟨y1, h1⟩ := key a.y b.y hay.1 hay.2 hby.1 hby.2
  simp only [rectangle_from_corners, x1, w1, y1, h1]

/-- The rectangle after a press of button 1 at `(px, py)` followed by events
without motion and without press or release of button 1. -/
theorem foldl_select_region_press (pre mid : List Event) (px py : Int)
    (hm1 : ∀ e ∈ mid, e.primary_press = false) (hm2 : ∀ e ∈ mid, e.primary_release = false)
    (hm3 : ∀ e ∈ mid, e.motion = false) :
    ((pre ++ Event.button_press 1 px py :: mid).foldl select_region_event
      select_region_init).rectangle = ⟨px, py, 0, 0⟩ := by
  rw [List.foldl_append, List.foldl_cons, foldl_select_region_ignored mid _ hm1 hm2 hm3]
  exact (select_region_event_press _ px py).1

/-- The rectangle after a press of button 1 at `(px, py)`, events without press
or release of button 1, a motion to `(mx, my)` and events without motion and
without press or release of button 1. -/
theorem foldl_select_region_motion (pre mid tail : List Event) (px py mx my : Int)
    (hm1 : ∀ e ∈ mid, e.primary_press = false) (hm2 : ∀ e ∈ mid, e.primary_release = false)
    (ht1 : ∀ e ∈ tail, e.primary_press = false) (ht2 : ∀ e ∈ tail, e.primary_release = false)
    (ht3 : ∀ e ∈ tail, e.motion = false) :
    ((pre ++ Event.button_press 1 px py :: (mid ++ Event.motion_notify mx my :: tail)).foldl
      select_region_event select_region_init).rectangle =
      rectangle_from_corners ⟨px, py⟩ ⟨mx, my⟩ := by
  rw [List.foldl_append, List.foldl_cons, List.foldl_append, List.foldl_cons,
    foldl_select_region_ignored tail _ ht1 ht2 ht3]
  obtain ⟨-, p2, p3⟩ := select_region_event_press
    (pre.foldl select_region_event select_region_init) px py
  obtain ⟨n1, n2, -⟩ := foldl_select_region_no_press mid
    (select_region_event (pre.foldl select_region_event select_region_init)
      (Event.button_press 1 px py)) hm1 hm2
  rw [p3] at n1
  rw [p2] at n2
  generalize List.foldl select_region_event
    (select_region_event (pre.foldl select_region_event select_region_init)
      (Event.button_press 1 px py)) mid = s at n1 n2 ⊢
  simp [select_region_event, n1, n2]

/-- Membership in an append, for hypotheses on event lists. -/
theorem forall_mem_append_event (P : Event → Prop) (a b : List Event)
    (ha : ∀ e ∈ a, P e) (hb : ∀ e ∈ b, P e) : ∀ e ∈ a ++ b, P e := by
  intro e he
  rcases List.mem_append.mp he with h | h
  · exact ha e h
  · exact hb e h

theorem forall_mem_cons_event (P : Event → Prop) (x : Event) (b : List Event)
    (hx : P x) (hb : ∀ e ∈ b, P e) : ∀ e ∈ x :: b, P e := by
  intro e he
  rcases List.mem_cons.mp he with h | h
  · exact h ▸ hx
  · exact hb e h

/-- C11: when the event loop of `select_region` ends with a rectangle of zero
width or zero height, the context (so `x`, `y`, `width`, `height`) is returned
as it was; this is the case after a press of button 1 followed, with no motion
in between, by the release of button 1.  Otherwise the four fields are set to
the rectangle's `x`, `y`, `width` and `height` and nothing else changes. -/
theorem select_region_zero_size_keeps_region (c : XCBGrabContext) (events : List Event) :
    (((select_region_loop events select_region_init).rectangle.width = 0 ∨
        (select_region_loop events select_region_init).rectangle.height = 0) →
      select_region c (some XCB_GRAB_STATUS_SUCCESS) events = (Ret.ok, c)) ∧
    ((select_region_loop events select_region_init).rectangle.width ≠ 0 →
      (select_region_loop events select_region_init).rectangle.height ≠ 0 →
      select_region c (some XCB_GRAB_STATUS_SUCCESS) events =
        (Ret.ok, { c with
          x := (select_region_loop events select_region_init).rectangle.x
          y := (select_region_loop events select_region_init).rectangle.y
          width := (select_region_loop events select_region_init).rectangle.width
          height := (select_region_loop events select_region_init).rectangle.height })) ∧
    (∀ (pre mid post : List Event) (px py : Int),
      (∀ e ∈ pre, e.primary_release = false) →
      (∀ e ∈ mid, e.primary_press = false) → (∀ e ∈ mid, e.primary_release = false) →
      (∀ e ∈ mid, e.motion = false) →
      select_region c (some XCB_GRAB_STATUS_SUCCESS)
        (pre ++ Event.button_press 1 px py :: (mid ++ Event.button_release 1 :: post)) =
        (Ret.ok, c)) := by
  have zero : ∀ evs : List Event,
      ((select_region_loop evs select_region_init).rectangle.width = 0 ∨
        (select_region_loop evs select_region_init).rectangle.height = 0) →
      select_region c (some XCB_GRAB_STATUS_SUCCESS) evs = (Ret.ok, c) := by
    intro evs h
    simp only [select_region, ne_eq, not_true_eq_false, if_false]
    rw [if_pos h]
  refine ⟨zero events, fun hw hh => ?_, fun pre mid post px py hp hm1 hm2 hm3 => ?_⟩
  · simp only [select_region, ne_eq, not_true_eq_false, if_false]
    rw [if_neg (by simp [hw, hh])]
  · apply zero
    have e : pre ++ Event.button_press 1 px py :: (mid ++ Event.button_release 1 :: post) =
        (pre ++ Event.button_press 1 px py :: mid) ++ Event.button_release 1 :: post := by simp
    have hr : ∀ e ∈ pre ++ Event.button_press 1 px py :: mid, e.primary_release = false :=
      forall_mem_append_event _ _ _ hp (forall_mem_cons_event _ _ _ rfl hm2)
    rw [e, (select_region_loop_until_release _ post hr).1,
      foldl_select_region_press pre mid px py hm1 hm2 hm3]
    exact Or.inl rfl

theorem select_region_zero_size_keeps_region_witness :
    select_region sample_ctx (some XCB_GRAB_STATUS_SUCCESS)
        ([Event.motion_notify 3 4] ++ Event.button_press 1 10 10 ::
          ([Event.other] ++ Event.button_release 1 :: [])) = (Ret.ok, sample_ctx) :=
  (select_region_zero_size_keeps_region sample_ctx []).2.2 [Event.motion_notify 3 4]
    [Event.other] [] 10 10 (by decide) (by decide) (by decide) (by decide)

/-- C16: for the events processed up to and including the first release of
button 1 (later events are not processed), the final rectangle is the all-zero
one when no press of button 1 came before; after a last press of button 1 at
`P` it is `{P.x, P.y, 0, 0}` when no motion followed that press and otherwise
the result of `rectangle_from_corners` for `P` and the last motion position,
which for `int16_t` coordinates is their bounding box.  A press or release of
another button, a motion while the pressed flag is 0, and any other event
leave the whole state unchanged. -/
theorem select_region_loop_rectangle :
    (∀ pre post : List Event,
      (∀ e ∈ pre, e.primary_release = false) → (∀ e ∈ pre, e.primary_press = false) →
      (select_region_loop (pre ++ Event.button_release 1 :: post)
        select_region_init).rectangle = ⟨0, 0, 0, 0⟩) ∧
    (∀ (pre mid post : List Event) (px py : Int),
      (∀ e ∈ pre, e.primary_release = false) →
      (∀ e ∈ mid, e.primary_press = false) → (∀ e ∈ mid, e.primary_release = false) →
      (∀ e ∈ mid, e.motion = false) →
      (select_region_loop
        (pre ++ Event.button_press 1 px py :: (mid ++ Event.button_release 1 :: post))
        select_region_init).rectangle = ⟨px, py, 0, 0⟩) ∧
    (∀ (pre mid tail post : List Event) (px py mx my : Int),
      (∀ e ∈ pre, e.primary_release = false) →
      (∀ e ∈ mid, e.primary_press = false) → (∀ e ∈ mid, e.primary_release = false) →
      (∀ e ∈ tail, e.primary_press = false) → (∀ e ∈ tail, e.primary_release = false) →
      (∀ e ∈ tail, e.motion = false) →
      (select_region_loop
        (pre ++ Event.button_press 1 px py ::
          (mid ++ Event.motion_notify mx my :: (tail ++ Event.button_release 1 :: post)))
        select_region_init).rectangle = rectangle_from_corners ⟨px, py⟩ ⟨mx, my⟩ ∧
      (is_int16 px → is_int16 py → is_int16 mx → is_int16 my →
        (select_region_loop
          (pre ++ Event.button_press 1 px py ::
            (mid ++ Event.motion_notify mx my :: (tail ++ Event.button_release 1 :: post)))
          select_region_init).rectangle =
          { x := min px mx, y := min py my, width := |px - mx|, height := |py - my| })) ∧
    (∀ (st : SelectState) (e : Event), e.primary_press = false → e.primary_release = false →
      (e.motion = false ∨ st.was_pressed = 0) → select_region_event st e = st) := by
  refine ⟨fun pre post hr hp => ?_, fun pre mid post px py hp hm1 hm2 hm3 => ?_,
    fun pre mid tail post px py mx my hp hm1 hm2 ht1 ht2 ht3 => ?_, fun st e h1 h2 h3 => ?_⟩
  · rw [(select_region_loop_until_release pre post hr).1,
      (foldl_select_region_no_press pre select_region_init hp hr).2.2 rfl]
    rfl
  · have e : pre ++ Event.button_press 1 px py :: (mid ++ Event.button_release 1 :: post) =
        (pre ++ Event.button_press 1 px py :: mid) ++ Event.button_release 1 :: post := by simp
    have hr : ∀ e ∈ pre ++ Event.button_press 1 px py :: mid, e.primary_release = false :=
      forall_mem_append_event _ _ _ hp (forall_mem_cons_event _ _ _ rfl hm2)
    rw [e, (select_region_loop_until_release _ post hr).1,
      foldl_select_region_press pre mid px py hm1 hm2 hm3]
  · have e : pre ++ Event.button_press 1 px py ::
          (mid ++ Event.motion_notify mx my :: (tail ++ Event.button_release 1 :: post)) =
        (pre ++ Event.button_press 1 px py :: (mid ++ Event.motion_notify mx my :: tail)) ++
          Event.button_release 1 :: post := by simp
    have hr : ∀ e ∈ pre ++ Event.button_press 1 px py ::
        (mid ++ Event.motion_notify mx my :: tail), e.primary_release = false :=
      forall_mem_append_event _ _ _ hp (forall_mem_cons_event _ _ _ rfl
        (forall_mem_append_event _ _ _ hm2 (forall_mem_cons_event _ _ _ rfl ht2)))
    rw [e, (select_region_loop_until_release _ post hr).1,
      foldl_select_region_motion pre mid tail px py mx my hm1 hm2 ht1 ht2 ht3]
    exact ⟨rfl, fun h1 h2 h3 h4 => rectangle_from_corners_min_abs ⟨px, py⟩ ⟨mx, my⟩ h1 h2 h3 h4⟩
  · rcases h3 with h3 | h3
    · exact select_region_event_ignored st e h1 h2 h3
    · cases e with
      | motion_notify x y => simp [select_region_event, h3]
      | button_press d x y => exact select_region_event_ignored st _ h1 h2 rfl
      | button_release d => exact select_region_event_ignored st _ h1 h2 rfl
      | other => rfl

theorem select_region_loop_rectangle_witness :
    (select_region_loop
      ([Event.motion_notify 1 2, Event.button_press 3 7 7] ++ Event.button_press 1 50 80 ::
        ([Event.motion_notify 20 90] ++ Event.motion_notify 10 10 ::
          ([Event.button_release 2] ++ Event.button_release 1 :: [Event.motion_notify 0 0])))
      select_region_init).rectangle = rectangle_from_corners ⟨50, 80⟩ ⟨10, 10⟩ :=
  (select_region_loop_rectangle.2.2.1 [Event.motion_notify 1 2, Event.button_press 3 7 7]
    [Event.motion_notify 20 90] [Event.button_release 2] [Event.motion_notify 0 0] 50 80 10 10
    (by decide) (by decide) (by decide) (by decide) (by decide) (by decide)).1

/-! ### The outlines drawn by `select_region` -/

/-- While the button is held, the motions and the final release draw the
current rectangle again and then every new rectangle twice. -/
theorem select_region_loop_drawn (P : xcb_point_t) (motions : List (Int × Int))
    (st : SelectState) (h0 : st.done = 0) (hw : st.was_pressed ≠ 0)
    (hP : st.press_position = P) :
    (select_region_loop
      (motions.map (fun q => Event.motion_notify q.1 q.2) ++ [Event.button_release 1]) st).drawn =
      st.drawn ++ [st.rectangle] ++
        twice_each (motions.map (fun q => rectangle_from_corners P ⟨q.1, q.2⟩)) := by
  induction motions generalizing st with
  | nil =>
    simp [select_region_loop, select_region_event, h0, hw, twice_each]
  | cons q rest ih =>
    simp only [List.map_cons, List.cons_append, select_region_loop, h0, ne_eq,
      not_true_eq_false, if_false, List.append_eq]
    have hs : select_region_event st (Event.motion_notify q.1 q.2) =
        { st with
          rectangle := rectangle_from_corners st.press_position ⟨q.1, q.2⟩
          drawn := st.drawn ++ [st.rectangle] ++
            [rectangle_from_corners st.press_position ⟨q.1, q.2⟩] } := by
      simp [select_region_event, hw]
    rw [hs]
    have hi := ih
      { st with
        rectangle := rectangle_from_corners st.press_position ⟨q.1, q.2⟩
        drawn := st.drawn ++ [st.rectangle] ++
          [rectangle_from_corners st.press_position ⟨q.1, q.2⟩] } h0 hw hP
    rw [hi, hP]
    simp [twice_each]

theorem twice_each_count (rects : List xcb_rectangle_t) (r : xcb_rectangle_t) :
    (twice_each rects).count r = 2 * rects.count r := by
  induction rects with
  | nil => rfl
  | cons a t ih =>
    have e : twice_each (a :: t) = a :: a :: twice_each t := by simp [twice_each]
    rw [e, List.count_cons, List.count_cons, ih, List.count_cons]
    split_ifs <;> omega

theorem twice_each_foldl {Screen : Type} (draw : xcb_rectangle_t → Screen → Screen)
    (hdraw : ∀ r s, draw r (draw r s) = s) (rects : List xcb_rectangle_t) (s : Screen) :
    (twice_each rects).foldl (fun s r => draw r s) s = s := by
  induction rects with
  | nil => rfl
  | cons a t ih =>
    have e : twice_each (a :: t) = a :: a :: twice_each t := by simp [twice_each]
    rw [e, List.foldl_cons, List.foldl_cons, hdraw, ih]

/-- C19: for a press of button 1, any number of motions and the release of
button 1, the rectangles that the loop of `select_region` draws with the
inverting graphics context are the zero-size rectangle at the press and the
rectangle of each motion, each drawn twice in a row (at its creation and again
at the next motion or at the release).  Hence every rectangle is drawn an even
number of times, and a drawing operation that undoes itself when repeated
returns the screen to its original pixels. -/
theorem select_region_outlines_cancel (px py : Int) (motions : List (Int × Int)) :
    (select_region_loop
      (Event.button_press 1 px py ::
        (motions.map (fun q => Event.motion_notify q.1 q.2) ++ [Event.button_release 1]))
      select_region_init).drawn =
      twice_each (⟨px, py, 0, 0⟩ ::
        motions.map (fun q => rectangle_from_corners ⟨px, py⟩ ⟨q.1, q.2⟩)) ∧
    (∀ r : xcb_rectangle_t, Even ((select_region_loop
      (Event.button_press 1 px py ::
        (motions.map (fun q => Event.motion_notify q.1 q.2) ++ [Event.button_release 1]))
      select_region_init).drawn.count r)) ∧
    (∀ (Screen : Type) (draw : xcb_rectangle_t → Screen → Screen),
      (∀ r s, draw r (draw r s) = s) → ∀ s : Screen,
      (select_region_loop
        (Event.button_press 1 px py ::
          (motions.map (fun q => Event.motion_notify q.1 q.2) ++ [Event.button_release 1]))
        select_region_init).drawn.foldl (fun s r => draw r s) s = s) := by
  have hd : (select_region_loop
      (Event.button_press 1 px py ::
        (motions.map (fun q => Event.motion_notify q.1 q.2) ++ [Event.button_release 1]))
      select_region_init).drawn =
      twice_each (⟨px, py, 0, 0⟩ ::
        motions.map (fun q => rectangle_from_corners ⟨px, py⟩ ⟨q.1, q.2⟩)) := by
    have hs : select_region_event select_region_init (Event.button_press 1 px py) =
        { done := 0, was_pressed := 1, press_position := ⟨px, py⟩,
          rectangle := ⟨px, py, 0, 0⟩, drawn := [⟨px, py, 0, 0⟩] } := by
      simp [select_region_event, select_region_init]
    have h1 : select_region_loop
        (Event.button_press 1 px py ::
          (motions.map (fun q => Event.motion_notify q.1 q.2) ++ [Event.button_release 1]))
        select_region_init =
        select_region_loop
          (motions.map (fun q => Event.motion_notify q.1 q.2) ++ [Event.button_release 1])
          (select_region_event select_region_init (Event.button_press 1 px py)) := by
      simp [select_region_loop, select_region_init]
    rw [h1, hs, select_region_loop_drawn ⟨px, py⟩ motions _ rfl (by simp) rfl]
    simp [twice_each]
  refine ⟨hd, fun r => ?_, fun Screen draw hdraw s => ?_⟩
  · rw [hd, twice_each_count]
    exact even_two_mul _
  · rw [hd]
    exact twice_each_foldl draw hdraw _ s

theorem select_region_outlines_cancel_witness :
    (∀ (r : xcb_rectangle_t) (s : Bool), (fun _ b => !b) r ((fun _ b => !b) r s) = s) ∧
    (select_region_loop
      (Event.button_press 1 10 10 ::
        ([((30 : Int), (40 : Int)), (50, 80)].map (fun q => Event.motion_notify q.1 q.2) ++
          [Event.button_release 1]))
      select_region_init).drawn.foldl (fun s r => (fun _ b => !b) r s) true = true :=
  ⟨fun _ s => by cases s <;> rfl,
    (select_region_outlines_cancel 10 10 [(30, 40), (50, 80)]).2.2 Bool (fun _ b => !b)
      (fun _ s => by cases s <;> rfl) true⟩

/-! ### The origin computed by `xcbgrab_reposition` before the clamp -/

/-- Half of an `int`, by the division of C. -/
theorem tdiv_two_range (w : Int) (h1 : -2147483648 ≤ w) (h2 : w ≤ 2147483647) :
    -1073741824 ≤ Int.tdiv w 2 ∧ Int.tdiv w 2 ≤ 1073741823 := by
  rcases le_total 0 w with h | h
  · rw [Int.tdiv_eq_ediv h (by norm_num)]; omega
  · have e : Int.tdiv w 2 = -((-w) / 2) := by
      rw [← Int.tdiv_eq_ediv (by omega) (by norm_num), Int.neg_tdiv, neg_neg]
    rw [e]; omega

/-- The margin branch on one axis, when no `int` operation overflows. -/
theorem margin_axis (x w f p : Int) (h : margin_no_overflow x w f p) :
    (if p > wrapInt (wrapInt (x + w) - f) then
        wrapInt (x + wrapInt (p - wrapInt (wrapInt (x + w) - f)))
      else if p < wrapInt (x + f) then wrapInt (x - wrapInt (wrapInt (x + f) - p))
      else x) =
    (if p > x + w - f then x + (p - (x + w - f))
      else if p < x + f then x - (x + f - p)
      else x) := by
  obtain ⟨h1, h2, h3, h4, h5⟩ := h
  unfold fits_int at h1 h2 h3 h4 h5
  have e1 : wrapInt (x + f) = x + f := wrapInt_of_range _ (by omega) (by omega)
  have e2 : wrapInt (x + w) = x + w := wrapInt_of_range _ (by omega) (by omega)
  have e3 : wrapInt (x + w - f) = x + w - f := wrapInt_of_range _ (by omega) (by omega)
  rw [e2, e3, e1]
  by_cases c1 : p > x + w - f
  · obtain ⟨a, b⟩ := h4 c1
    have i1 : wrapInt (p - (x + w - f)) = p - (x + w - f) :=
      wrapInt_of_range _ (by omega) (by omega)
    have i2 : wrapInt (x + (p - (x + w - f))) = x + (p - (x + w - f)) :=
      wrapInt_of_range _ (by omega) (by omega)
    rw [if_pos c1, if_pos c1, i1, i2]
  · rw [if_neg c1, if_neg c1]
    by_cases c2 : p < x + f
    · obtain ⟨a, b⟩ := h5 c1 c2
      have i1 : wrapInt (x + f - p) = x + f - p := wrapInt_of_range _ (by omega) (by omega)
      have i2 : wrapInt (x - (x + f - p)) = x - (x + f - p) :=
        wrapInt_of_range _ (by omega) (by omega)
      rw [if_pos c2, if_pos c2, i1, i2]
    · rw [if_neg c2, if_neg c2]

/-- The result of `xcbgrab_reposition` in center mode. -/
theorem reposition_center (c : XCBGrabContext) (p : xcb_query_pointer_reply_t)
    (geo : xcb_get_geometry_reply_t) (hc : c.follow_mouse = FOLLOW_CENTER) :
    xcbgrab_reposition c (some p) (some geo) =
      (Ret.ok, { c with
        x := FFMIN (FFMAX 0 (wrapInt (p.win_x - Int.tdiv c.width 2)))
          (wrapInt (geo.width - c.width))
        y := FFMIN (FFMAX 0 (wrapInt (p.win_y - Int.tdiv c.height 2)))
          (wrapInt (geo.height - c.height)) }) := by
  simp only [xcbgrab_reposition, reposition_origin, hc, if_true]

/-- The result of `xcbgrab_reposition` in margin mode. -/
theorem reposition_margin (c : XCBGrabContext) (p : xcb_query_pointer_reply_t)
    (geo : xcb_get_geometry_reply_t) (hc : c.follow_mouse ≠ FOLLOW_CENTER) :
    xcbgrab_reposition c (some p) (some geo) =
      (Ret.ok, { c with
        x := FFMIN (FFMAX 0
          (if p.win_x > wrapInt (wrapInt (c.x + c.width) - c.follow_mouse) then
            wrapInt (c.x + wrapInt (p.win_x - wrapInt (wrapInt (c.x + c.width) - c.follow_mouse)))
          else if p.win_x < wrapInt (c.x + c.follow_mouse) then
            wrapInt (c.x - wrapInt (wrapInt (c.x + c.follow_mouse) - p.win_x))
          else c.x)) (wrapInt (geo.width - c.width))
        y := FFMIN (FFMAX 0
          (if p.win_y > wrapInt (wrapInt (c.y + c.height) - c.follow_mouse) then
            wrapInt (c.y + wrapInt (p.win_y - wrapInt (wrapInt (c.y + c.height) - c.follow_mouse)))
          else if p.win_y < wrapInt (c.y + c.follow_mouse) then
            wrapInt (c.y - wrapInt (wrapInt (c.y + c.follow_mouse) - p.win_y))
          else c.y)) (wrapInt (geo.height - c.height)) }) := by
  simp only [xcbgrab_reposition, reposition_origin, hc, if_false]

/-- C12: `xcbgrab_reposition` returns the clamp to `[0, screen - size]` of the
origin that it computes before the clamp, and that origin is the following.
In center mode it is `x = p.x - width / 2`, `y = p.y - height / 2` (the
division of C).  In margin mode, with `right = x + width - f` and
`left = x + f`, `x` becomes `x + (p.x - right)` if `p.x > right`,
`x - (left - p.x)` if `p.x < left` (and not `p.x > right`), and stays `x`
otherwise, and the same for `y`.  This holds whenever the `int` operations that
compute the origin do not overflow.  Hence in margin mode a region inside the
screen is returned unmoved when the pointer is inside the inner band on both
axes. -/
theorem reposition_origin_formulas (c : XCBGrabContext) (p : xcb_query_pointer_reply_t)
    (geo : xcb_get_geometry_reply_t) (hpx : is_int16 p.win_x) (hpy : is_int16 p.win_y) :
    (c.follow_mouse = FOLLOW_CENTER → fits_int c.width → fits_int c.height →
      xcbgrab_reposition c (some p) (some geo) =
        (Ret.ok, { c with
          x := FFMIN (FFMAX 0 (p.win_x - Int.tdiv c.width 2)) (wrapInt (geo.width - c.width))
          y := FFMIN (FFMAX 0 (p.win_y - Int.tdiv c.height 2))
            (wrapInt (geo.height - c.height)) })) ∧
    (c.follow_mouse ≠ FOLLOW_CENTER → margin_no_overflow c.x c.width c.follow_mouse p.win_x →
      (xcbgrab_reposition c (some p) (some geo)).2.x =
        FFMIN (FFMAX 0
          (if p.win_x > c.x + c.width - c.follow_mouse then
            c.x + (p.win_x - (c.x + c.width - c.follow_mouse))
          else if p.win_x < c.x + c.follow_mouse then c.x - (c.x + c.follow_mouse - p.win_x)
          else c.x)) (wrapInt (geo.width - c.width))) ∧
    (c.follow_mouse ≠ FOLLOW_CENTER → margin_no_overflow c.y c.height c.follow_mouse p.win_y →
      (xcbgrab_reposition c (some p) (some geo)).2.y =
        FFMIN (FFMAX 0
          (if p.win_y > c.y + c.height - c.follow_mouse then
            c.y + (p.win_y - (c.y + c.height - c.follow_mouse))
          else if p.win_y < c.y + c.follow_mouse then c.y - (c.y + c.follow_mouse - p.win_y)
          else c.y)) (wrapInt (geo.height - c.height))) ∧
    (xcbgrab_reposition c (some p) (some geo) =
      (Ret.ok, { c with
        x := (xcbgrab_reposition c (some p) (some geo)).2.x
        y := (xcbgrab_reposition c (some p) (some geo)).2.y })) ∧
    (c.follow_mouse ≠ FOLLOW_CENTER →
      margin_no_overflow c.x c.width c.follow_mouse p.win_x →
      margin_no_overflow c.y c.height c.follow_mouse p.win_y →
      0 ≤ c.x → 0 < c.width → c.x + c.width ≤ geo.width → geo.width ≤ 65535 →
      0 ≤ c.y → 0 < c.height → c.y + c.height ≤ geo.height → geo.height ≤ 65535 →
      c.x + c.follow_mouse ≤ p.win_x → p.win_x ≤ c.x + c.width - c.follow_mouse →
      c.y + c.follow_mouse ≤ p.win_y → p.win_y ≤ c.y + c.height - c.follow_mouse →
      xcbgrab_reposition c (some p) (some geo) = (Ret.ok, c)) := by
  unfold is_int16 at hpx hpy
  have hx : c.follow_mouse ≠ FOLLOW_CENTER →
      margin_no_overflow c.x c.width c.follow_mouse p.win_x →
      (xcbgrab_reposition c (some p) (some geo)).2.x =
        FFMIN (FFMAX 0
          (if p.win_x > c.x + c.width - c.follow_mouse then
            c.x + (p.win_x - (c.x + c.width - c.follow_mouse))
          else if p.win_x < c.x + c.follow_mouse then c.x - (c.x + c.follow_mouse - p.win_x)
          else c.x)) (wrapInt (geo.width - c.width)) := by
    intro hf h
    rw [reposition_margin c p geo hf]
    simp only
    rw [margin_axis _ _ _ _ h]
  have hy : c.follow_mouse ≠ FOLLOW_CENTER →
      margin_no_overflow c.y c.height c.follow_mouse p.win_y →
      (xcbgrab_reposition c (some p) (some geo)).2.y =
        FFMIN (FFMAX 0
          (if p.win_y > c.y + c.height - c.follow_mouse then
            c.y + (p.win_y - (c.y + c.height - c.follow_mouse))
          else if p.win_y < c.y + c.follow_mouse then c.y - (c.y + c.follow_mouse - p.win_y)
          else c.y)) (wrapInt (geo.height - c.height)) := by
    intro hf h
    rw [reposition_margin c p geo hf]
    simp only
    rw [margin_axis _ _ _ _ h]
  have hall : xcbgrab_reposition c (some p) (some geo) =
      (Ret.ok, { c with
        x := (xcbgrab_reposition c (some p) (some geo)).2.x
        y := (xcbgrab_reposition c (some p) (some geo)).2.y }) := by
    simp only [xcbgrab_reposition]
  refine ⟨fun hf hw hh => ?_, hx, hy, hall, ?_⟩
  · unfold fits_int at hw hh
    have t1 := tdiv_two_range c.width hw.1 hw.2
    have t2 := tdiv_two_range c.height hh.1 hh.2
    rw [reposition_center c p geo hf, wrapInt_of_range (p.win_x - Int.tdiv c.width 2)
      (by omega) (by omega), wrapInt_of_range (p.win_y - Int.tdiv c.height 2)
      (by omega) (by omega)]
  · intro hf mx my x0 w0 xw gw y0 h0 yh gh bx1 bx2 by1 by2
    have ex := hx hf mx
    have ey := hy hf my
    rw [if_neg (by omega), if_neg (by omega),
      wrapInt_of_range _ (by omega) (by omega)] at ex ey
    have cx : FFMIN (FFMAX 0 c.x) (geo.width - c.width) = c.x := by
      unfold FFMIN FFMAX; split_ifs <;> omega
    have cy : FFMIN (FFMAX 0 c.y) (geo.height - c.height) = c.y := by
      unfold FFMIN FFMAX; split_ifs <;> omega
    rw [hall, ex, ey, cx, cy]

theorem reposition_origin_formulas_witness :
    ({ sample_ctx with follow_mouse := 1 } : XCBGrabContext).x = 2 ∧
    (xcbgrab_reposition { sample_ctx with follow_mouse := 1 } (some ⟨1, 7, 1⟩)
        (some ⟨24, 1024, 768⟩)).2.x =
      FFMIN (FFMAX 0
        (if (7 : Int) > 2 + 4 - 1 then 2 + (7 - (2 + 4 - 1))
          else if (7 : Int) < 2 + 1 then 2 - (2 + 1 - 7) else 2)) (wrapInt (1024 - 4)) ∧
    FFMIN (FFMAX 0
        (if (7 : Int) > 2 + 4 - 1 then 2 + (7 - (2 + 4 - 1))
          else if (7 : Int) < 2 + 1 then 2 - (2 + 1 - 7) else 2)) (wrapInt (1024 - 4)) = 4 :=
  ⟨rfl,
    (reposition_origin_formulas { sample_ctx with follow_mouse := 1 } ⟨1, 7, 1⟩ ⟨24, 1024, 768⟩
      (by decide) (by decide)).2.1 (by decide) (by decide),
    by decide⟩

/-! ### `pixfmt_from_pixmap_format` -/

theorem pixmap_format_switch_ne_none (image_byte_order depth : Int) (fmt : xcb_format_t)
    (h : pixmap_format_switch image_byte_order depth fmt ≠ AVPixelFormat.AV_PIX_FMT_NONE) :
    fmt.depth = depth ∧
      ((depth = 32 ∧ fmt.bits_per_pixel = 32) ∨ (depth = 24 ∧ fmt.bits_per_pixel = 32) ∨
       (depth = 24 ∧ fmt.bits_per_pixel = 24) ∨ (depth = 16 ∧ fmt.bits_per_pixel = 16) ∨
       (depth = 15 ∧ fmt.bits_per_pixel = 16) ∨ (depth = 8 ∧ fmt.bits_per_pixel = 8)) := by
  unfold pixmap_format_switch at h
  split_ifs at h <;> first | (exact absurd rfl h) | (refine ⟨‹_›, ?_⟩; omega)

/-- The switch sets a format exactly for a supported entry, and then the
reported one. -/
theorem pixmap_format_switch_spec (image_byte_order depth : Int) (fmt : xcb_format_t) :
    (supported_format depth fmt = true →
      pixmap_format_switch image_byte_order depth fmt =
        reported_format image_byte_order depth fmt ∧
      pixmap_format_switch image_byte_order depth fmt ≠ AVPixelFormat.AV_PIX_FMT_NONE) ∧
    (supported_format depth fmt = false →
      pixmap_format_switch image_byte_order depth fmt = AVPixelFormat.AV_PIX_FMT_NONE) := by
  constructor
  · intro h
    simp only [supported_format, decide_eq_true_eq] at h
    obtain ⟨hd, h⟩ := h
    rcases h with ⟨h1, h2⟩ | ⟨h1, h2⟩ | ⟨h1, h2⟩ | ⟨h1, h2⟩ | ⟨h1, h2⟩ | ⟨h1, h2⟩ <;>
      (simp only [pixmap_format_switch, reported_format, hd, h1, h2]
       split_ifs <;> simp_all)
  · intro h
    simp only [supported_format, decide_eq_false_iff_not] at h
    by_contra hne
    exact h (pixmap_format_switch_ne_none image_byte_order depth fmt hne)

/-- C14: `pixfmt_from_pixmap_format` succeeds if and only if the list of pixmap
formats contains an entry with the requested depth whose (depth, bits per
pixel) pair is one of (32,32), (24,32), (24,24), (16,16), (15,16), (8,8); on
success it reports the bits per pixel of the first such entry and the format
BGR0/0RGB, BGR24/RGB24, RGB565LE/BE, RGB555LE/BE or PAL8 that belongs to it;
otherwise it returns `AVERROR_PATCHWELCOME` with the format left as
`AV_PIX_FMT_NONE` (and `*bpp` untouched). -/
theorem pixfmt_from_pixmap_format_spec (formats : List xcb_format_t)
    (image_byte_order depth bpp : Int) :
    ((pixfmt_from_pixmap_format formats image_byte_order depth bpp).1 = Ret.ok ↔
      ∃ fmt ∈ formats, fmt.depth = depth ∧
        ((depth = 32 ∧ fmt.bits_per_pixel = 32) ∨ (depth = 24 ∧ fmt.bits_per_pixel = 32) ∨
         (depth = 24 ∧ fmt.bits_per_pixel = 24) ∨ (depth = 16 ∧ fmt.bits_per_pixel = 16) ∨
         (depth = 15 ∧ fmt.bits_per_pixel = 16) ∨ (depth = 8 ∧ fmt.bits_per_pixel = 8))) ∧
    (∀ fmt, formats.find? (supported_format depth) = some fmt →
      pixfmt_from_pixmap_format formats image_byte_order depth bpp =
        (Ret.ok, reported_format image_byte_order depth fmt, fmt.bits_per_pixel)) ∧
    (formats.find? (supported_format depth) = none →
      pixfmt_from_pixmap_format formats image_byte_order depth bpp =
        (Ret.err AVError.PATCHWELCOME, AVPixelFormat.AV_PIX_FMT_NONE, bpp)) := by
  have key : ∀ l : List xcb_format_t,
      (∀ fmt, l.find? (supported_format depth) = some fmt →
        pixfmt_from_pixmap_format l image_byte_order depth bpp =
          (Ret.ok, reported_format image_byte_order depth fmt, fmt.bits_per_pixel)) ∧
      (l.find? (supported_format depth) = none →
        pixfmt_from_pixmap_format l image_byte_order depth bpp =
          (Ret.err AVError.PATCHWELCOME, AVPixelFormat.AV_PIX_FMT_NONE, bpp)) := by
    intro l
    induction l with
    | nil => simp [pixfmt_from_pixmap_format]
    | cons a t ih =>
      obtain ⟨s1, s2⟩ := pixmap_format_switch_spec image_byte_order depth a
      cases hs : supported_format depth a with
      | true =>
        obtain ⟨e1, e2⟩ := s1 hs
        refine ⟨fun fmt hf => ?_, fun hf => ?_⟩
        · simp only [List.find?, hs, Option.some.injEq] at hf
          subst hf
          simp only [pixfmt_from_pixmap_format]
          rw [if_pos e2, e1]
        · simp [List.find?, hs] at hf
      | false =>
        have e := s2 hs
        simp only [List.find?, hs]
        simp only [pixfmt_from_pixmap_format]
        rw [if_neg (by simp [e])]
        exact ih
  refine ⟨?_, (key formats).1, (key formats).2⟩
  constructor
  · intro h
    cases hf : formats.find? (supported_format depth) with
    | none =>
      rw [(key formats).2 hf] at h
      simp at h
    | some fmt =>
      have hm := List.mem_of_find?_eq_some hf
      have hp := List.find?_some hf
      simp only [supported_format, decide_eq_true_eq] at hp
      exact ⟨fmt, hm, hp⟩
  · rintro ⟨fmt, hm, hp⟩
    cases hf : formats.find? (supported_format depth) with
    | none =>
      have := List.find?_eq_none.mp hf fmt hm
      simp only [supported_format, decide_eq_true_eq] at this
      exact absurd hp this
    | some f => rw [(key formats).1 f hf]

theorem pixfmt_from_pixmap_format_spec_witness :
    pixfmt_from_pixmap_format [⟨1, 1⟩, ⟨24, 8⟩, ⟨24, 32⟩, ⟨32, 32⟩, ⟨24, 24⟩]
        XCB_IMAGE_ORDER_LSB_FIRST 24 0 =
      (Ret.ok, AVPixelFormat.AV_PIX_FMT_BGR0, 32) :=
  (pixfmt_from_pixmap_format_spec [⟨1, 1⟩, ⟨24, 8⟩, ⟨24, 32⟩, ⟨32, 32⟩, ⟨24, 24⟩]
    XCB_IMAGE_ORDER_LSB_FIRST 24 0).2.1 ⟨24, 32⟩ (by decide)

/-! ### The error contracts of the two acquisition functions -/

/-- C13: `xcbgrab_frame` returns `AVERROR(EACCES)` if and only if the reply
carries an error, returns `AVERROR(EAGAIN)` if and only if there is no error and
the reply is `NULL`, and otherwise, when the buffer wrapper is created, returns
0 with the packet's data being the reply's pixel bytes and its size being the
reply's data length. -/
theorem xcbgrab_frame_contract (c : XCBGrabContext) (pkt : AVPacket) (env : GetImageEnv) :
    ((xcbgrab_frame c pkt env).1 = Ret.err AVError.EACCES ↔ env.error = true) ∧
    ((xcbgrab_frame c pkt env).1 = Ret.err AVError.EAGAIN ↔
      (env.error = false ∧ env.img = none)) ∧
    (∀ (data : Int → Int) (length : Int),
      env.error = false → env.img = some (data, length) → env.buffer_created = true →
      (xcbgrab_frame c pkt env).1 = Ret.ok ∧
      (xcbgrab_frame c pkt env).2.data = data ∧
      (xcbgrab_frame c pkt env).2.size = length) := by
  unfold xcbgrab_frame
  cases he : env.error with
  | true => simp
  | false =>
    cases hi : env.img with
    | none => simp
    | some dl =>
      obtain ⟨d, l⟩ := dl
      cases hb : env.buffer_created with
      | true => simp
      | false => simp

theorem xcbgrab_frame_contract_witness :
    (xcbgrab_frame sample_ctx blank_packet sample_env.image).1 = Ret.ok ∧
    (xcbgrab_frame sample_ctx blank_packet sample_env.image).2.data = sample_frame ∧
    (xcbgrab_frame sample_ctx blank_packet sample_env.image).2.size = 48 :=
  (xcbgrab_frame_contract sample_ctx blank_packet sample_env.image).2.2 sample_frame 48
    rfl rfl rfl

/-- C17 fails on the code: with a pooled buffer, no error and a `NULL` reply,
`xcbgrab_frame_shm` returns 0 with a packet of `frame_size` bytes, whereas
`xcbgrab_frame` returns `AVERROR(EAGAIN)` for a `NULL` reply without error. -/
theorem xcbgrab_frame_shm_null_reply :
    (xcbgrab_frame_shm sample_ctx blank_packet
      { buf := some sample_frame, error := false, img := false }).1 = Ret.ok ∧
    (xcbgrab_frame_shm sample_ctx blank_packet
      { buf := some sample_frame, error := false, img := false }).2.size = 48 ∧
    (xcbgrab_frame_shm sample_ctx blank_packet
      { buf := some sample_frame, error := false, img := false }).2.buf =
        some AVBufferRef.shm_buffer ∧
    (xcbgrab_frame sample_ctx blank_packet
      { error := false, img := none, buffer_created := true }).1 = Ret.err AVError.EAGAIN := by
  decide

/-! ### The shared-memory pool -/

/-- A call that returns leaves `shm_pool` as it found it. -/
theorem read_packet_shm_pool (c : XCBGrabContext) (pkt : AVPacket) (env : ReadPacketEnv)
    (r : ReadPacketResult) (h : xcbgrab_read_packet c pkt env = some r) :
    r.ctx.shm_pool = c.shm_pool := by
  obtain ⟨x, y, data, -, -, hr⟩ := read_packet_shape c pkt env r h
  have ha := acquire_ctx
    { c with time_frame := c.time_frame + c.frame_duration, x := x, y := y } pkt env
  simp only at hr
  rcases hr with hr | ⟨-, hr⟩ | ⟨-, hr⟩
  · subst hr; rfl
  · subst hr
    rcases ha with ha | ha <;> rw [ha]
  · subst hr
    rcases ha with ha | ha <;> simp only [ha]

theorem read_packets_shm_pool (calls : List (AVPacket × ReadPacketEnv)) (c : XCBGrabContext)
    (k : Nat) (r : ReadPacketResult) (h : (read_packets c calls)[k]? = some r) :
    r.ctx.shm_pool = c.shm_pool := by
  induction calls generalizing c k with
  | nil => simp [read_packets] at h
  | cons call rest ih =>
    obtain ⟨pkt, env⟩ := call
    simp only [read_packets] at h
    cases hr0 : xcbgrab_read_packet c pkt env with
    | none => simp [hr0] at h
    | some r0 =>
      simp only [hr0] at h
      have t := read_packet_shm_pool c pkt env r0 hr0
      cases k with
      | zero =>
        simp only [List.getElem?_cons_zero, Option.some.injEq] at h
        subst h
        exact t
      | succ k =>
        simp only [List.getElem?_cons_succ] at h
        rw [ih r0.ctx k h, t]

/-- C18 fails on the code: in the call of the sample session whose fast-path
attempt fails with `AVERROR(EACCES)`, `xcbgrab_read_packet` clears `has_shm`,
but the pool is still present when that call returns and when the next call
returns.  `xcbgrab_read_header`, when `check_shm` reports that the extension is
not usable, clears `has_shm` and frees the pool. -/
theorem read_packet_leaves_shm_pool :
    ((read_packets sample_ctx sample_calls).get ⟨1, by decide⟩).shm_ret =
      some (Ret.err AVError.EACCES) ∧
    ((read_packets sample_ctx sample_calls).get ⟨1, by decide⟩).ctx.has_shm = 0 ∧
    ((read_packets sample_ctx sample_calls).get ⟨1, by decide⟩).ctx.shm_pool = true ∧
    ((read_packets sample_ctx sample_calls).get ⟨2, by decide⟩).ctx.shm_pool = true ∧
    (xcbgrab_read_header default_ctx no_shm_env).1 = Ret.ok ∧
    (xcbgrab_read_header default_ctx no_shm_env).2.has_shm = 0 ∧
    (xcbgrab_read_header default_ctx no_shm_env).2.shm_pool = false := by
  decide

/-! ### The range of the blended byte -/

/-- C20: for an alpha `a` with `0 < a < 255`, a cursor channel `s` with
`0 ≤ s ≤ a` and a frame byte `d` in `0..255`, the value
`s + (d * (255 - a) + 127) / 255` that `BLEND(s, d, a)` computes lies in
`0..255`, so the byte stored in the frame is that value, without wraparound. -/
theorem BLEND_premultiplied_in_byte (s d a : Int) (ha0 : 0 < a) (ha1 : a < 255)
    (hs0 : 0 ≤ s) (hs : s ≤ a) (hd0 : 0 ≤ d) (hd : d ≤ 255) :
    BLEND s d a = s + (d * (255 - a) + 127) / 255 ∧
    0 ≤ BLEND s d a ∧ BLEND s d a ≤ 255 ∧
    (∀ (frame : Int → Int) (off : Int), store_u8 frame off (BLEND s d a) off = BLEND s d a) ∧
    (∀ (pix : Nat) (image : Int) (frame : Int → Int) (k : Nat), k < 3 →
      cursor_byte pix 3 = a → cursor_byte pix k = s → frame (image + k) = d →
      draw_mouse_pixel pix image frame (image + k) = s + (d * (255 - a) + 127) / 255) := by
  have h1 : 0 ≤ d * (255 - a) := mul_nonneg hd0 (by omega)
  have h2 : d * (255 - a) ≤ 255 * (255 - a) :=
    mul_le_mul_of_nonneg_right hd (by omega)
  have h127 : Int.tdiv 255 2 = 127 := by decide
  have e : BLEND s d a = s + (d * (255 - a) + 127) / 255 := by
    unfold BLEND
    rw [h127, Int.tdiv_eq_ediv (by omega) (by norm_num)]
  rw [e]
  refine ⟨rfl, by omega, by omega, fun frame off => ?_, fun pix image frame k hk h3 hks hfd => ?_⟩
  · rw [store_u8_same]
    omega
  · rw [draw_mouse_pixel_at pix image frame k hk]
    have n0 : cursor_byte pix 3 ≠ 0 := by omega
    have n1 : cursor_byte pix 3 ≠ 255 := by omega
    simp only [blend_byte, n0, n1, if_false]
    rw [h3, hks, hfd, Int.tdiv_eq_ediv (by omega) (by norm_num)]
    omega

theorem BLEND_premultiplied_in_byte_witness :
    BLEND 100 200 128 = 100 + (200 * (255 - 128) + 127) / 255 ∧
    0 ≤ BLEND 100 200 128 ∧ BLEND 100 200 128 ≤ 255 ∧
    (∀ (frame : Int → Int) (off : Int),
      store_u8 frame off (BLEND 100 200 128) off = BLEND 100 200 128) ∧
    (∀ (pix : Nat) (image : Int) (frame : Int → Int) (k : Nat), k < 3 →
      cursor_byte pix 3 = 128 → cursor_byte pix k = 100 → frame (image + k) = 200 →
      draw_mouse_pixel pix image frame (image + k) = 100 + (200 * (255 - 128) + 127) / 255) :=
  BLEND_premultiplied_in_byte 100 200 128 (by decide) (by decide) (by decide) (by decide)
    (by decide) (by decide)

/-! ### The region after `xcbgrab_read_header` -/

/-- C15 fails on the code: with the URL `":0.0+-5,0"` and a 100x100 region on a
1024x768 screen, `xcbgrab_read_header` succeeds and leaves `x = -5`; the bounds
check of `create_stream` only compares `x + width` and `y + height` with the
screen size. -/
theorem read_header_negative_offset :
    (xcbgrab_read_header default_ctx negative_offset_env).1 = Ret.ok ∧
    (xcbgrab_read_header default_ctx negative_offset_env).2.x = -5 ∧
    (xcbgrab_read_header default_ctx negative_offset_env).2.y = 0 ∧
    (xcbgrab_read_header default_ctx negative_offset_env).2.width = 100 ∧
    (xcbgrab_read_header default_ctx negative_offset_env).2.height = 100 ∧
    ¬ (0 ≤ (xcbgrab_read_header default_ctx negative_offset_env).2.x) := by
  decide

/-! ### Bounds of the accesses of `xcbgrab_draw_mouse` -/

/-- A pixel index `r * w + q` with `0 ≤ r < h` and `0 ≤ q < w` lies in
`[0, w * h)`. -/
theorem index_in_bounds (r q w h : Int) (hr0 : 0 ≤ r) (hr : r < h) (hq0 : 0 ≤ q) (hq : q < w) :
    0 ≤ r * w + q ∧ r * w + q + 1 ≤ w * h := by
  have h1 : 0 ≤ r * w := mul_nonneg hr0 (by omega)
  have h2 : (r + 1) * w ≤ h * w := mul_le_mul_of_nonneg_right (by omega) (by omega)
  constructor
  · omega
  · nlinarith

/-- Every visited pointer pair is inside the cursor array and, with at least
three bytes per pixel, its three colour bytes are inside the frame. -/
theorem draw_mouse_visited_in_bounds (gr : XCBGrabContext)
    (ci : xcb_xfixes_get_cursor_image_reply_t) (pixels : Int → Nat) (win_x win_y : Int)
    (frame : Int → Int) (hs : 3 ≤ Int.tdiv gr.bpp 8) (e : Int × Int)
    (he : e ∈ (draw_mouse_loops gr ci pixels win_x win_y frame).visited) :
    0 ≤ e.1 ∧ e.1 < ci.width * ci.height ∧
    0 ≤ e.2 ∧ e.2 + 3 ≤ gr.width * gr.height * Int.tdiv gr.bpp 8 := by
  obtain ⟨X, Y, hc, hcap, rfl⟩ := (mem_draw_mouse_visited _ _ _ _ _ _ _).mp he
  unfold in_cursor at hc
  unfold in_capture at hcap
  obtain ⟨c1, c2⟩ := index_in_bounds (Y - (ci.y - ci.yhot)) (X - (ci.x - ci.xhot))
    ci.width ci.height (by omega) (by omega) (by omega) (by omega)
  obtain ⟨f1, f2⟩ := index_in_bounds (Y - win_y - gr.y) (X - win_x - gr.x)
    gr.width gr.height (by omega) (by omega) (by omega) (by omega)
  simp only [cursor_index, frame_offset]
  generalize Int.tdiv gr.bpp 8 = s at hs ⊢
  generalize (Y - win_y - gr.y) * gr.width + (X - win_x - gr.x) = i at f1 f2 ⊢
  generalize gr.width * gr.height = n at f2 ⊢
  have m1 : 0 ≤ i * s := mul_nonneg f1 (by omega)
  have m2 : (i + 1) * s ≤ n * s := mul_le_mul_of_nonneg_right f2 (by omega)
  refine ⟨c1, by omega, m1, ?_⟩
  nlinarith

/-- Case analysis of `xcbgrab_read_header`: it either fails, or succeeds with
a context in which `draw_mouse` is set only with at least 24 bits per pixel. -/
theorem read_header_cases (c : XCBGrabContext) (env : ReadHeaderEnv)
    (hx : env.config.libxcb_xfixes = true) (P : Ret × XCBGrabContext → Prop)
    (herr : ∀ (ret : Ret) (c' : XCBGrabContext), ret.failed = true → P (ret, c'))
    (hgood : ∀ c' : XCBGrabContext, (c'.draw_mouse ≠ 0 → 24 ≤ c'.bpp) → P (Ret.ok, c')) :
    P (xcbgrab_read_header c env) := by
  unfold xcbgrab_read_header
  lift_lets
  intro c1
  clear_value c1
  split
  · exact herr _ _ rfl
  · split
    · exact herr _ _ rfl
    · split
      · exact herr _ _ rfl
      · lift_lets
        intro c2 c3 sel c4 c5 cs c6 c7 c8 c9
        clear_value cs sel
        split
        · exact herr _ _ ‹_›
        · split
          · exact herr _ _ ‹_›
          · apply hgood
            clear_value c7
            intro h9
            simp only [c9, hx, if_true] at h9 ⊢
            by_cases a : c7.draw_mouse ≠ 0
            · rw [if_pos a] at h9 ⊢
              by_cases b : c8.draw_mouse ≠ 0 ∧ c8.bpp < 24
              · rw [if_pos b] at h9
                exact absurd rfl h9
              · rw [if_neg b] at h9 ⊢
                by_contra hlt
                exact b ⟨h9, by omega⟩
            · rw [if_neg a] at h9
              exact absurd h9 a

/-- After a successful `xcbgrab_read_header` in a build with
`CONFIG_LIBXCB_XFIXES`, `draw_mouse` is set only with at least 24 bits per
pixel. -/
theorem read_header_draw_mouse_bpp (c : XCBGrabContext) (env : ReadHeaderEnv)
    (hx : env.config.libxcb_xfixes = true)
    (hok : (xcbgrab_read_header c env).1 = Ret.ok)
    (hd : (xcbgrab_read_header c env).2.draw_mouse ≠ 0) :
    24 ≤ (xcbgrab_read_header c env).2.bpp := by
  revert hok hd
  apply read_header_cases c env hx
    (fun r => r.1 = Ret.ok → r.2.draw_mouse ≠ 0 → 24 ≤ r.2.bpp)
  · intro ret c' hf hok
    simp only at hok
    rw [hok] at hf
    exact absurd hf (by decide)
  · intro c' h _ hd
    exact h hd

/-- For a region and a cursor reply within `draw_mouse_in_range` and at least
three bytes per pixel, every execution of the loop body of `xcbgrab_draw_mouse`
(its `int` arithmetic wrapped to 32 bits) reads the cursor array at an index in
`[0, ci.width * ci.height)` and accesses the frame at byte offsets in
`[0, width * height * (bpp / 8))`, and no byte outside that range is changed. -/
theorem draw_mouse_wrap_in_bounds (gr : XCBGrabContext) (frame : Int → Int)
    (ci : xcb_xfixes_get_cursor_image_reply_t) (pixels : Int → Nat)
    (hci : ci.cursor_image = some pixels) (win_x win_y : Int)
    (hr : draw_mouse_in_range gr ci win_x win_y) (hs : 3 ≤ Int.tdiv gr.bpp 8) :
    (∀ e ∈ (draw_mouse_loops_wrap gr ci pixels win_x win_y frame).visited,
      (0 ≤ e.1 ∧ e.1 < ci.width * ci.height) ∧
      ∀ k : Int, 0 ≤ k → k ≤ 2 →
        0 ≤ e.2 + k ∧ e.2 + k < gr.width * gr.height * Int.tdiv gr.bpp 8) ∧
    (∀ b : Int, b < 0 ∨ gr.width * gr.height * Int.tdiv gr.bpp 8 ≤ b →
      xcbgrab_draw_mouse_wrap gr frame (some ci) win_x win_y b = frame b) := by
  rw [xcbgrab_draw_mouse_wrap_eq gr frame ci win_x win_y hr,
    (draw_mouse_loops_wrap_eq gr ci pixels win_x win_y frame hr).2]
  refine ⟨fun e he => ?_, fun b hb => ?_⟩
  · obtain ⟨h1, h2, h3, h4⟩ := draw_mouse_visited_in_bounds gr ci pixels win_x win_y frame hs e he
    exact ⟨⟨h1, h2⟩, fun k hk0 hk2 => ⟨by omega, by omega⟩⟩
  · rw [xcbgrab_draw_mouse_eq gr frame ci pixels hci]
    apply foldl_composite_other
    intro e he
    obtain ⟨_, _, h3, h4⟩ := draw_mouse_visited_in_bounds gr ci pixels win_x win_y frame hs e he
    omega

/-- C21 fails on the code: with the option `grab_x` at `INT_MAX` and a 4x3
region, `xcbgrab_read_header` succeeds (the sum `x + width` of the bounds check
of `create_stream` wraps to a negative value) and leaves `draw_mouse` set at
32 bits per pixel; `xcbgrab_draw_mouse` then computes `w = 4` and
`c_off = 2147483643` and runs its loop body four times, reading the cursor
array of `3 * 2 = 6` pixels at the indices 2147483643 to 2147483646.  The
region does not meet the cursor footprint at all: in exact integers the body
is never run. -/
theorem draw_mouse_out_of_bounds_read :
    (xcbgrab_read_header origin_max_ctx plain_env).1 = Ret.ok ∧
    (xcbgrab_read_header origin_max_ctx plain_env).2.x = 2147483647 ∧
    (xcbgrab_read_header origin_max_ctx plain_env).2.draw_mouse = 1 ∧
    Int.tdiv (xcbgrab_read_header origin_max_ctx plain_env).2.bpp 8 = 4 ∧
    (draw_mouse_loops_wrap (xcbgrab_read_header origin_max_ctx plain_env).2 sample_cursor
        sample_pixels 0 0 sample_frame).visited =
      [(2147483643, 32), (2147483644, 36), (2147483645, 40), (2147483646, 44)] ∧
    sample_cursor.width * sample_cursor.height = 6 ∧
    ¬ (∀ e ∈ (draw_mouse_loops_wrap (xcbgrab_read_header origin_max_ctx plain_env).2
          sample_cursor sample_pixels 0 0 sample_frame).visited,
        0 ≤ e.1 ∧ e.1 < sample_cursor.width * sample_cursor.height) ∧
    (draw_mouse_loops (xcbgrab_read_header origin_max_ctx plain_env).2 sample_cursor
        sample_pixels 0 0 sample_frame).visited = [] := by
  decide

/-! ### Idempotence of `xcbgrab_reposition` -/

/-- The margin branch on one axis, with wraparound: the new origin is
`p - w + f`, or `p - f`, or the old origin with the pointer inside the band. -/
theorem margin_move_cases (x w f p : Int) (hx : fits_int x) (hp : is_int16 p)
    (hf : 0 ≤ f) (hfw : 2 * f ≤ w) (hw : w ≤ 65535) :
    (if p > wrapInt (wrapInt (x + w) - f) then
        wrapInt (x + wrapInt (p - wrapInt (wrapInt (x + w) - f)))
      else if p < wrapInt (x + f) then wrapInt (x - wrapInt (wrapInt (x + f) - p))
      else x) = p - w + f ∨
    (if p > wrapInt (wrapInt (x + w) - f) then
        wrapInt (x + wrapInt (p - wrapInt (wrapInt (x + w) - f)))
      else if p < wrapInt (x + f) then wrapInt (x - wrapInt (wrapInt (x + f) - p))
      else x) = p - f ∨
    ((if p > wrapInt (wrapInt (x + w) - f) then
        wrapInt (x + wrapInt (p - wrapInt (wrapInt (x + w) - f)))
      else if p < wrapInt (x + f) then wrapInt (x - wrapInt (wrapInt (x + f) - p))
      else x) = x ∧ x + f ≤ p ∧ p ≤ x + w - f) := by
  unfold fits_int at hx
  unfold is_int16 at hp
  unfold wrapInt
  split_ifs with h1 h2
  · left; omega
  · right; left; omega
  · right; right; omega

/-- One axis of `xcbgrab_reposition` in margin mode is idempotent. -/
theorem margin_axis_idempotent (x w f p gw : Int) (hx : fits_int x) (hp : is_int16 p)
    (hf : 0 ≤ f) (hfw : 2 * f ≤ w) (hwg : w ≤ gw) (hg : gw ≤ 65535) (m : Int)
    (hm : m = p - w + f ∨ m = p - f ∨ (m = x ∧ x + f ≤ p ∧ p ≤ x + w - f)) :
    FFMIN (FFMAX 0
      (if p > wrapInt (wrapInt (FFMIN (FFMAX 0 m) (wrapInt (gw - w)) + w) - f) then
        wrapInt (FFMIN (FFMAX 0 m) (wrapInt (gw - w)) +
          wrapInt (p - wrapInt (wrapInt (FFMIN (FFMAX 0 m) (wrapInt (gw - w)) + w) - f)))
      else if p < wrapInt (FFMIN (FFMAX 0 m) (wrapInt (gw - w)) + f) then
        wrapInt (FFMIN (FFMAX 0 m) (wrapInt (gw - w)) -
          wrapInt (wrapInt (FFMIN (FFMAX 0 m) (wrapInt (gw - w)) + f) - p))
      else FFMIN (FFMAX 0 m) (wrapInt (gw - w)))) (wrapInt (gw - w)) =
    FFMIN (FFMAX 0 m) (wrapInt (gw - w)) := by
  unfold is_int16 at hp
  have hhi : wrapInt (gw - w) = gw - w := wrapInt_of_range _ (by omega) (by omega)
  rw [hhi]
  obtain ⟨r0, r1⟩ := clamp_range m (gw - w) (by omega)
  generalize hx1 : FFMIN (FFMAX 0 m) (gw - w) = x1 at r0 r1 ⊢
  have hno : margin_no_overflow x1 w f p := by
    unfold margin_no_overflow fits_int
    refine ⟨by omega, by omega, by omega, fun _ => by omega, fun _ _ => by omega⟩
  rw [margin_axis x1 w f p hno]
  unfold FFMIN FFMAX at hx1 ⊢
  unfold fits_int at hx
  split_ifs at hx1 ⊢ <;> omega

/-- In margin mode an origin that the clamped step maps to itself is returned
unchanged. -/
theorem reposition_margin_fixed (c : XCBGrabContext) (p : xcb_query_pointer_reply_t)
    (geo : xcb_get_geometry_reply_t) (hc : c.follow_mouse ≠ FOLLOW_CENTER) (A B : Int)
    (hA : FFMIN (FFMAX 0
        (if p.win_x > wrapInt (wrapInt (A + c.width) - c.follow_mouse) then
          wrapInt (A + wrapInt (p.win_x - wrapInt (wrapInt (A + c.width) - c.follow_mouse)))
        else if p.win_x < wrapInt (A + c.follow_mouse) then
          wrapInt (A - wrapInt (wrapInt (A + c.follow_mouse) - p.win_x))
        else A)) (wrapInt (geo.width - c.width)) = A)
    (hB : FFMIN (FFMAX 0
        (if p.win_y > wrapInt (wrapInt (B + c.height) - c.follow_mouse) then
          wrapInt (B + wrapInt (p.win_y - wrapInt (wrapInt (B + c.height) - c.follow_mouse)))
        else if p.win_y < wrapInt (B + c.follow_mouse) then
          wrapInt (B - wrapInt (wrapInt (B + c.follow_mouse) - p.win_y))
        else B)) (wrapInt (geo.height - c.height)) = B) :
    xcbgrab_reposition { c with x := A, y := B } (some p) (some geo) =
      (Ret.ok, { c with x := A, y := B }) := by
  rw [reposition_margin { c with x := A, y := B } p geo hc]
  simp only
  rw [hA, hB]

/-- C22: for a region with `width ≤ screen_width` and `height ≤ screen_height`,
every pointer position, and `follow_mouse` either `FOLLOW_CENTER` or a margin
`f` with `0 ≤ 2 * f ≤ width` and `2 * f ≤ height`, applying
`xcbgrab_reposition` to its own result (same pointer, same screen) returns that
result again, and `width` and `height` are not modified.  The `int` operations
wrap to 32 bits; the hypotheses on ranges are those of the C types (`int`
origin, `int16_t` pointer coordinates, `uint16_t` screen size). -/
theorem reposition_idempotent (c : XCBGrabContext) (p : xcb_query_pointer_reply_t)
    (geo : xcb_get_geometry_reply_t)
    (hx : fits_int c.x) (hy : fits_int c.y) (hpx : is_int16 p.win_x) (hpy : is_int16 p.win_y)
    (hgw : geo.width ≤ 65535) (hgh : geo.height ≤ 65535)
    (hw : c.width ≤ geo.width) (hh : c.height ≤ geo.height)
    (hmode : c.follow_mouse = FOLLOW_CENTER ∨
      (0 ≤ 2 * c.follow_mouse ∧ 2 * c.follow_mouse ≤ c.width ∧
        2 * c.follow_mouse ≤ c.height)) :
    xcbgrab_reposition (xcbgrab_reposition c (some p) (some geo)).2 (some p) (some geo) =
      xcbgrab_reposition c (some p) (some geo) ∧
    (xcbgrab_reposition c (some p) (some geo)).2.width = c.width ∧
    (xcbgrab_reposition c (some p) (some geo)).2.height = c.height := by
  rcases hmode with hc | ⟨h0, h1, h2⟩
  · rw [reposition_center c p geo hc]
    exact ⟨reposition_center _ p geo hc, rfl, rfl⟩
  · have hc : c.follow_mouse ≠ FOLLOW_CENTER := by unfold FOLLOW_CENTER; omega
    rw [reposition_margin c p geo hc]
    refine ⟨?_, rfl, rfl⟩
    have ex := margin_axis_idempotent c.x c.width c.follow_mouse p.win_x geo.width hx hpx
      (by omega) h1 hw hgw _
      (margin_move_cases c.x c.width c.follow_mouse p.win_x hx hpx (by omega) h1 (by omega))
    have ey := margin_axis_idempotent c.y c.height c.follow_mouse p.win_y geo.height hy hpy
      (by omega) h2 hh hgh _
      (margin_move_cases c.y c.height c.follow_mouse p.win_y hy hpy (by omega) h2 (by omega))
    exact reposition_margin_fixed c p geo hc _ _ ex ey

theorem reposition_idempotent_witness :
    xcbgrab_reposition
        (xcbgrab_reposition { sample_ctx with follow_mouse := 1 } (some ⟨1, 700, 20⟩)
          (some ⟨24, 1024, 768⟩)).2 (some ⟨1, 700, 20⟩) (some ⟨24, 1024, 768⟩) =
      xcbgrab_reposition { sample_ctx with follow_mouse := 1 } (some ⟨1, 700, 20⟩)
        (some ⟨24, 1024, 768⟩) ∧
    (xcbgrab_reposition { sample_ctx with follow_mouse := 1 } (some ⟨1, 700, 20⟩)
      (some ⟨24, 1024, 768⟩)).2.width = 4 ∧
    (xcbgrab_reposition { sample_ctx with follow_mouse := 1 } (some ⟨1, 700, 20⟩)
      (some ⟨24, 1024, 768⟩)).2.height = 3 :=
  reposition_idempotent { sample_ctx with follow_mouse := 1 } ⟨1, 700, 20⟩ ⟨24, 1024, 768⟩
    (by decide) (by decide) (by decide) (by decide) (by decide) (by decide) (by decide)
    (by decide) (Or.inr (by decide))

end XcbGrab
